import Mathlib

/-!
Frame allocator, fault handler and process lifecycle of the sys161 kernel.

A shallow embedding of `kern/arch/mips/vm/dumbvm.c` and
`kern/syscall/proc_syscalls.c` (both built with `OPT_A2` / `OPT_A3` on), followed by
the properties proved about them.

Conventions.
* `unsigned long`, `paddr_t`, `vaddr_t`, `size_t` and `uint32_t` are 32-bit on MIPS; they
  are natural numbers here, and every operation that can wrap is reduced modulo `2^32`.
* A kernel panic (`panic`, a failed `KASSERT`) is an explicit outcome.
* The core-map lives in physical memory at `coremap`; its `numpages` words are the list
  `table`, so `table[i]` is `*(unsigned long *) PADDR_TO_KVADDR(coremap + i * 4)`.
-/

namespace Sys161

/-! ## Machine constants (headers `vm.h`, `mips/tlb.h`, `kern/errno.h`, `kern/wait.h`) -/

/-- Modelled from the spec: the word size of `unsigned long` / `paddr_t` / `vaddr_t`
on MIPS (the headers that declare the types are not part of the sources). -/
def WORD : Nat := 2 ^ 32

/-- Modelled from the spec: `PAGE_SIZE` of `mips/vm.h` ("page-sized unit"), 4 KiB. -/
def PAGE_SIZE : Nat := 4096

/-- Modelled from the spec: `PAGE_FRAME` of `mips/vm.h`, the mask of the page number. -/
def PAGE_FRAME : Nat := 0xfffff000

/-- Modelled from the spec: `MIPS_KSEG0` of `mips/vm.h`, the base of the direct-mapped
kernel segment. -/
def MIPS_KSEG0 : Nat := 0x80000000

/-- Modelled from the spec: `USERSTACK` of `mips/vm.h` (the fixed top of the user stack),
which is `USERSPACETOP = MIPS_KSEG0`. -/
def USERSTACK : Nat := MIPS_KSEG0

/-- Modelled from the spec: `sizeof(unsigned long)` on MIPS (metadata entry size). -/
def SIZEOF_ULONG : Nat := 4

/-- The constant `DUMBVM_STACKPAGES` (`#define DUMBVM_STACKPAGES 12`). -/
def DUMBVM_STACKPAGES : Nat := 12

/-- Modelled from the spec: `PADDR_TO_KVADDR(paddr)` of `mips/vm.h`:
`paddr + MIPS_KSEG0` in 32-bit arithmetic. -/
def PADDR_TO_KVADDR (paddr : Nat) : Nat := (paddr + MIPS_KSEG0) % WORD

/-- Modelled from the spec: `KVADDR_TO_PADDR(kvaddr)`: `kvaddr - MIPS_KSEG0` in 32-bit
arithmetic. -/
def KVADDR_TO_PADDR (kvaddr : Nat) : Nat := (kvaddr + WORD - MIPS_KSEG0) % WORD

/-- Modelled from the spec: `ROUNDUP(a, b)` of `lib.h`, `((a + b - 1) / b) * b`, on
32-bit operands. -/
def ROUNDUP (a b : Nat) : Nat := (((a + b - 1) % WORD) / b * b) % WORD

/-! ## Frame allocator state -/

/-- The globals of `dumbvm.c` together with the bump allocator's two pointers. -/
structure CoreState where
  /-- Field `numpages`: total number of pages in the core-map. -/
  numpages : Nat
  /-- Field `page_start`: start address of the managed pages. -/
  page_start : Nat
  /-- Field `coremap`: physical address of the core-map. -/
  coremap : Nat
  /-- The `numpages` words stored at `coremap`. -/
  table : List Nat
  /-- Field `core_created`: whether the core-map has been created. -/
  core_created : Bool
  /-- First free physical address of the pre-bootstrap allocator (`ram.c`). -/
  firstpaddr : Nat
  /-- Last physical address of the pre-bootstrap allocator (`ram.c`). -/
  lastpaddr : Nat
deriving DecidableEq, Repr

/-- Modelled from the spec: `ram_stealmem` of `ram.c` (not part of the sources), the
"simple irreversible bump allocator": hands out `npages` pages at `firstpaddr` and
advances it, or returns 0 when they do not fit. -/
def ram_stealmem (st : CoreState) (npages : Nat) : Nat × CoreState :=
  let size := npages * PAGE_SIZE
  if st.firstpaddr + size > st.lastpaddr then (0, st)
  else (st.firstpaddr, { st with firstpaddr := st.firstpaddr + size })

/-- The function `vm_bootstrap`, with the pair `(lo, hi)` that `ram_getsize` reports. -/
def vm_bootstrap (lo hi : Nat) (st : CoreState) : CoreState :=
  let numpages := ((hi + WORD - lo) % WORD) / (PAGE_SIZE + SIZEOF_ULONG)
  let coremap := lo
  let page_start := ROUNDUP ((coremap + numpages * SIZEOF_ULONG) % WORD) PAGE_SIZE
  { st with
    numpages := numpages
    coremap := coremap
    page_start := page_start
    table := List.replicate numpages 0
    core_created := true }

/-- The inner loop of `getppages`,
`for (j = start_index; j <= i; j++) table[j] = j + 1 - start_index;`
with `rem = i + 1 - j` iterations left. -/
def markLoop (start_index : Nat) : Nat → Nat → List Nat → List Nat
  | 0, _, table => table
  | rem + 1, j, table =>
      markLoop start_index rem (j + 1) (table.set j ((j + 1 - start_index) % WORD))

/-- The outer loop of `getppages`, `for (i = 0; i < numpages; i++)`, with
`rem = numpages - i` iterations left. `none` is the fall-through to
`panic("Not enough memory!")`; `some (addr, table)` is `return addr` with the updated
core-map. -/
def scanLoop (page_start npages : Nat) (table : List Nat) :
    Nat → Nat → Nat → Nat → Nat → Option (Nat × List Nat)
  | 0, _, _, _, _ => none
  | rem + 1, i, contigiuous_counter, start_index, addr =>
      let addr1 :=
        if table.getD i 0 = 0 then
          (if contigiuous_counter = 0 then (page_start + (i * PAGE_SIZE) % WORD) % WORD
           else addr)
        else addr
      let start1 :=
        if table.getD i 0 = 0 then (if contigiuous_counter = 0 then i else start_index)
        else start_index
      let counter1 := if table.getD i 0 = 0 then contigiuous_counter + 1 else 0
      if counter1 = npages then
        some (addr1, markLoop start1 (i + 1 - start1) start1 table)
      else
        scanLoop page_start npages table rem (i + 1) counter1 start1 addr1

/-- The function `getppages(npages)`. `none`: the kernel panicked; `some (addr, st)`: it returned
`addr` and left the state `st`. -/
def getppages (st : CoreState) (npages : Nat) : Option (Nat × CoreState) :=
  if st.core_created then
    match scanLoop st.page_start npages st.table st.numpages 0 0 0 0 with
    | some (addr, table) => some (addr, { st with table := table })
    | none => none
  else
    some (ram_stealmem st npages)

/-- The function `alloc_kpages(npages)`. -/
def alloc_kpages (st : CoreState) (npages : Nat) : Option (Nat × CoreState) :=
  match getppages st npages with
  | none => none
  | some (pa, st1) => if pa = 0 then some (0, st1) else some (PADDR_TO_KVADDR pa, st1)

/-- The `while (index < numpages)` loop of `free_kpages`, with `rem = numpages - index`
iterations left; `tracker` is the index of the entry `tracker` points to. -/
def freeLoop : Nat → Nat → Nat → Nat → List Nat → List Nat
  | 0, _, _, _, table => table
  | rem + 1, index, tracker, tracker_val, table =>
      if table.getD index 0 ≠ (tracker_val + 1) % WORD then
        table.set tracker 0
      else
        let table1 := table.set tracker 0
        freeLoop rem (index + 1) index (table1.getD index 0) table1

/-- The function `free_kpages(addr)`. -/
def free_kpages (st : CoreState) (addr : Nat) : CoreState :=
  let pa := KVADDR_TO_PADDR addr
  let index := ROUNDUP (((pa + WORD - st.page_start) % WORD) / PAGE_SIZE) 1
  let tracker_val := st.table.getD index 0
  { st with table := freeLoop (st.numpages - (index + 1)) (index + 1) index tracker_val st.table }

/-- Number of free (zero) core-map entries. -/
def freeCount (st : CoreState) : Nat := st.table.count 0

/-- A state before `vm_bootstrap`: `core_created = false`, empty core-map. -/
def bootState (lo hi : Nat) : CoreState :=
  { numpages := 0, page_start := 0, coremap := 0, table := [], core_created := false,
    firstpaddr := lo, lastpaddr := hi }

/-- The entries `s .. s+n-1` exist and are all free (zero). -/
def freeRun (t : List Nat) (s n : Nat) : Prop :=
  s + n ≤ t.length ∧ ∀ k, k < n → t.getD (s + k) 0 = 0

/-- The allocator state "after bootstrap": `core_created` is set, `numpages` and
`page_start` are the values `vm_bootstrap` computed from a memory range `lo ≤ hi`, and the
core-map holds `numpages` entries (of arbitrary contents). -/
def AfterBootstrap (st : CoreState) : Prop :=
  st.core_created = true ∧ st.table.length = st.numpages ∧
  ∃ lo hi st0, lo ≤ hi ∧ hi < WORD ∧
    st.numpages = (vm_bootstrap lo hi st0).numpages ∧
    st.page_start = (vm_bootstrap lo hi st0).page_start

/-- States reachable from `vm_bootstrap` by `getppages n` with `n ≥ 1` and by `free_kpages`
applied to the base address of a run that is currently allocated (its first entry
holds 1). -/
inductive Reachable : CoreState → Prop
  | boot (lo hi : Nat) (st0 : CoreState) (hle : lo ≤ hi) (hhi : hi < WORD) :
      Reachable (vm_bootstrap lo hi st0)
  | alloc (st st1 : CoreState) (n a : Nat) (hst : Reachable st) (hn : 1 ≤ n)
      (hres : getppages st n = some (a, st1)) : Reachable st1
  | free (st : CoreState) (s : Nat) (hst : Reachable st) (hs : s < st.numpages)
      (hbase : st.table.getD s 0 = 1) :
      Reachable (free_kpages st (PADDR_TO_KVADDR ((st.page_start + s * PAGE_SIZE) % WORD)))

/-- The run-encoding invariant of the core-map: every entry is 0 or lies in a block
`s .. s+m-1` whose `k`-th entry (from 0) holds `k+1` and that cannot be extended (it ends
the table, or the next entry is not `m+1`). -/
def wellFormed (t : List Nat) : Prop :=
  ∀ i, i < t.length → t.getD i 0 = 0 ∨
    ∃ s, s < t.length ∧ ∃ m, m < t.length + 1 ∧
      s ≤ i ∧ i < s + m ∧ s + m ≤ t.length ∧
      (∀ k, k < m → t.getD (s + k) 0 = k + 1) ∧
      (s + m = t.length ∨ t.getD (s + m) 0 ≠ m + 1)

instance (t : List Nat) : Decidable (wellFormed t) := by
  unfold wellFormed; infer_instance

/-! ## Address spaces and the fault handler -/

/-- Modelled from the spec: `NUM_TLB` of `mips/tlb.h`, the number of TLB slots. -/
def NUM_TLB : Nat := 64

/-- Modelled from the spec: `TLBLO_DIRTY` of `mips/tlb.h`, the "writable" bit. -/
def TLBLO_DIRTY : Nat := 0x00000400

/-- Modelled from the spec: `TLBLO_VALID` of `mips/tlb.h`, the "valid" bit. -/
def TLBLO_VALID : Nat := 0x00000200

/-- Modelled from the spec: `VM_FAULT_READ` of `vm.h`. -/
def VM_FAULT_READ : Int := 0

/-- Modelled from the spec: `VM_FAULT_WRITE` of `vm.h`. -/
def VM_FAULT_WRITE : Int := 1

/-- Modelled from the spec: `VM_FAULT_READONLY` of `vm.h`. -/
def VM_FAULT_READONLY : Int := 2

/-- Modelled from the spec: `EFAULT` of `kern/errno.h` (segmentation fault). -/
def EFAULT : Int := 6

/-- Modelled from the spec: `EINVAL` of `kern/errno.h` (argument error). -/
def EINVAL : Int := 8

/-- The type `struct addrspace` as `dumbvm.c` uses it (declared in `addrspace.h`). -/
structure addrspace where
  as_vbase1 : Nat
  as_pbase1 : Nat
  as_npages1 : Nat
  as_vbase2 : Nat
  as_pbase2 : Nat
  as_npages2 : Nat
  as_stackpbase : Nat
  hasLoaded : Bool
deriving DecidableEq, Repr

/-- A TLB slot: the pair `(entryhi, entrylo)`. -/
abbrev TlbEntry := Nat × Nat

/-- The hardware TLB: slot `i` is `tlb.getD i (0, 0)`. -/
abbrev Tlb := List TlbEntry

/-- Modelled from the spec: `tlb_read(&ehi, &elo, i)` of `mips/tlb.h`. -/
def tlb_read (tlb : Tlb) (i : Nat) : TlbEntry := tlb.getD i (0, 0)

/-- Modelled from the spec: `tlb_write(ehi, elo, i)` of `mips/tlb.h`. -/
def tlb_write (tlb : Tlb) (ehi elo i : Nat) : Tlb := tlb.set i (ehi, elo)

/-- Modelled from the spec: `tlb_random(ehi, elo)` of `mips/tlb.h`; `rnd` is the
"pseudo-randomly chosen slot" the hardware picks. -/
def tlb_random (tlb : Tlb) (rnd ehi elo : Nat) : Tlb := tlb.set rnd (ehi, elo)

/-- How a call of `vm_fault` ends. -/
inductive FaultOutcome where
  /-- Outcome `return code;` with the TLB as left by the call. -/
  | ret (code : Int) (tlb : Tlb)
  /-- A `KASSERT` failed. -/
  | panic
  /-- The call `sys__exit(__WROMWRITE)` was called (it does not return). -/
  | exitWROMWRITE
deriving DecidableEq, Repr

/-- The twelve `KASSERT`s of `vm_fault` ("the address space has been set up
properly"). -/
def setupAsserts (as : addrspace) : Prop :=
  as.as_vbase1 ≠ 0 ∧ as.as_pbase1 ≠ 0 ∧ as.as_npages1 ≠ 0 ∧
  as.as_vbase2 ≠ 0 ∧ as.as_pbase2 ≠ 0 ∧ as.as_npages2 ≠ 0 ∧
  as.as_stackpbase ≠ 0 ∧
  as.as_vbase1 &&& PAGE_FRAME = as.as_vbase1 ∧
  as.as_pbase1 &&& PAGE_FRAME = as.as_pbase1 ∧
  as.as_vbase2 &&& PAGE_FRAME = as.as_vbase2 ∧
  as.as_pbase2 &&& PAGE_FRAME = as.as_pbase2 ∧
  as.as_stackpbase &&& PAGE_FRAME = as.as_stackpbase

instance (as : addrspace) : Decidable (setupAsserts as) := by
  unfold setupAsserts; infer_instance

/-- The local `vtop1 = vbase1 + as->as_npages1 * PAGE_SIZE` (32-bit). -/
def vtop1 (as : addrspace) : Nat := (as.as_vbase1 + (as.as_npages1 * PAGE_SIZE) % WORD) % WORD

/-- The local `vtop2 = vbase2 + as->as_npages2 * PAGE_SIZE` (32-bit). -/
def vtop2 (as : addrspace) : Nat := (as.as_vbase2 + (as.as_npages2 * PAGE_SIZE) % WORD) % WORD

/-- The local `stackbase = USERSTACK - DUMBVM_STACKPAGES * PAGE_SIZE`. -/
def stackbase : Nat := USERSTACK - DUMBVM_STACKPAGES * PAGE_SIZE

/-- The local `stacktop = USERSTACK`. -/
def stacktop : Nat := USERSTACK

/-- The region classification of `vm_fault` (the `if / else if / else` chain on the
page-aligned `faultaddress`): `some (paddr, isCode)`, or `none` for `return EFAULT`. -/
def classify (as : addrspace) (faultaddress : Nat) : Option (Nat × Bool) :=
  if faultaddress ≥ as.as_vbase1 ∧ faultaddress < vtop1 as then
    some (((faultaddress - as.as_vbase1) + as.as_pbase1) % WORD, true)
  else if faultaddress ≥ as.as_vbase2 ∧ faultaddress < vtop2 as then
    some (((faultaddress - as.as_vbase2) + as.as_pbase2) % WORD, false)
  else if faultaddress ≥ stackbase ∧ faultaddress < stacktop then
    some (((faultaddress - stackbase) + as.as_stackpbase) % WORD, false)
  else none

/-- The entry-lo word `vm_fault` builds: `paddr | TLBLO_DIRTY | TLBLO_VALID`, with
`elo &= ~TLBLO_DIRTY` when `isCode && as->hasLoaded`. -/
def mkElo (as : addrspace) (paddr : Nat) (isCode : Bool) : Nat :=
  let elo := paddr ||| TLBLO_DIRTY ||| TLBLO_VALID
  if isCode && as.hasLoaded then elo &&& (TLBLO_DIRTY ^^^ (WORD - 1)) else elo

/-- The loop `for (i = 0; i < NUM_TLB; i++)` of `vm_fault`, with `rem = NUM_TLB - i`
iterations left: `some tlb` when a slot without the valid bit was found and written,
`none` when the loop ran to its end. -/
def fillLoop (tlb : Tlb) (ehi elo : Nat) : Nat → Nat → Option Tlb
  | 0, _ => none
  | rem + 1, i =>
      if (tlb_read tlb i).2 &&& TLBLO_VALID ≠ 0 then fillLoop tlb ehi elo rem (i + 1)
      else some (tlb_write tlb ehi elo i)

/-- The function `vm_fault(faulttype, faultaddress)`. `cur` is `curproc` with its address space:
`none` when `curproc == NULL`, `some none` when `curproc_getas()` is `NULL`. -/
def vm_fault (cur : Option (Option addrspace)) (tlb : Tlb) (rnd : Nat)
    (faulttype : Int) (faultaddress : Nat) : FaultOutcome :=
  let faultaddress := faultaddress &&& PAGE_FRAME
  if faulttype = VM_FAULT_READONLY then FaultOutcome.exitWROMWRITE
  else if ¬ (faulttype = VM_FAULT_READ ∨ faulttype = VM_FAULT_WRITE) then
    FaultOutcome.ret EINVAL tlb
  else
    match cur with
    | none => FaultOutcome.ret EFAULT tlb
    | some none => FaultOutcome.ret EFAULT tlb
    | some (some as) =>
        if ¬ setupAsserts as then FaultOutcome.panic
        else
          match classify as faultaddress with
          | none => FaultOutcome.ret EFAULT tlb
          | some (paddr, isCode) =>
              if paddr &&& PAGE_FRAME ≠ paddr then FaultOutcome.panic
              else
                match fillLoop tlb faultaddress (mkElo as paddr isCode) NUM_TLB 0 with
                | some tlb1 => FaultOutcome.ret 0 tlb1
                | none =>
                    FaultOutcome.ret 0
                      (tlb_random tlb rnd faultaddress (mkElo as paddr isCode))

/-- A set-up address space: two code pages at `0x400000`, one data page at `0x500000`. -/
def asDemo : addrspace :=
  { as_vbase1 := 0x400000, as_pbase1 := 0x31000, as_npages1 := 2,
    as_vbase2 := 0x500000, as_pbase2 := 0x33000, as_npages2 := 1,
    as_stackpbase := 0x34000, hasLoaded := true }

/-- A TLB in which every slot is invalid. -/
def tlbEmpty : Tlb := List.replicate NUM_TLB (0, 0)

/-- A TLB in which every slot is valid. -/
def tlbFull : Tlb := List.replicate NUM_TLB (0, TLBLO_VALID)

/-- The region of the address space that `vm_fault` matches a page-aligned address
against, in the order of the code (region 1, else region 2, else the stack window), as
`(virtual base, physical base, page count)`. -/
def regionOf (as : addrspace) (v : Nat) : Option (Nat × Nat × Nat) :=
  if v ≥ as.as_vbase1 ∧ v < vtop1 as then some (as.as_vbase1, as.as_pbase1, as.as_npages1)
  else if v ≥ as.as_vbase2 ∧ v < vtop2 as then
    some (as.as_vbase2, as.as_pbase2, as.as_npages2)
  else if v ≥ stackbase ∧ v < stacktop then
    some (stackbase, as.as_stackpbase, DUMBVM_STACKPAGES)
  else none

/-! ## Processes: `sys__exit` and `sys_waitpid` -/

/-- The type `struct proc` as `proc_syscalls.c` uses it (declared in `proc.h`); PCBs are named by
handles (natural numbers), the model of `struct proc *`. -/
structure proc where
  /-- Field `pid`. -/
  pid : Int
  /-- Field `p_parent`, `none` for `NULL`. -/
  p_parent : Option Nat
  /-- Field `exitcode`. -/
  exitcode : Int
  /-- Field `alive`. -/
  alive : Bool
  /-- Field `hasWaited`. -/
  hasWaited : Bool
  /-- The children registered by `attach_child`. -/
  children : List Nat
  /-- Field `p_addrspace`, `none` for `NULL`. -/
  p_addrspace : Option addrspace
  /-- Whether a thread sleeps on `cv_wake_parent`. -/
  cv_waiting : Bool
  /-- Whether `proc_destroy` has been called on this PCB. -/
  destroyed : Bool
deriving DecidableEq, Repr

/-- The part of the kernel state the process system calls act on: the PCBs and the
writable user memory (`none` at an address `copyout` cannot write). -/
structure KState where
  procs : Nat → proc
  umem : Nat → Option Int

/-- Replace the PCB behind handle `h`. -/
def setProc (st : KState) (h : Nat) (pcb : proc) : KState :=
  { st with procs := fun x => if x = h then pcb else st.procs x }

/-- Modelled from the spec: `search_pid(p, pid)` of `proc.c` (not part of the sources):
the child of `p` that `pid` names ("a live reference among the caller's children"), or
`none` for `NULL`. -/
def search_pid (st : KState) (p : Nat) (pid : Int) : Option Nat :=
  (st.procs p).children.find?
    (fun c => !(st.procs c).destroyed && decide ((st.procs c).pid = pid))

/-- Modelled from the spec: `proc_destroy(p)` of `proc.c` (not part of the sources):
"destroy the PCB". -/
def proc_destroy (st : KState) (p : Nat) : KState :=
  setProc st p { st.procs p with destroyed := true }

/-- Modelled from the spec: `cv_signal(p->cv_wake_parent, p->cv_lock)` of `synch.c` (not
part of the sources): wakes the thread sleeping on the condition variable, if any. -/
def cv_signal (st : KState) (p : Nat) : KState :=
  setProc st p { st.procs p with cv_waiting := false }

/-- Modelled from the spec: `copyout(&exitstatus, status, sizeof(int))` of
`copyinout.c` (not part of the sources): stores the word and returns 0 when the user
location is writable, returns `EFAULT` and stores nothing otherwise. -/
def copyout (st : KState) (status : Nat) (v : Int) : Int × KState :=
  match st.umem status with
  | some _ => (0, { st with umem := fun a => if a = status then some v else st.umem a })
  | none => (EFAULT, st)

/-- Modelled from the spec: `__WEXITED` of `kern/wait.h`. -/
def WEXITED : Int := 0

/-- Modelled from the spec: `_MKWAIT_EXIT(x)` of `kern/wait.h`, `((x) << 2) | __WEXITED`
on a 32-bit `int`: the wait-status encoding "exited normally, code x". -/
def MKWAIT_EXIT (x : Int) : Int := Int.lor (Int.bmod (x * 4) (2 ^ 32)) WEXITED

/-- The call `sys__exit(exitcode)` made by the process behind handle `p` (`curproc`). The call
never returns to its caller; `some st` is the kernel state when `thread_exit` is
reached, `none` a failed `KASSERT`. The frames released by `as_destroy` are not part of
`KState`. -/
def sys__exit (st : KState) (p : Nat) (exitcode : Int) : Option KState :=
  let st1 := setProc st p { st.procs p with exitcode := exitcode, alive := false }
  let st2 := if (st1.procs p).p_parent ≠ none then cv_signal st1 p else st1
  if (st2.procs p).p_addrspace = none then none
  else
    let st3 := setProc st2 p { st2.procs p with p_addrspace := none }
    match (st3.procs p).p_parent with
    | none => some (proc_destroy st3 p)
    | some parent =>
        if !(st3.procs parent).alive then some (proc_destroy st3 p) else some st3

/-- How a call of `sys_waitpid` proceeds. -/
inductive WaitOutcome where
  /-- Outcome `return result;`, with `*retval` when it was assigned, and the state left. -/
  | returned (result : Int) (retval : Option Int) (st : KState)
  /-- The caller sleeps in `cv_wait` on the condition variable of child `child`. -/
  | blocked (st : KState) (child : Nat)
  /-- A `KASSERT` failed. -/
  | panic

/-- The tail of `sys_waitpid` from `exitstatus = proc_c->exitcode;` on. -/
def waitpid_finish (st : KState) (proc_c : Nat) (pid : Int) (status : Nat)
    (options : Int) : WaitOutcome :=
  let exitstatus := MKWAIT_EXIT (st.procs proc_c).exitcode
  if options ≠ 0 then WaitOutcome.returned EINVAL none st
  else
    match copyout st status exitstatus with
    | (result, st1) =>
        if result ≠ 0 then WaitOutcome.returned result none st1
        else WaitOutcome.returned 0 (some pid) st1

/-- The call `sys_waitpid(pid, status, options, retval)` made by the process behind handle `p`,
up to the point where it returns or goes to sleep in `cv_wait`. -/
def sys_waitpid (st : KState) (p : Nat) (pid : Int) (status : Nat) (options : Int) :
    WaitOutcome :=
  match search_pid st p pid with
  | none => WaitOutcome.returned (-1) none st
  | some proc_c =>
      if (st.procs proc_c).hasWaited then WaitOutcome.returned (-2) none st
      else
        let st1 := setProc st proc_c { st.procs proc_c with hasWaited := true }
        if (st1.procs proc_c).alive then
          WaitOutcome.blocked
            (setProc st1 proc_c { st1.procs proc_c with cv_waiting := true }) proc_c
        else waitpid_finish st1 proc_c pid status options

/-- The rest of `sys_waitpid` after the caller has been woken from `cv_wait`, in the
state `st` it wakes up in: `KASSERT(!proc_c->alive)` and the tail. -/
def sys_waitpid_wake (st : KState) (proc_c : Nat) (pid : Int) (status : Nat)
    (options : Int) : WaitOutcome :=
  if (st.procs proc_c).alive then WaitOutcome.panic
  else waitpid_finish st proc_c pid status options

/-- A PCB with every field cleared. -/
def procZero : proc :=
  { pid := 0, p_parent := none, exitcode := 0, alive := false, hasWaited := false,
    children := [], p_addrspace := none, cv_waiting := false, destroyed := true }

/-- A parent (handle 1, pid 2) with one running child (handle 2, pid 3); the user word
at `0x7fff0000` is writable. -/
def forkedState : KState :=
  { procs := fun h =>
      if h = 1 then
        { pid := 2, p_parent := none, exitcode := 0, alive := true, hasWaited := false,
          children := [2], p_addrspace := some asDemo, cv_waiting := false,
          destroyed := false }
      else if h = 2 then
        { pid := 3, p_parent := some 1, exitcode := 0, alive := true, hasWaited := false,
          children := [], p_addrspace := some asDemo, cv_waiting := false,
          destroyed := false }
      else procZero
    umem := fun a => if a = 0x7fff0000 then some 0 else none }

/-- The state `forkedState` after the child (handle 2) has called `sys__exit(7)`. -/
def exitedState : KState := (sys__exit forkedState 2 7).getD forkedState


/-! ## Address-space operations: `as_create`, `as_define_region`, `as_prepare_load`,
`as_destroy`, `as_copy` -/

/-- Modelled from the spec: `EUNIMP` of `kern/errno.h` ("too many regions"). -/
def EUNIMP : Int := 2

/-- Modelled from the spec: `ENOMEM` of `kern/errno.h` (out of memory). -/
def ENOMEM : Int := 3

/-- The function `as_create()`. `kmalloc_ok` tells whether `kmalloc` supplied the
structure (`kmalloc.c` is not part of the sources); `none` is the `NULL` result. -/
def as_create (kmalloc_ok : Bool) : Option addrspace :=
  if kmalloc_ok then
    some { as_vbase1 := 0, as_pbase1 := 0, as_npages1 := 0,
           as_vbase2 := 0, as_pbase2 := 0, as_npages2 := 0,
           as_stackpbase := 0, hasLoaded := false }
  else none

/-- The function `as_define_region(as, vaddr, sz, readable, writeable, executable)`:
the returned code and the address space as the call leaves it. -/
def as_define_region (as : addrspace) (vaddr sz : Nat)
    (_readable _writeable _executable : Int) : Int × addrspace :=
  let sz1 := (sz + (vaddr &&& (PAGE_FRAME ^^^ (WORD - 1)))) % WORD
  let vaddr1 := vaddr &&& PAGE_FRAME
  let sz2 := ((sz1 + PAGE_SIZE - 1) % WORD) &&& PAGE_FRAME
  let npages := sz2 / PAGE_SIZE
  if as.as_vbase1 = 0 then (0, { as with as_vbase1 := vaddr1, as_npages1 := npages })
  else if as.as_vbase2 = 0 then
    (0, { as with as_vbase2 := vaddr1, as_npages2 := npages })
  else (EUNIMP, as)

/-- Kernel memory, one byte per kernel virtual address. -/
abbrev Mem := Nat → Nat

/-- Modelled from the spec: `bzero(ptr, len)` of `lib.h`: the `len` bytes from `ptr` on
become 0. -/
def bzero (mem : Mem) (ptr len : Nat) : Mem :=
  fun a => if ptr ≤ a ∧ a < ptr + len then 0 else mem a

/-- Modelled from the spec: `memmove(dst, src, len)` of `lib.h`: the `len` bytes from
`dst` on become the bytes that were at `src` on. -/
def memmove (mem : Mem) (dst src len : Nat) : Mem :=
  fun a => if dst ≤ a ∧ a < dst + len then mem (src + (a - dst)) else mem a

/-- The function `as_zero_region(paddr, npages)`. -/
def as_zero_region (mem : Mem) (paddr npages : Nat) : Mem :=
  bzero mem (PADDR_TO_KVADDR paddr) ((npages * PAGE_SIZE) % WORD)

/-- How a call of `as_prepare_load` or `as_copy` ends. -/
inductive LoadOutcome where
  /-- Outcome `return code;` with the address space, allocator state and memory left. -/
  | ret (code : Int) (as : addrspace) (st : CoreState) (mem : Mem)
  /-- The kernel panicked (a failed `KASSERT`, or `panic` in `getppages`). -/
  | panic

/-- The function `as_prepare_load(as)`. -/
def as_prepare_load (st : CoreState) (mem : Mem) (as : addrspace) : LoadOutcome :=
  if ¬ (as.as_pbase1 = 0 ∧ as.as_pbase2 = 0 ∧ as.as_stackpbase = 0) then LoadOutcome.panic
  else
    match getppages st as.as_npages1 with
    | none => LoadOutcome.panic
    | some (a1, st1) =>
        let as1 := { as with as_pbase1 := a1 }
        if a1 = 0 then LoadOutcome.ret ENOMEM as1 st1 mem
        else
          match getppages st1 as.as_npages2 with
          | none => LoadOutcome.panic
          | some (a2, st2) =>
              let as2 := { as1 with as_pbase2 := a2 }
              if a2 = 0 then LoadOutcome.ret ENOMEM as2 st2 mem
              else
                match getppages st2 DUMBVM_STACKPAGES with
                | none => LoadOutcome.panic
                | some (a3, st3) =>
                    let as3 := { as2 with as_stackpbase := a3 }
                    if a3 = 0 then LoadOutcome.ret ENOMEM as3 st3 mem
                    else
                      let mem1 := as_zero_region mem as3.as_pbase1 as3.as_npages1
                      let mem2 := as_zero_region mem1 as3.as_pbase2 as3.as_npages2
                      let mem3 := as_zero_region mem2 as3.as_stackpbase DUMBVM_STACKPAGES
                      LoadOutcome.ret 0 as3 st3 mem3

/-- The function `as_destroy(as)`. Modelled from the spec: each
`kfree((void *) PADDR_TO_KVADDR(pbase))` "releases the frame run via the Frame
Allocator", that is, ends in `free_kpages` (`kmalloc.c` is not part of the sources); the
structure itself is not kept in the modelled memory. -/
def as_destroy (st : CoreState) (as : addrspace) : CoreState :=
  let st1 := free_kpages st (PADDR_TO_KVADDR as.as_pbase1)
  let st2 := free_kpages st1 (PADDR_TO_KVADDR as.as_pbase2)
  free_kpages st2 (PADDR_TO_KVADDR as.as_stackpbase)

/-- The function `as_copy(old, ret)`; on `return 0` the address space of the outcome is
`*ret`, on an error `*ret` is not assigned and that field of the outcome is immaterial. -/
def as_copy (st : CoreState) (mem : Mem) (kmalloc_ok : Bool) (old : addrspace) :
    LoadOutcome :=
  match as_create kmalloc_ok with
  | none => LoadOutcome.ret ENOMEM old st mem
  | some new0 =>
      let new1 := { new0 with
        as_vbase1 := old.as_vbase1, as_npages1 := old.as_npages1,
        as_vbase2 := old.as_vbase2, as_npages2 := old.as_npages2 }
      match as_prepare_load st mem new1 with
      | LoadOutcome.panic => LoadOutcome.panic
      | LoadOutcome.ret code new st1 mem1 =>
          if code ≠ 0 then LoadOutcome.ret ENOMEM new (as_destroy st1 new) mem1
          else if new.as_pbase1 = 0 ∨ new.as_pbase2 = 0 ∨ new.as_stackpbase = 0 then
            LoadOutcome.panic
          else
            let mem2 := memmove mem1 (PADDR_TO_KVADDR new.as_pbase1)
              (PADDR_TO_KVADDR old.as_pbase1) ((old.as_npages1 * PAGE_SIZE) % WORD)
            let mem3 := memmove mem2 (PADDR_TO_KVADDR new.as_pbase2)
              (PADDR_TO_KVADDR old.as_pbase2) ((old.as_npages2 * PAGE_SIZE) % WORD)
            let mem4 := memmove mem3 (PADDR_TO_KVADDR new.as_stackpbase)
              (PADDR_TO_KVADDR old.as_stackpbase) ((DUMBVM_STACKPAGES * PAGE_SIZE) % WORD)
            LoadOutcome.ret 0 new st1 mem4

/-- The outer loop of `getppages` once more, now returning the core-map also when the
loop runs to its end (the state in which `panic("Not enough memory!")` is called). -/
def scanLoopT (page_start npages : Nat) :
    Nat → Nat → Nat → Nat → Nat → List Nat → Option Nat × List Nat
  | 0, _, _, _, _, table => (none, table)
  | rem + 1, i, contigiuous_counter, start_index, addr, table =>
      let addr1 :=
        if table.getD i 0 = 0 then
          (if contigiuous_counter = 0 then (page_start + (i * PAGE_SIZE) % WORD) % WORD
           else addr)
        else addr
      let start1 :=
        if table.getD i 0 = 0 then (if contigiuous_counter = 0 then i else start_index)
        else start_index
      let counter1 := if table.getD i 0 = 0 then contigiuous_counter + 1 else 0
      if counter1 = npages then
        (some addr1, markLoop start1 (i + 1 - start1) start1 table)
      else
        scanLoopT page_start npages rem (i + 1) counter1 start1 addr1 table

/-- The core-map branch of `getppages(npages)` with the state it leaves in either case:
`(some addr, st)` for `return addr`, `(none, st)` for the state at the `panic`. -/
def getppages_core (st : CoreState) (npages : Nat) : Option Nat × CoreState :=
  match scanLoopT st.page_start npages st.numpages 0 0 0 0 st.table with
  | (r, table) => (r, { st with table := table })

/-- The function `as_define_stack(as, stackptr)`: `none` for the failed `KASSERT`,
otherwise the returned code and `*stackptr`. -/
def as_define_stack (as : addrspace) : Option (Int × Nat) :=
  if as.as_stackpbase = 0 then none else some (0, USERSTACK)

/-! ## The address-space part of `sys_execv` -/

/-- How the address-space part of `sys_execv` ends. -/
inductive ExecOutcome where
  /-- Outcome `return result;` with the address space the process now has (`none` for
  `NULL`) and the allocator state. -/
  | returned (result : Int) (cur : Option addrspace) (st : CoreState)
  /-- The kernel panicked. -/
  | panic
  /-- The new address space is built; the call goes on to copy the arguments out. -/
  | proceeds (as : addrspace) (st : CoreState)
deriving DecidableEq

/-- The lines from `vfs_open` to `as_define_stack` of `sys_execv` (the argument copy-in
before them has succeeded). `vfs_open_result` is the code `vfs_open` returns;
`load_elf` is the external loader acting on the current (new) address space and the
allocator, `none` when it panics; `cur` is `curproc->p_addrspace` at the call. The TLB
flush of `as_activate` is not part of this state. -/
def sys_execv_load (vfs_open_result : Int) (kmalloc_ok : Bool)
    (load_elf : addrspace → CoreState → Option (Int × addrspace × CoreState))
    (cur : Option addrspace) (st : CoreState) : ExecOutcome :=
  if vfs_open_result ≠ 0 then ExecOutcome.returned vfs_open_result cur st
  else
    match as_create kmalloc_ok with
    | none => ExecOutcome.returned ENOMEM cur st
    | some as =>
        match cur with
        | none => ExecOutcome.panic
        | some oldas =>
            let st1 := as_destroy st oldas
            match load_elf as st1 with
            | none => ExecOutcome.panic
            | some (result, as1, st2) =>
                if result ≠ 0 then ExecOutcome.returned result (some as1) st2
                else
                  match as_define_stack as1 with
                  | none => ExecOutcome.panic
                  | some (result1, _) =>
                      if result1 ≠ 0 then ExecOutcome.returned result1 (some as1) st2
                      else ExecOutcome.proceeds as1 st2

/-! ## `vm_fault` together with the process table -/

/-- How a call of `vm_fault` ends, with the process table. -/
inductive FaultSysOutcome where
  /-- Outcome `return code;`. -/
  | returned (code : Int) (st : KState) (tlb : Tlb)
  /-- The kernel panicked. -/
  | panic
  /-- The current process was terminated by `sys__exit` (which does not return). -/
  | exited (st : KState) (tlb : Tlb)

/-- The function `vm_fault(faulttype, faultaddress)` run by the process behind handle
`curproc` (`none` when `curproc == NULL`), with `sys__exit(__WROMWRITE)` carried out.
`WROMWRITE` is the value of `__WROMWRITE` (`kern/wait.h` is not part of the sources). -/
def vm_fault_sys (WROMWRITE : Int) (st : KState) (curproc : Option Nat) (tlb : Tlb)
    (rnd : Nat) (faulttype : Int) (faultaddress : Nat) : FaultSysOutcome :=
  match vm_fault (curproc.map (fun p => (st.procs p).p_addrspace)) tlb rnd faulttype
      faultaddress with
  | FaultOutcome.ret code tlb1 => FaultSysOutcome.returned code st tlb1
  | FaultOutcome.panic => FaultSysOutcome.panic
  | FaultOutcome.exitWROMWRITE =>
      match curproc with
      | none => FaultSysOutcome.panic
      | some p =>
          match sys__exit st p WROMWRITE with
          | none => FaultSysOutcome.panic
          | some st1 => FaultSysOutcome.exited st1 tlb

/-- The run of `np` frames at physical address `pbase` is currently allocated: it lies in
the managed frames and none of its core-map entries is free. -/
def allocatedRun (st : CoreState) (pbase np : Nat) : Prop :=
  ∃ s, pbase = st.page_start + s * PAGE_SIZE ∧ s + np ≤ st.numpages ∧
    ∀ k, k < np → st.table.getD (s + k) 0 ≠ 0

/-- The physical runs `[a, a + n * PAGE_SIZE)` and `[b, b + m * PAGE_SIZE)` are
disjoint. -/
def disjointRuns (a n b m : Nat) : Prop :=
  a + n * PAGE_SIZE ≤ b ∨ b + m * PAGE_SIZE ≤ a

/-- The bytes of the run of `np` pages at physical address `pbase` in `mem1` are those of
the run at `qbase` in `mem2`. -/
def sameContents (mem1 : Mem) (pbase : Nat) (mem2 : Mem) (qbase np : Nat) : Prop :=
  ∀ i, i < np * PAGE_SIZE →
    mem1 (PADDR_TO_KVADDR pbase + i) = mem2 (PADDR_TO_KVADDR qbase + i)

/-- The 512 KB machine (`lo = 0x30000`, `hi = 0x80000`, 79 frames from `0x31000`) with
the three runs of `asDemo` allocated: two pages, one page and the twelve stack pages. -/
def copyDemoState : CoreState :=
  { vm_bootstrap 0x30000 0x80000 (bootState 0x30000 0x80000) with
    table := [1, 2, 1, 1, 2, 3, 4, 5, 6, 7, 8, 9, 10, 11, 12] ++ List.replicate 64 0 }

/-- The state `copyDemoState` after a further run of two pages has been allocated. -/
def copyDemoState1 : CoreState :=
  { copyDemoState with
    table := [1, 2, 1, 1, 2, 3, 4, 5, 6, 7, 8, 9, 10, 11, 12, 1, 2] ++ List.replicate 62 0 }

/-- The state `copyDemoState1` after a further run of one page has been allocated. -/
def copyDemoState2 : CoreState :=
  { copyDemoState with
    table := [1, 2, 1, 1, 2, 3, 4, 5, 6, 7, 8, 9, 10, 11, 12, 1, 2, 1] ++
      List.replicate 61 0 }

/-- The state `copyDemoState2` after a further run of twelve pages has been allocated. -/
def copyDemoState3 : CoreState :=
  { copyDemoState with
    table := [1, 2, 1, 1, 2, 3, 4, 5, 6, 7, 8, 9, 10, 11, 12, 1, 2, 1,
      1, 2, 3, 4, 5, 6, 7, 8, 9, 10, 11, 12] ++ List.replicate 49 0 }

/-! ## The argument layout on the user stack (`runprogram`, `sys_execv`) -/

/-- The layout `runprogram` leaves on the user stack. -/
structure ArgLayout where
  /-- The new `stackptr`, which is also `startptr`, the user address of the array. -/
  stackptr : Nat
  /-- The `argc + 1` words of `argvOffset`, copied out at `startptr`. -/
  argvOffset : List Nat
  /-- The value of `currArgAddr` after the last string. -/
  strings_end : Nat
deriving DecidableEq, Repr

/-- STEP 1 of `runprogram`: `argv_total_len += strlen(args[i]) + 1` over the arguments,
given by their lengths, in 32-bit arithmetic. -/
def argv_total_len (lens : List Nat) : Nat :=
  lens.foldl (fun acc len => (acc + (len + 1) % WORD) % WORD) 0

/-- STEP 2 of `runprogram`, the loop over the arguments: `copyoutstr` of `strlen + 1`
bytes at `currArgAddr` (`ok` tells whether the external `copyoutstr` succeeds for a
destination and a length; `actual` is the number of bytes it copied),
`argvOffset[i] = currArgAddr`, `currArgAddr += actual`. `none` is the error return. -/
def copyArgsLoop (ok : Nat → Nat → Bool) : List Nat → Nat → List Nat → Option (List Nat × Nat)
  | [], currArgAddr, argvOffset => some (argvOffset, currArgAddr)
  | len :: rest, currArgAddr, argvOffset =>
      if ok currArgAddr ((len + 1) % WORD) then
        copyArgsLoop ok rest ((currArgAddr + (len + 1) % WORD) % WORD)
          (argvOffset ++ [currArgAddr])
      else none

/-- The stack part of `runprogram` (lines 109-156; the same statements are in
`sys_execv`, lines 367-408), for arguments of the given lengths, starting from
`stackptr = USERSTACK` as `as_define_stack` sets it. `none` is an error return of
`copyoutstr` or `copyout`; `some` is the layout with which `enter_new_process` is
called. -/
def runprogram_stack (ok : Nat → Nat → Bool) (lens : List Nat) : Option ArgLayout :=
  let argc := lens.length % WORD
  let argv_space := ROUNDUP ((argv_total_len lens * 1) % WORD) 4
  let offset_space := ROUNDUP (((argc + 1) % WORD * 4) % WORD) 4
  let stackptr := (USERSTACK + WORD - (argv_space + offset_space) % WORD) % WORD
  let currArgAddr := (stackptr + offset_space) % WORD
  match copyArgsLoop ok lens currArgAddr [] with
  | none => none
  | some (offsets, cur) =>
      let argvOffset := offsets ++ [0]
      if ok stackptr (((argc + 1) % WORD * 4) % WORD) then
        some { stackptr := stackptr, argvOffset := argvOffset, strings_end := cur }
      else none

/-- The number of bytes the first `i` strings occupy, each with its terminating NUL. -/
def prefixBytes (lens : List Nat) (i : Nat) : Nat := ((lens.take i).map (· + 1)).sum

/-- The three-frame machine (`lo = 0x1000`, `hi = 0x5000`, frames from `0x2000`) after
`getppages(1)` twice and `free_kpages` on the first of the two runs: the middle frame is
allocated, its neighbours are free. -/
def holeState : CoreState :=
  { vm_bootstrap 0x1000 0x5000 (bootState 0x1000 0x5000) with table := [0, 1, 0] }

/-! ## Frame allocator: lemmas -/

theorem markLoop_length (start : Nat) :
    ∀ (rem j : Nat) (t : List Nat), (markLoop start rem j t).length = t.length := by
  intro rem
  induction rem with
  | zero => intro j t; rfl
  | succ r ih => intro j t; simp [markLoop, ih]

theorem markLoop_getD (start : Nat) :
    ∀ (rem j : Nat) (t : List Nat) (x : Nat), j + rem ≤ t.length →
      (markLoop start rem j t).getD x 0 =
        if j ≤ x ∧ x < j + rem then (x + 1 - start) % WORD else t.getD x 0 := by
  intro rem
  induction rem with
  | zero =>
      intro j t x _
      have h : ¬ (j ≤ x ∧ x < j + 0) := by omega
      rw [if_neg h]; rfl
  | succ r ih =>
      intro j t x hlen
      have hl : j + 1 + r ≤ (t.set j ((j + 1 - start) % WORD)).length := by
        simp; omega
      rw [markLoop, ih (j + 1) _ x hl]
      by_cases hx : x = j
      · subst hx
        have : ¬ (x + 1 ≤ x ∧ x < x + 1 + r) := by omega
        rw [if_neg this]
        have : (x ≤ x ∧ x < x + (r + 1)) := by omega
        rw [if_pos this]
        rw [List.getD_eq_getElem?_getD, List.getElem?_set]
        have hxl : x < t.length := by omega
        simp [hxl]
      · have hset : (t.set j ((j + 1 - start) % WORD)).getD x 0 = t.getD x 0 := by
          rw [List.getD_eq_getElem?_getD, List.getD_eq_getElem?_getD,
            List.getElem?_set_ne (Ne.symm hx)]
        rw [hset]
        by_cases h1 : j + 1 ≤ x ∧ x < j + 1 + r
        · have h2 : j ≤ x ∧ x < j + (r + 1) := by omega
          rw [if_pos h1, if_pos h2]
        · have h2 : ¬ (j ≤ x ∧ x < j + (r + 1)) := by omega
          rw [if_neg h1, if_neg h2]

/-- What the scan of `getppages` computes, for a request of `n ≥ 1` pages: it fails
exactly when no free run exists; otherwise it picks the first free run, returns its
physical address and marks it. -/
theorem scanLoop_spec (ps n : Nat) (t : List Nat) (hn : 1 ≤ n) :
    ∀ (rem i c start addr : Nat), i + rem = t.length → c < n → c ≤ i →
      (∀ k, k < c → t.getD (i - c + k) 0 = 0) →
      (0 < c → start = i - c ∧ addr = (ps + ((i - c) * PAGE_SIZE) % WORD) % WORD) →
      (∀ s', s' < i - c → ¬ freeRun t s' n) →
      match scanLoop ps n t rem i c start addr with
      | none => ∀ s, ¬ freeRun t s n
      | some (a, t1) => ∃ s, freeRun t s n ∧ (∀ s', s' < s → ¬ freeRun t s' n) ∧
          a = (ps + (s * PAGE_SIZE) % WORD) % WORD ∧ t1 = markLoop s n s t := by
  intro rem
  induction rem with
  | zero =>
      intro i c start addr hlen hc hci hz _ hmin
      simp only [scanLoop]
      intro s hs
      by_cases h : s < i - c
      · exact hmin s h hs
      · have := hs.1
        omega
  | succ r ih =>
      intro i c start addr hlen hc hci hz hst hmin
      rw [scanLoop]
      by_cases hti : t.getD i 0 = 0
      · simp only [hti, if_true]
        by_cases hfull : c + 1 = n
        · simp only [hfull, if_true]
          refine ⟨i - c, ⟨by omega, ?_⟩, hmin, ?_, ?_⟩
          · intro k hk
            by_cases hkc : k < c
            · exact hz k hkc
            · have : i - c + k = i := by omega
              rw [this]; exact hti
          · by_cases hc0 : c = 0
            · simp [hc0]
            · have := hst (by omega)
              simp [hc0, this.2]
          · by_cases hc0 : c = 0
            · subst hc0
              simp only [if_true]
              have : i + 1 - i = n := by omega
              rw [this]; simp
            · have h1 := (hst (by omega)).1
              simp only [hc0, if_false, h1]
              have : i + 1 - (i - c) = n := by omega
              rw [this]
        · simp only [hfull, if_false]
          apply ih
          · omega
          · omega
          · omega
          · intro k hk
            have e : i + 1 - (c + 1) = i - c := by omega
            rw [e]
            by_cases hkc : k < c
            · exact hz k hkc
            · have : i - c + k = i := by omega
              rw [this]; exact hti
          · intro _
            have e : i + 1 - (c + 1) = i - c := by omega
            rw [e]
            by_cases hc0 : c = 0
            · subst hc0; simp
            · have := hst (by omega)
              simp [hc0, this.1, this.2]
          · intro s' hs'
            apply hmin; omega
      · simp only [hti, if_false]
        have hne : ¬ (0 = n) := by omega
        simp only [hne, if_false]
        apply ih
        · omega
        · omega
        · omega
        · intro k hk; omega
        · intro h; omega
        · intro s' hs' hfr
          by_cases h : s' < i - c
          · exact hmin s' h hfr
          · have := hfr.2 (i - s') (by omega)
            have e : s' + (i - s') = i := by omega
            rw [e] at this
            exact hti this

theorem afterBootstrap_nowrap (st : CoreState) (h : AfterBootstrap st) :
    st.page_start + st.numpages * PAGE_SIZE ≤ WORD := by
  obtain ⟨_, _, lo, hi, st0, hle, hhi, hnp, hps⟩ := h
  rw [hnp, hps]
  simp only [vm_bootstrap, ROUNDUP, WORD, PAGE_SIZE, SIZEOF_ULONG] at *
  norm_num at *
  omega

theorem getppages_some (st st1 : CoreState) (n a : Nat) (hboot : AfterBootstrap st)
    (hn : 1 ≤ n) (h : getppages st n = some (a, st1)) :
    ∃ s, freeRun st.table s n ∧ (∀ s', s' < s → ¬ freeRun st.table s' n) ∧
      a = st.page_start + s * PAGE_SIZE ∧
      st1 = { st with table := markLoop s n s st.table } := by
  have hw := afterBootstrap_nowrap st hboot
  have hspec := scanLoop_spec st.page_start n st.table hn st.numpages 0 0 0 0
    (by rw [hboot.2.1]; omega) (by omega) (by omega) (by intro k hk; omega)
    (by intro h0; omega) (by intro s' hs'; omega)
  unfold getppages at h
  rw [if_pos hboot.1] at h
  cases hsc : scanLoop st.page_start n st.table st.numpages 0 0 0 0 with
  | none => rw [hsc] at h; simp at h
  | some r =>
      obtain ⟨a', t'⟩ := r
      rw [hsc] at h hspec
      simp only [Option.some.injEq, Prod.mk.injEq] at h
      obtain ⟨s, hfr, hmin, ha, ht⟩ := hspec
      refine ⟨s, hfr, hmin, ?_, ?_⟩
      · rw [← h.1, ha]
        have := hfr.1
        have hl := hboot.2.1
        simp only [WORD, PAGE_SIZE] at *
        omega
      · rw [← h.2, ht]

theorem getppages_none (st : CoreState) (n : Nat) (hboot : AfterBootstrap st)
    (hn : 1 ≤ n) (h : getppages st n = none) : ∀ s, ¬ freeRun st.table s n := by
  have hspec := scanLoop_spec st.page_start n st.table hn st.numpages 0 0 0 0
    (by rw [hboot.2.1]; omega) (by omega) (by omega) (by intro k hk; omega)
    (by intro h0; omega) (by intro s' hs'; omega)
  unfold getppages at h
  rw [if_pos hboot.1] at h
  cases hsc : scanLoop st.page_start n st.table st.numpages 0 0 0 0 with
  | none => rw [hsc] at hspec; exact hspec
  | some r => obtain ⟨a', t'⟩ := r; rw [hsc] at h; simp at h

theorem afterBootstrap_mark (st : CoreState) (s n : Nat) (hboot : AfterBootstrap st) :
    AfterBootstrap { st with table := markLoop s n s st.table } := by
  obtain ⟨h1, h2, h3⟩ := hboot
  exact ⟨h1, by simp [markLoop_length, h2], h3⟩

/-! ## Frame allocator: the claims -/

/-- C1 (evaluation at the failing input). On a machine whose `ram_getsize` reports
`lo = 0x30000`, `hi = 0x80000`, the state right after `vm_bootstrap` has 79 free frames;
`getppages(79)` succeeds, and `free_kpages` on the returned address leaves only 78 free
entries: the last entry of the run, which is the last entry of the table, is not
reset. -/
theorem free_kpages_after_getppages_loses_frame :
    Reachable (vm_bootstrap 0x30000 0x80000 (bootState 0x30000 0x80000)) ∧
    freeCount (vm_bootstrap 0x30000 0x80000 (bootState 0x30000 0x80000)) = 79 ∧
    (getppages (vm_bootstrap 0x30000 0x80000 (bootState 0x30000 0x80000)) 79).map
      (fun r => (r.1, freeCount r.2, freeCount (free_kpages r.2 (PADDR_TO_KVADDR r.1)),
        (free_kpages r.2 (PADDR_TO_KVADDR r.1)).table.getD 78 0))
      = some (0x31000, 0, 78, 79) := by
  refine ⟨Reachable.boot _ _ _ (by decide) (by decide), by decide, ?_⟩
  set_option maxRecDepth 100000 in decide

/-- C2. After bootstrap, for every core-map and every `n ≥ 1` for which a run of `n`
consecutive free entries exists, `getppages n` returns `page_start + s * PAGE_SIZE` for
the lowest start index `s` of such a run, sets entry `s + k` to `k + 1` for `k < n`, and
leaves every other entry and every other field unchanged. -/
theorem getppages_first_fit (st : CoreState) (n : Nat) (hboot : AfterBootstrap st)
    (hn : 1 ≤ n) (hex : ∃ s, freeRun st.table s n) :
    ∃ s st1, getppages st n = some (st.page_start + s * PAGE_SIZE, st1) ∧
      freeRun st.table s n ∧ (∀ s', s' < s → ¬ freeRun st.table s' n) ∧
      st1 = { st with table := st1.table } ∧
      st1.table.length = st.table.length ∧
      (∀ k, k < n → st1.table.getD (s + k) 0 = k + 1) ∧
      (∀ j, (j < s ∨ s + n ≤ j) → st1.table.getD j 0 = st.table.getD j 0) := by
  cases hg : getppages st n with
  | none =>
      obtain ⟨s, hs⟩ := hex
      exact absurd hs (getppages_none st n hboot hn hg s)
  | some r =>
      obtain ⟨a, st1⟩ := r
      obtain ⟨s, hfr, hmin, ha, hst1⟩ := getppages_some st st1 n a hboot hn hg
      have hw := afterBootstrap_nowrap st hboot
      have hl := hboot.2.1
      refine ⟨s, st1, by rw [ha], hfr, hmin, by rw [hst1], ?_, ?_, ?_⟩
      · rw [hst1]; simp [markLoop_length]
      · intro k hk
        rw [hst1]
        simp only
        rw [markLoop_getD s n s st.table (s + k) hfr.1]
        have h1 : s ≤ s + k ∧ s + k < s + n := by omega
        rw [if_pos h1]
        have := hfr.1
        have e : s + k + 1 - s = k + 1 := by omega
        rw [e]
        apply Nat.mod_eq_of_lt
        simp only [WORD, PAGE_SIZE] at *
        omega
      · intro j hj
        rw [hst1]
        simp only
        rw [markLoop_getD s n s st.table j hfr.1]
        have h1 : ¬ (s ≤ j ∧ j < s + n) := by omega
        rw [if_neg h1]

/-- C2, instantiated on the state right after `vm_bootstrap` with `lo = 0x1000`,
`hi = 0x4000` and a request of one page. -/
theorem getppages_first_fit_witness :
    ∃ s st1, getppages (vm_bootstrap 0x1000 0x4000 (bootState 0x1000 0x4000)) 1 =
        some ((vm_bootstrap 0x1000 0x4000 (bootState 0x1000 0x4000)).page_start
          + s * PAGE_SIZE, st1) ∧
      freeRun (vm_bootstrap 0x1000 0x4000 (bootState 0x1000 0x4000)).table s 1 ∧
      (∀ s', s' < s →
        ¬ freeRun (vm_bootstrap 0x1000 0x4000 (bootState 0x1000 0x4000)).table s' 1) ∧
      st1 = { vm_bootstrap 0x1000 0x4000 (bootState 0x1000 0x4000) with
              table := st1.table } ∧
      st1.table.length = (vm_bootstrap 0x1000 0x4000 (bootState 0x1000 0x4000)).table.length ∧
      (∀ k, k < 1 → st1.table.getD (s + k) 0 = k + 1) ∧
      (∀ j, (j < s ∨ s + 1 ≤ j) → st1.table.getD j 0 =
        (vm_bootstrap 0x1000 0x4000 (bootState 0x1000 0x4000)).table.getD j 0) :=
  getppages_first_fit (vm_bootstrap 0x1000 0x4000 (bootState 0x1000 0x4000)) 1
    ⟨rfl, rfl, 0x1000, 0x4000, bootState 0x1000 0x4000, by decide, by decide, rfl, rfl⟩
    (by decide)
    ⟨0, by decide, fun k hk => by
      have : k = 0 := by omega
      subst this; decide⟩

/-- C3 (evaluation at the failing input). From `vm_bootstrap` with `lo = 0x1000`,
`hi = 0x4000` (two frames), `getppages(2)` followed by `free_kpages` on the base of that
run reaches the core-map `[0, 2]`, which violates the run-encoding invariant: its second
entry is neither 0 nor part of a block `1, 2, ..., m`. -/
theorem reachable_not_wellFormed :
    ∃ st, Reachable st ∧ st.table = [0, 2] ∧ ¬ wellFormed st.table := by
  have h0 : Reachable (vm_bootstrap 0x1000 0x4000 (bootState 0x1000 0x4000)) :=
    Reachable.boot _ _ _ (by decide) (by decide)
  have h1 := Reachable.alloc _
    { vm_bootstrap 0x1000 0x4000 (bootState 0x1000 0x4000) with table := [1, 2] } 2 0x2000
    h0 (by decide) (by decide)
  have h2 := Reachable.free _ 0 h1 (by decide) (by decide)
  exact ⟨_, h2, by decide, by decide⟩

/-- C4. After bootstrap, if `getppages n1` returns `a1` and the next `getppages n2`
returns `a2` (with `n1, n2 ≥ 1`), the physical ranges `[a1, a1 + n1 * PAGE_SIZE)` and
`[a2, a2 + n2 * PAGE_SIZE)` are disjoint. -/
theorem getppages_twice_disjoint (st st1 st2 : CoreState) (n1 n2 a1 a2 : Nat)
    (hboot : AfterBootstrap st) (hn1 : 1 ≤ n1) (hn2 : 1 ≤ n2)
    (h1 : getppages st n1 = some (a1, st1)) (h2 : getppages st1 n2 = some (a2, st2)) :
    a1 + n1 * PAGE_SIZE ≤ a2 ∨ a2 + n2 * PAGE_SIZE ≤ a1 := by
  obtain ⟨s1, hfr1, _, ha1, hst1⟩ := getppages_some st st1 n1 a1 hboot hn1 h1
  have hboot1 : AfterBootstrap st1 := by
    rw [hst1]; exact afterBootstrap_mark st s1 n1 hboot
  obtain ⟨s2, hfr2, _, ha2, _⟩ := getppages_some st1 st2 n2 a2 hboot1 hn2 h2
  have hps : st1.page_start = st.page_start := by rw [hst1]
  have hw := afterBootstrap_nowrap st hboot
  have hl := hboot.2.1
  have hidx : s1 + n1 ≤ s2 ∨ s2 + n2 ≤ s1 := by
    by_contra hcon
    have hx : ∃ x, s1 ≤ x ∧ x < s1 + n1 ∧ s2 ≤ x ∧ x < s2 + n2 := by
      by_cases h : s1 ≤ s2
      · exact ⟨s2, by omega, by omega, by omega, by omega⟩
      · exact ⟨s1, by omega, by omega, by omega, by omega⟩
    obtain ⟨x, hx1, hx2, hx3, hx4⟩ := hx
    have hz := hfr2.2 (x - s2) (by omega)
    have e : s2 + (x - s2) = x := by omega
    rw [e, hst1] at hz
    simp only at hz
    rw [markLoop_getD s1 n1 s1 st.table x hfr1.1, if_pos ⟨hx1, hx2⟩] at hz
    have := hfr1.1
    have hlt : x + 1 - s1 < WORD := by
      simp only [WORD, PAGE_SIZE] at *
      omega
    rw [Nat.mod_eq_of_lt hlt] at hz
    omega
  rw [ha1, ha2, hps]
  simp only [PAGE_SIZE]
  omega

/-- C4, instantiated: two one-page requests right after `vm_bootstrap` with
`lo = 0x1000`, `hi = 0x4000` return `0x2000` and `0x3000`. -/
theorem getppages_twice_disjoint_witness :
    AfterBootstrap (vm_bootstrap 0x1000 0x4000 (bootState 0x1000 0x4000)) ∧
    (0x2000 + 1 * PAGE_SIZE ≤ 0x3000 ∨ 0x3000 + 1 * PAGE_SIZE ≤ 0x2000) :=
  ⟨⟨rfl, rfl, 0x1000, 0x4000, bootState 0x1000 0x4000, by decide, by decide, rfl, rfl⟩,
   getppages_twice_disjoint (vm_bootstrap 0x1000 0x4000 (bootState 0x1000 0x4000))
    { vm_bootstrap 0x1000 0x4000 (bootState 0x1000 0x4000) with table := [1, 0] }
    { vm_bootstrap 0x1000 0x4000 (bootState 0x1000 0x4000) with table := [1, 1] }
    1 1 0x2000 0x3000
    ⟨rfl, rfl, 0x1000, 0x4000, bootState 0x1000 0x4000, by decide, by decide, rfl, rfl⟩
    (by decide) (by decide) (by decide) (by decide)⟩

/-! ## Fault handler: lemmas -/

theorem and_PAGE_FRAME (x : Nat) : x &&& PAGE_FRAME = (x % 2 ^ 32) / 2 ^ 12 * 2 ^ 12 := by
  apply Nat.eq_of_testBit_eq
  intro i
  have e1 : PAGE_FRAME = 2 ^ 12 * (2 ^ 20 - 1) := by decide
  rw [Nat.testBit_and, e1, Nat.mul_comm (x % 2 ^ 32 / 2 ^ 12) (2 ^ 12),
    Nat.testBit_mul_pow_two, Nat.testBit_mul_pow_two, Nat.testBit_two_pow_sub_one,
    ← Nat.shiftRight_eq_div_pow, Nat.testBit_shiftRight, Nat.testBit_mod_two_pow]
  by_cases h : i ≥ 12
  · have e2 : 12 + (i - 12) = i := by omega
    rw [e2]
    by_cases h2 : i < 32
    · have : i - 12 < 20 := by omega
      simp [h, h2, this]
    · have : ¬ (i - 12 < 20) := by omega
      simp [h, h2, this]
  · simp [h]

theorem aligned_iff (x : Nat) : x &&& PAGE_FRAME = x ↔ x < 2 ^ 32 ∧ x % 4096 = 0 := by
  rw [and_PAGE_FRAME]
  norm_num
  omega

theorem elo_valid (x : Nat) : (x ||| TLBLO_DIRTY ||| TLBLO_VALID) &&& TLBLO_VALID = TLBLO_VALID := by
  apply Nat.eq_of_testBit_eq
  intro i
  simp only [Nat.testBit_and, Nat.testBit_or]
  cases (TLBLO_VALID.testBit i) <;> simp

theorem elo_dirty (x : Nat) : (x ||| TLBLO_DIRTY ||| TLBLO_VALID) &&& TLBLO_DIRTY = TLBLO_DIRTY := by
  apply Nat.eq_of_testBit_eq
  intro i
  simp only [Nat.testBit_and, Nat.testBit_or]
  cases (TLBLO_DIRTY.testBit i) <;> simp

theorem elo_frame (x : Nat) (hx : x &&& PAGE_FRAME = x) (y : Nat)
    (hy : y &&& PAGE_FRAME = 0) : (x ||| y) &&& PAGE_FRAME = x := by
  apply Nat.eq_of_testBit_eq
  intro i
  have h1 := congrArg (fun z => Nat.testBit z i) hx
  have h2 := congrArg (fun z => Nat.testBit z i) hy
  simp only [Nat.testBit_and, Nat.zero_testBit] at h1 h2
  simp only [Nat.testBit_and, Nat.testBit_or]
  cases hp : (PAGE_FRAME.testBit i) <;> cases ha : x.testBit i <;>
    cases hb : y.testBit i <;> simp_all

/-- The bits of the entry-lo word: the valid bit is set, the writable bit is clear
exactly when `isCode && hasLoaded`, and the frame number is `paddr`. -/
theorem mkElo_bits (as : addrspace) (paddr : Nat) (isCode : Bool) :
    mkElo as paddr isCode &&& TLBLO_VALID = TLBLO_VALID ∧
    ((isCode && as.hasLoaded) = true → mkElo as paddr isCode &&& TLBLO_DIRTY = 0) ∧
    ((isCode && as.hasLoaded) = false →
      mkElo as paddr isCode &&& TLBLO_DIRTY = TLBLO_DIRTY) ∧
    (paddr &&& PAGE_FRAME = paddr → mkElo as paddr isCode &&& PAGE_FRAME = paddr) := by
  have hm1 : (TLBLO_DIRTY ^^^ (WORD - 1)) &&& TLBLO_VALID = TLBLO_VALID := by decide
  have hm2 : (TLBLO_DIRTY ^^^ (WORD - 1)) &&& TLBLO_DIRTY = 0 := by decide
  have hm3 : (TLBLO_DIRTY ^^^ (WORD - 1)) &&& PAGE_FRAME = PAGE_FRAME := by decide
  have hf : ∀ x, x &&& PAGE_FRAME = x →
      (x ||| TLBLO_DIRTY ||| TLBLO_VALID) &&& PAGE_FRAME = x := by
    intro x hx
    rw [Nat.or_assoc]
    exact elo_frame x hx _ (by decide)
  cases hb : (isCode && as.hasLoaded)
  · simp only [mkElo, hb]
    refine ⟨elo_valid paddr, by simp, fun _ => elo_dirty paddr, hf paddr⟩
  · simp only [mkElo, hb, if_true]
    refine ⟨?_, fun _ => ?_, by simp, fun hx => ?_⟩
    · rw [Nat.and_assoc, hm1]; exact elo_valid paddr
    · rw [Nat.and_assoc, hm2]; simp
    · rw [Nat.and_assoc, hm3]; exact hf paddr hx

theorem fillLoop_some (tlb : Tlb) (ehi elo : Nat) :
    ∀ (rem i : Nat) (tlb1 : Tlb), fillLoop tlb ehi elo rem i = some tlb1 →
      ∃ slot, i ≤ slot ∧ slot < i + rem ∧ (tlb_read tlb slot).2 &&& TLBLO_VALID = 0 ∧
        (∀ j, i ≤ j → j < slot → (tlb_read tlb j).2 &&& TLBLO_VALID ≠ 0) ∧
        tlb1 = tlb.set slot (ehi, elo) := by
  intro rem
  induction rem with
  | zero => intro i tlb1 h; simp [fillLoop] at h
  | succ r ih =>
      intro i tlb1 h
      rw [fillLoop] at h
      by_cases hv : (tlb_read tlb i).2 &&& TLBLO_VALID ≠ 0
      · rw [if_pos hv] at h
        obtain ⟨slot, h1, h2, h3, h4, h5⟩ := ih (i + 1) tlb1 h
        refine ⟨slot, by omega, by omega, h3, ?_, h5⟩
        intro j hj1 hj2
        by_cases hji : j = i
        · rw [hji]; exact hv
        · exact h4 j (by omega) hj2
      · rw [if_neg hv] at h
        simp only [Option.some.injEq] at h
        refine ⟨i, by omega, by omega, by simpa using hv, ?_, ?_⟩
        · intro j hj1 hj2; omega
        · rw [← h]; rfl

/-- The physical address `vm_fault` computes for an address the code matches against a
region: the region's base plus the offset, in 32-bit arithmetic, with the offset inside
the region. -/
theorem classify_regionOf (as : addrspace) (v vb pb np : Nat)
    (h : regionOf as v = some (vb, pb, np)) :
    ∃ isCode, classify as v = some (((v - vb) + pb) % WORD, isCode) ∧
      (isCode = true ↔ (v ≥ as.as_vbase1 ∧ v < vtop1 as)) ∧
      vb ≤ v ∧ v - vb < np * PAGE_SIZE := by
  unfold regionOf at h
  unfold classify
  by_cases h1 : v ≥ as.as_vbase1 ∧ v < vtop1 as
  · rw [if_pos h1] at h
    rw [if_pos h1]
    simp only [Option.some.injEq, Prod.mk.injEq] at h
    obtain ⟨e1, e2, e3⟩ := h
    subst e1; subst e2; subst e3
    refine ⟨true, rfl, by simp [h1], h1.1, ?_⟩
    have := h1.2
    simp only [vtop1, WORD, PAGE_SIZE] at *
    omega
  · rw [if_neg h1] at h
    rw [if_neg h1]
    by_cases h2 : v ≥ as.as_vbase2 ∧ v < vtop2 as
    · rw [if_pos h2] at h
      rw [if_pos h2]
      simp only [Option.some.injEq, Prod.mk.injEq] at h
      obtain ⟨e1, e2, e3⟩ := h
      subst e1; subst e2; subst e3
      refine ⟨false, rfl, by simp [h1], h2.1, ?_⟩
      have := h2.2
      simp only [vtop2, WORD, PAGE_SIZE] at *
      omega
    · rw [if_neg h2] at h
      rw [if_neg h2]
      by_cases h3 : v ≥ stackbase ∧ v < stacktop
      · rw [if_pos h3] at h
        rw [if_pos h3]
        simp only [Option.some.injEq, Prod.mk.injEq] at h
        obtain ⟨e1, e2, e3⟩ := h
        subst e1; subst e2; subst e3
        refine ⟨false, rfl, by simp [h1], h3.1, ?_⟩
        have := h3.2
        simp only [stackbase, stacktop, USERSTACK, MIPS_KSEG0, DUMBVM_STACKPAGES,
          PAGE_SIZE] at *
        omega
      · rw [if_neg h3] at h
        simp at h

theorem regionOf_aligned (as : addrspace) (v vb pb np : Nat) (hassert : setupAsserts as)
    (h : regionOf as v = some (vb, pb, np)) :
    vb &&& PAGE_FRAME = vb ∧ pb &&& PAGE_FRAME = pb := by
  obtain ⟨_, _, _, _, _, _, _, a1, a2, a3, a4, a5⟩ := hassert
  unfold regionOf at h
  by_cases h1 : v ≥ as.as_vbase1 ∧ v < vtop1 as
  · rw [if_pos h1] at h
    simp only [Option.some.injEq, Prod.mk.injEq] at h
    obtain ⟨e1, e2, _⟩ := h
    subst e1; subst e2
    exact ⟨a1, a2⟩
  · rw [if_neg h1] at h
    by_cases h2 : v ≥ as.as_vbase2 ∧ v < vtop2 as
    · rw [if_pos h2] at h
      simp only [Option.some.injEq, Prod.mk.injEq] at h
      obtain ⟨e1, e2, _⟩ := h
      subst e1; subst e2
      exact ⟨a3, a4⟩
    · rw [if_neg h2] at h
      by_cases h3 : v ≥ stackbase ∧ v < stacktop
      · rw [if_pos h3] at h
        simp only [Option.some.injEq, Prod.mk.injEq] at h
        obtain ⟨e1, e2, _⟩ := h
        subst e1; subst e2
        exact ⟨by decide, a5⟩
      · rw [if_neg h3] at h
        simp at h

theorem fault_type_not_readonly (ft : Int) (hft : ft = VM_FAULT_READ ∨ ft = VM_FAULT_WRITE) :
    ¬ (ft = VM_FAULT_READONLY) := by
  rcases hft with h | h <;> rw [h] <;> decide

/-- What `vm_fault` does once the region classification has produced `paddr`: when
`paddr` is page-aligned it returns 0 and has written `(faultaddress, elo)` into one
slot. -/
theorem vm_fault_classified (as : addrspace) (tlb : Tlb) (rnd : Nat) (ft : Int) (fa : Nat)
    (paddr : Nat) (isCode : Bool) (hassert : setupAsserts as)
    (hft : ft = VM_FAULT_READ ∨ ft = VM_FAULT_WRITE)
    (hc : classify as (fa &&& PAGE_FRAME) = some (paddr, isCode))
    (hal : paddr &&& PAGE_FRAME = paddr) :
    ∃ slot, vm_fault (some (some as)) tlb rnd ft fa =
        FaultOutcome.ret 0 (tlb.set slot (fa &&& PAGE_FRAME, mkElo as paddr isCode)) ∧
      ((∃ t, fillLoop tlb (fa &&& PAGE_FRAME) (mkElo as paddr isCode) NUM_TLB 0 = some t) →
        slot < NUM_TLB ∧ (tlb_read tlb slot).2 &&& TLBLO_VALID = 0) ∧
      (fillLoop tlb (fa &&& PAGE_FRAME) (mkElo as paddr isCode) NUM_TLB 0 = none →
        slot = rnd) := by
  have hro := fault_type_not_readonly ft hft
  unfold vm_fault
  simp only [if_neg hro, hft, not_true_eq_false, if_false, hassert, hc, hal, ne_eq]
  cases hfl : fillLoop tlb (fa &&& PAGE_FRAME) (mkElo as paddr isCode) NUM_TLB 0 with
  | none => exact ⟨rnd, rfl, by simp, fun _ => rfl⟩
  | some t =>
      obtain ⟨slot, _, h2, h3, _, h5⟩ := fillLoop_some tlb _ _ NUM_TLB 0 t hfl
      refine ⟨slot, by rw [h5], fun _ => ⟨by omega, h3⟩, by simp⟩

theorem fillLoop_none (tlb : Tlb) (ehi elo : Nat) :
    ∀ (rem i : Nat), fillLoop tlb ehi elo rem i = none →
      ∀ j, i ≤ j → j < i + rem → (tlb_read tlb j).2 &&& TLBLO_VALID ≠ 0 := by
  intro rem
  induction rem with
  | zero => intro i _ j h1 h2; omega
  | succ r ih =>
      intro i h j h1 h2
      rw [fillLoop] at h
      by_cases hv : (tlb_read tlb i).2 &&& TLBLO_VALID ≠ 0
      · rw [if_pos hv] at h
        by_cases hji : j = i
        · rw [hji]; exact hv
        · exact ih (i + 1) h j (by omega) (by omega)
      · rw [if_neg hv] at h
        simp at h

theorem classify_isCode (as : addrspace) (v paddr : Nat) (isCode : Bool)
    (h : classify as v = some (paddr, isCode)) :
    isCode = true ↔ (v ≥ as.as_vbase1 ∧ v < vtop1 as) := by
  unfold classify at h
  by_cases h1 : v ≥ as.as_vbase1 ∧ v < vtop1 as
  · rw [if_pos h1] at h
    simp only [Option.some.injEq, Prod.mk.injEq] at h
    simp [← h.2, h1]
  · rw [if_neg h1] at h
    by_cases h2 : v ≥ as.as_vbase2 ∧ v < vtop2 as
    · rw [if_pos h2] at h
      simp only [Option.some.injEq, Prod.mk.injEq] at h
      simp [← h.2, h1]
    · rw [if_neg h2] at h
      by_cases h3 : v ≥ stackbase ∧ v < stacktop
      · rw [if_pos h3] at h
        simp only [Option.some.injEq, Prod.mk.injEq] at h
        simp [← h.2, h1]
      · rw [if_neg h3] at h
        simp at h

/-- The ways `vm_fault` can return 0: a read or write fault on a set-up address space
whose classification produced a page-aligned `paddr`. -/
theorem vm_fault_ret_zero (cur : Option (Option addrspace)) (tlb tlb1 : Tlb) (rnd : Nat)
    (ft : Int) (fa : Nat) (h : vm_fault cur tlb rnd ft fa = FaultOutcome.ret 0 tlb1) :
    ∃ as paddr isCode, cur = some (some as) ∧ setupAsserts as ∧
      (ft = VM_FAULT_READ ∨ ft = VM_FAULT_WRITE) ∧
      classify as (fa &&& PAGE_FRAME) = some (paddr, isCode) ∧
      paddr &&& PAGE_FRAME = paddr := by
  unfold vm_fault at h
  by_cases hro : ft = VM_FAULT_READONLY
  · simp [hro] at h
  · rw [if_neg hro] at h
    by_cases hft : ft = VM_FAULT_READ ∨ ft = VM_FAULT_WRITE
    · simp only [hft, not_true_eq_false, if_false] at h
      match cur, h with
      | none, h => simp [EFAULT] at h
      | some none, h => simp [EFAULT] at h
      | some (some as), h =>
          simp only at h
          by_cases ha : setupAsserts as
          · simp only [ha, not_true_eq_false, if_false] at h
            cases hc : classify as (fa &&& PAGE_FRAME) with
            | none => rw [hc] at h; simp [EFAULT] at h
            | some r =>
                obtain ⟨paddr, isCode⟩ := r
                rw [hc] at h
                simp only at h
                by_cases hal : paddr &&& PAGE_FRAME = paddr
                · exact ⟨as, paddr, isCode, rfl, ha, hft, hc, hal⟩
                · simp [hal] at h
          · simp [ha] at h
    · simp [hft, EINVAL] at h

/-! ## Fault handler: the claims -/

/-- C5. For an address space that passes the set-up assertions of `vm_fault` and a read
or write fault whose page-aligned address lies in none of region 1, region 2 and the
stack window `[USERSTACK - 12 * PAGE_SIZE, USERSTACK)`, `vm_fault` returns `EFAULT` and
leaves the TLB as it was. -/
theorem vm_fault_outside_regions (as : addrspace) (tlb : Tlb) (rnd : Nat) (ft : Int)
    (fa : Nat) (hassert : setupAsserts as)
    (hft : ft = VM_FAULT_READ ∨ ft = VM_FAULT_WRITE)
    (h1 : ¬ (as.as_vbase1 ≤ fa &&& PAGE_FRAME ∧
      fa &&& PAGE_FRAME < as.as_vbase1 + as.as_npages1 * PAGE_SIZE))
    (h2 : ¬ (as.as_vbase2 ≤ fa &&& PAGE_FRAME ∧
      fa &&& PAGE_FRAME < as.as_vbase2 + as.as_npages2 * PAGE_SIZE))
    (h3 : ¬ (USERSTACK - DUMBVM_STACKPAGES * PAGE_SIZE ≤ fa &&& PAGE_FRAME ∧
      fa &&& PAGE_FRAME < USERSTACK)) :
    vm_fault (some (some as)) tlb rnd ft fa = FaultOutcome.ret EFAULT tlb := by
  have hro := fault_type_not_readonly ft hft
  have hc : classify as (fa &&& PAGE_FRAME) = none := by
    unfold classify
    have c1 : ¬ (fa &&& PAGE_FRAME ≥ as.as_vbase1 ∧ fa &&& PAGE_FRAME < vtop1 as) := by
      intro h
      apply h1
      have := h.2
      simp only [vtop1, WORD, PAGE_SIZE] at *
      omega
    have c2 : ¬ (fa &&& PAGE_FRAME ≥ as.as_vbase2 ∧ fa &&& PAGE_FRAME < vtop2 as) := by
      intro h
      apply h2
      have := h.2
      simp only [vtop2, WORD, PAGE_SIZE] at *
      omega
    have c3 : ¬ (fa &&& PAGE_FRAME ≥ stackbase ∧ fa &&& PAGE_FRAME < stacktop) := by
      intro h
      exact h3 h
    rw [if_neg c1, if_neg c2, if_neg c3]
  unfold vm_fault
  simp only [if_neg hro, hft, not_true_eq_false, if_false, hassert, hc]

/-- C5, instantiated: a read fault at `0x600123` (between the data region and the stack)
in `asDemo`, with every TLB slot valid. -/
theorem vm_fault_outside_regions_witness :
    vm_fault (some (some asDemo)) tlbFull 5 VM_FAULT_READ 0x600123 =
      FaultOutcome.ret EFAULT tlbFull :=
  vm_fault_outside_regions asDemo tlbFull 5 VM_FAULT_READ 0x600123 (by decide)
    (Or.inl rfl) (by decide) (by decide) (by decide)

/-- C7. Whenever `vm_fault` returns 0 it has written one entry `(faultaddress, elo)`,
into a slot without the valid bit when the scan found one and into the slot chosen by
`tlb_random` otherwise; on both paths `elo` has the valid bit set, and its writable bit
(`TLBLO_DIRTY`) is clear if and only if the address matched region 1 and `hasLoaded` is
set, and is set in every other case. -/
theorem vm_fault_entry_bits (cur : Option (Option addrspace)) (tlb tlb1 : Tlb) (rnd : Nat)
    (ft : Int) (fa : Nat) (h : vm_fault cur tlb rnd ft fa = FaultOutcome.ret 0 tlb1) :
    ∃ as slot elo, cur = some (some as) ∧ tlb1 = tlb.set slot (fa &&& PAGE_FRAME, elo) ∧
      ((∃ i, i < NUM_TLB ∧ (tlb_read tlb i).2 &&& TLBLO_VALID = 0) →
        slot < NUM_TLB ∧ (tlb_read tlb slot).2 &&& TLBLO_VALID = 0) ∧
      ((∀ i, i < NUM_TLB → (tlb_read tlb i).2 &&& TLBLO_VALID ≠ 0) → slot = rnd) ∧
      elo &&& TLBLO_VALID ≠ 0 ∧
      (elo &&& TLBLO_DIRTY = 0 ↔
        ((fa &&& PAGE_FRAME ≥ as.as_vbase1 ∧ fa &&& PAGE_FRAME < vtop1 as) ∧
          as.hasLoaded = true)) ∧
      (¬ ((fa &&& PAGE_FRAME ≥ as.as_vbase1 ∧ fa &&& PAGE_FRAME < vtop1 as) ∧
          as.hasLoaded = true) → elo &&& TLBLO_DIRTY = TLBLO_DIRTY) := by
  obtain ⟨as, paddr, isCode, hcur, hassert, hft, hc, hal⟩ :=
    vm_fault_ret_zero cur tlb tlb1 rnd ft fa h
  subst hcur
  obtain ⟨slot, hres, hsome, hnone⟩ :=
    vm_fault_classified as tlb rnd ft fa paddr isCode hassert hft hc hal
  rw [hres] at h
  simp only [FaultOutcome.ret.injEq, true_and] at h
  have hcode := classify_isCode as _ paddr isCode hc
  obtain ⟨b1, b2, b3, _⟩ := mkElo_bits as paddr isCode
  have hV : TLBLO_VALID ≠ 0 := by decide
  have hD : TLBLO_DIRTY ≠ 0 := by decide
  have hcond : (isCode && as.hasLoaded) = true ↔
      ((fa &&& PAGE_FRAME ≥ as.as_vbase1 ∧ fa &&& PAGE_FRAME < vtop1 as) ∧
        as.hasLoaded = true) := by
    rw [Bool.and_eq_true, hcode]
  refine ⟨as, slot, mkElo as paddr isCode, rfl, h.symm, ?_, ?_, ?_, ?_, ?_⟩
  · intro hex
    cases hfl : fillLoop tlb (fa &&& PAGE_FRAME) (mkElo as paddr isCode) NUM_TLB 0 with
    | some t => exact hsome ⟨t, hfl⟩
    | none =>
        obtain ⟨i, hi, hinv⟩ := hex
        exact absurd hinv (fillLoop_none tlb _ _ NUM_TLB 0 hfl i (by omega) (by omega))
  · intro hall
    cases hfl : fillLoop tlb (fa &&& PAGE_FRAME) (mkElo as paddr isCode) NUM_TLB 0 with
    | some t =>
        obtain ⟨hs1, hs2⟩ := hsome ⟨t, hfl⟩
        exact absurd hs2 (hall slot hs1)
    | none => exact hnone hfl
  · rw [b1]; exact hV
  · rw [← hcond]
    constructor
    · intro hz
      by_contra hne
      have hf : (isCode && as.hasLoaded) = false := by simpa using hne
      rw [b3 hf] at hz
      exact hD hz
    · exact b2
  · intro hne
    rw [← hcond] at hne
    exact b3 (by simpa using hne)

/-- C7, instantiated: a read fault in the loaded code region of `asDemo`
with every slot valid (the `tlb_random` path, slot 5), which returns 0. -/
theorem vm_fault_entry_bits_witness :
    ∃ as slot elo, some (some asDemo) = some (some as) ∧
      tlbFull.set 5 (0x401000, 0x32200) = tlbFull.set slot (0x401234 &&& PAGE_FRAME, elo) ∧
      ((∃ i, i < NUM_TLB ∧ (tlb_read tlbFull i).2 &&& TLBLO_VALID = 0) →
        slot < NUM_TLB ∧ (tlb_read tlbFull slot).2 &&& TLBLO_VALID = 0) ∧
      ((∀ i, i < NUM_TLB → (tlb_read tlbFull i).2 &&& TLBLO_VALID ≠ 0) → slot = 5) ∧
      elo &&& TLBLO_VALID ≠ 0 ∧
      (elo &&& TLBLO_DIRTY = 0 ↔
        ((0x401234 &&& PAGE_FRAME ≥ as.as_vbase1 ∧ 0x401234 &&& PAGE_FRAME < vtop1 as) ∧
          as.hasLoaded = true)) ∧
      (¬ ((0x401234 &&& PAGE_FRAME ≥ as.as_vbase1 ∧ 0x401234 &&& PAGE_FRAME < vtop1 as) ∧
          as.hasLoaded = true) → elo &&& TLBLO_DIRTY = TLBLO_DIRTY) :=
  vm_fault_entry_bits (some (some asDemo)) tlbFull (tlbFull.set 5 (0x401000, 0x32200)) 5
    VM_FAULT_READ 0x401234 (by decide)

/-! ## Processes: lemmas -/

theorem search_pid_congr (st st1 : KState) (p : Nat) (pid : Int)
    (hc : (st1.procs p).children = (st.procs p).children)
    (hd : ∀ x, (st1.procs x).destroyed = (st.procs x).destroyed)
    (hp : ∀ x, (st1.procs x).pid = (st.procs x).pid) :
    search_pid st1 p pid = search_pid st p pid := by
  unfold search_pid
  rw [hc]
  congr 1
  funext c
  rw [hd c, hp c]

theorem search_pid_found (st : KState) (p ch : Nat) (pid : Int)
    (h : search_pid st p pid = some ch) : (st.procs ch).destroyed = false := by
  unfold search_pid at h
  have := List.find?_some h
  simp only [Bool.and_eq_true, Bool.not_eq_true'] at this
  exact this.1

theorem waitpid_finish_state (st st1 : KState) (ch : Nat) (pid : Int) (status : Nat)
    (options r : Int) (rv : Option Int)
    (h : waitpid_finish st ch pid status options = WaitOutcome.returned r rv st1) :
    st1.procs = st.procs := by
  unfold waitpid_finish copyout at h
  by_cases ho : options = 0
  · subst ho
    cases hu : st.umem status with
    | none =>
        simp [hu, EFAULT] at h
        rw [← h.2.2]
    | some w =>
        simp [hu] at h
        rw [← h.2.2]
  · simp [ho] at h
    rw [← h.2.2]

/-- A `sys_waitpid` call on a child whose `hasWaited` flag is set returns the
"already waited" error and leaves the state as it was. -/
theorem sys_waitpid_already (st : KState) (p ch : Nat) (pid : Int) (status : Nat)
    (options : Int) (hs : search_pid st p pid = some ch)
    (hw : (st.procs ch).hasWaited = true) :
    sys_waitpid st p pid status options = WaitOutcome.returned (-2) none st := by
  unfold sys_waitpid
  rw [hs]
  simp [hw]

/-- The call of `sys_waitpid` on the exited child of `exitedState` returns 0. -/
theorem exitedState_waitpid :
    ∃ st1, sys_waitpid exitedState 1 3 0x7fff0000 0 = WaitOutcome.returned 0 (some 3) st1 :=
  ⟨_, rfl⟩

theorem setProc_self (st : KState) (h : Nat) (pcb : proc) :
    (setProc st h pcb).procs h = pcb := by
  simp [setProc]

theorem setProc_ne (st : KState) (h x : Nat) (pcb : proc) (hx : x ≠ h) :
    (setProc st h pcb).procs x = st.procs x := by
  simp [setProc, hx]

theorem setProc_umem (st : KState) (h : Nat) (pcb : proc) :
    (setProc st h pcb).umem = st.umem := rfl

theorem proc_destroy_alive (st : KState) (p q : Nat) :
    ((proc_destroy st p).procs q).alive = (st.procs q).alive := by
  unfold proc_destroy
  by_cases h : q = p
  · subst h; rw [setProc_self]
  · rw [setProc_ne _ _ _ _ h]

/-- The PCB fields after `sys__exit`: only the caller's PCB changes, and of it only
`exitcode`, `alive`, `cv_waiting`, `p_addrspace` and `destroyed`; `destroyed` becomes
set exactly when there is no parent reference or the parent's `alive` flag is false. -/
theorem sys__exit_fields (st st1 : KState) (p : Nat) (code : Int)
    (h : sys__exit st p code = some st1) :
    (∀ x, x ≠ p → st1.procs x = st.procs x) ∧
    (st1.procs p).pid = (st.procs p).pid ∧
    (st1.procs p).children = (st.procs p).children ∧
    (st1.procs p).hasWaited = (st.procs p).hasWaited ∧
    (st1.procs p).p_parent = (st.procs p).p_parent ∧
    (st1.procs p).exitcode = code ∧ (st1.procs p).alive = false ∧
    st1.umem = st.umem ∧
    ((st1.procs p).destroyed = true ↔
      ((st.procs p).destroyed = true ∨ (st.procs p).p_parent = none ∨
        ∃ q, (st.procs p).p_parent = some q ∧ (st1.procs q).alive = false)) := by
  unfold sys__exit at h
  dsimp only at h
  cases hpar : (st.procs p).p_parent with
  | none =>
      simp only [setProc_self, hpar, ne_eq, not_true_eq_false, if_false] at h
      by_cases has : (st.procs p).p_addrspace = none
      · simp [has] at h
      · rw [if_neg has] at h
        simp only [Option.some.injEq] at h
        subst h
        refine ⟨fun x hx => ?_, ?_, ?_, ?_, ?_, ?_, ?_, ?_, ?_⟩ <;>
          simp [proc_destroy, setProc_self, setProc_ne, setProc_umem, *]
  | some q =>
      simp only [setProc_self, hpar, ne_eq, reduceCtorEq, not_false_eq_true, if_true,
        cv_signal] at h
      by_cases has : (st.procs p).p_addrspace = none
      · simp [has] at h
      · rw [if_neg has] at h
        split at h
        · rename_i hal
          simp only [Option.some.injEq] at h
          subst h
          have hq := proc_destroy_alive
            (setProc (setProc (setProc st p
              { st.procs p with exitcode := code, alive := false }) p
              { pid := (st.procs p).pid, p_parent := some q, exitcode := code, alive := false,
                hasWaited := (st.procs p).hasWaited, children := (st.procs p).children,
                p_addrspace := (st.procs p).p_addrspace, cv_waiting := false,
                destroyed := (st.procs p).destroyed }) p
              { pid := (st.procs p).pid, p_parent := some q, exitcode := code, alive := false,
                hasWaited := (st.procs p).hasWaited, children := (st.procs p).children,
                p_addrspace := none, cv_waiting := false,
                destroyed := (st.procs p).destroyed }) p q
          simp only [hpar] at hq
          refine ⟨fun x hx => ?_, ?_, ?_, ?_, ?_, ?_, ?_, ?_, ?_⟩
          · simp [proc_destroy, setProc_ne, hx]
          · simp [proc_destroy, setProc_self]
          · simp [proc_destroy, setProc_self]
          · simp [proc_destroy, setProc_self]
          · simp [proc_destroy, setProc_self]
          · simp [proc_destroy, setProc_self]
          · simp [proc_destroy, setProc_self]
          · simp [proc_destroy, setProc_umem]
          · constructor
            · intro _
              right; right
              refine ⟨q, rfl, ?_⟩
              rw [hq]
              simpa using hal
            · intro _
              simp [proc_destroy, setProc_self]
        · rename_i hal
          simp only [Option.some.injEq] at h
          subst h
          refine ⟨fun x hx => ?_, ?_, ?_, ?_, ?_, ?_, ?_, ?_, ?_⟩
          · simp [setProc_ne, hx]
          · simp [setProc_self]
          · simp [setProc_self]
          · simp [setProc_self]
          · simp [setProc_self]
          · simp [setProc_self]
          · simp [setProc_self]
          · simp [setProc_umem]
          · simp only [setProc_self]
            constructor
            · intro hd; left; exact hd
            · intro hd
              rcases hd with hd | hd | ⟨q1, hq1, hq2⟩
              · exact hd
              · simp at hd
              · simp only [Option.some.injEq] at hq1
                subst hq1
                simp only [Bool.not_eq_true', Bool.not_eq_false] at hal
                rw [hq2] at hal
                simp at hal

theorem sys__exit_some (st : KState) (p : Nat) (code : Int)
    (has : (st.procs p).p_addrspace ≠ none) : ∃ st1, sys__exit st p code = some st1 := by
  unfold sys__exit
  dsimp only
  cases hpar : (st.procs p).p_parent with
  | none =>
      simp only [setProc_self, hpar, ne_eq, not_true_eq_false, if_false]
      rw [if_neg has]
      exact ⟨_, rfl⟩
  | some q =>
      simp only [setProc_self, hpar, ne_eq, reduceCtorEq, not_false_eq_true, if_true,
        cv_signal]
      rw [if_neg has]
      split
      · exact ⟨_, rfl⟩
      · exact ⟨_, rfl⟩

theorem sys_waitpid_returned_zero (st st1 : KState) (p : Nat) (pid : Int) (status : Nat)
    (options : Int) (rv : Option Int)
    (h : sys_waitpid st p pid status options = WaitOutcome.returned 0 rv st1) :
    ∃ ch, search_pid st p pid = some ch ∧
      st1.procs = (setProc st ch { st.procs ch with hasWaited := true }).procs := by
  unfold sys_waitpid at h
  cases hs : search_pid st p pid with
  | none => rw [hs] at h; simp at h
  | some ch =>
      rw [hs] at h
      dsimp only at h
      by_cases hw : (st.procs ch).hasWaited = true
      · rw [if_pos hw] at h; simp at h
      · rw [if_neg hw] at h
        split at h
        · simp at h
        · exact ⟨ch, rfl, waitpid_finish_state _ _ _ _ _ _ _ _ h⟩

theorem sys_waitpid_blocked (st stb : KState) (p ch : Nat) (pid : Int) (status : Nat)
    (options : Int)
    (h : sys_waitpid st p pid status options = WaitOutcome.blocked stb ch) :
    search_pid st p pid = some ch ∧
      (∀ x, x ≠ ch → stb.procs x = st.procs x) ∧
      (stb.procs ch).hasWaited = true ∧
      (stb.procs ch).pid = (st.procs ch).pid ∧
      (stb.procs ch).children = (st.procs ch).children := by
  unfold sys_waitpid at h
  cases hs : search_pid st p pid with
  | none => rw [hs] at h; simp at h
  | some c =>
      rw [hs] at h
      dsimp only at h
      by_cases hw : (st.procs c).hasWaited = true
      · rw [if_pos hw] at h; simp at h
      · rw [if_neg hw] at h
        split at h
        · simp only [WaitOutcome.blocked.injEq] at h
          obtain ⟨h1, h2⟩ := h
          subst h2
          subst h1
          refine ⟨rfl, fun x hx => ?_, ?_, ?_, ?_⟩
          · simp [setProc_ne, hx]
          · simp [setProc_self]
          · simp [setProc_self]
          · simp [setProc_self]
        · unfold waitpid_finish at h
          dsimp only at h
          split at h
          · simp at h
          · split at h <;> simp at h

/-! ## Processes: the claims -/

/-- C8. For a child `ch` of the caller `p` named by `pid` that has exited with code `c`
(`alive` is false, `exitcode` is `c`) and has not been waited for, `sys_waitpid(pid,
status, 0)` with a writable `status` returns 0 without going to sleep, sets `*retval` to
`pid` and stores `_MKWAIT_EXIT(c)` at `status`; the only other change is the child's
`hasWaited` flag. -/
theorem sys_waitpid_exited_child (st : KState) (p ch : Nat) (pid c : Int) (status : Nat)
    (hchild : search_pid st p pid = some ch)
    (hexit : (st.procs ch).alive = false) (hcode : (st.procs ch).exitcode = c)
    (hnw : (st.procs ch).hasWaited = false)
    (hwr : (st.umem status).isSome = true) :
    ∃ st1, sys_waitpid st p pid status 0 = WaitOutcome.returned 0 (some pid) st1 ∧
      st1.umem status = some (MKWAIT_EXIT c) ∧
      (∀ a, a ≠ status → st1.umem a = st.umem a) ∧
      st1.procs ch = { st.procs ch with hasWaited := true } ∧
      (∀ x, x ≠ ch → st1.procs x = st.procs x) := by
  obtain ⟨w, hw⟩ := Option.isSome_iff_exists.mp hwr
  refine ⟨{ procs := (setProc st ch { st.procs ch with hasWaited := true }).procs
            umem := fun a => if a = status then some (MKWAIT_EXIT c) else st.umem a },
    ?_, ?_, ?_, ?_, ?_⟩
  · unfold sys_waitpid
    rw [hchild]
    simp only [hnw, Bool.false_eq_true, if_false]
    simp only [setProc, if_true, hexit, Bool.false_eq_true, if_false]
    unfold waitpid_finish copyout
    simp only [ne_eq, not_true_eq_false, if_false, hw, if_true, hcode]
  · simp
  · intro a ha; simp [ha]
  · simp [setProc]
  · intro x hx; simp [setProc, hx]

/-- C8, instantiated: the parent of `forkedState` waits for its child after the child
called `sys__exit(7)`; the status written is `_MKWAIT_EXIT(7) = 28`. -/
theorem sys_waitpid_exited_child_witness :
    MKWAIT_EXIT 7 = 28 ∧
    ∃ st1, sys_waitpid exitedState 1 3 0x7fff0000 0 = WaitOutcome.returned 0 (some 3) st1 ∧
      st1.umem 0x7fff0000 = some (MKWAIT_EXIT 7) ∧
      (∀ a, a ≠ 0x7fff0000 → st1.umem a = exitedState.umem a) ∧
      st1.procs 2 = { exitedState.procs 2 with hasWaited := true } ∧
      (∀ x, x ≠ 2 → st1.procs x = exitedState.procs x) :=
  ⟨by decide,
   sys_waitpid_exited_child exitedState 1 2 3 7 0x7fff0000 (by decide) (by decide)
    (by decide) (by decide) (by decide)⟩

/-- C9. `sys_waitpid` returns the not-a-child error (-1), without sleeping and with the
state unchanged, when `search_pid` does not find `pid` among the caller's children; and
once a call on a child has returned 0 (its status), directly or after sleeping until the
child's `sys__exit` (the PCB being retained), every `sys_waitpid` call on that child
returns the already-waited error (-2), without sleeping and with the state unchanged. -/
theorem sys_waitpid_errors (st : KState) (p : Nat) (pid : Int) (status : Nat)
    (options : Int) :
    (search_pid st p pid = none →
      sys_waitpid st p pid status options = WaitOutcome.returned (-1) none st) ∧
    (∀ rv st1, sys_waitpid st p pid status options = WaitOutcome.returned 0 rv st1 →
      ∀ status1 options1,
        sys_waitpid st1 p pid status1 options1 = WaitOutcome.returned (-2) none st1) ∧
    (∀ stb ch code stw rv st1,
      sys_waitpid st p pid status options = WaitOutcome.blocked stb ch →
      sys__exit stb ch code = some stw → (stw.procs ch).destroyed = false →
      sys_waitpid_wake stw ch pid status options = WaitOutcome.returned 0 rv st1 →
      ∀ status1 options1,
        sys_waitpid st1 p pid status1 options1 = WaitOutcome.returned (-2) none st1) := by
  refine ⟨?_, ?_, ?_⟩
  · intro hs
    unfold sys_waitpid
    rw [hs]
  · intro rv st1 h status1 options1
    obtain ⟨ch, hs, hp⟩ := sys_waitpid_returned_zero st st1 p pid status options rv h
    have hfield : ∀ x, (st1.procs x).children = (st.procs x).children ∧
        (st1.procs x).destroyed = (st.procs x).destroyed ∧
        (st1.procs x).pid = (st.procs x).pid := by
      intro x
      rw [hp]
      by_cases hx : x = ch
      · subst hx; simp [setProc_self]
      · simp [setProc_ne, hx]
    have hs1 : search_pid st1 p pid = some ch := by
      rw [search_pid_congr st st1 p pid (hfield p).1 (fun x => (hfield x).2.1)
        (fun x => (hfield x).2.2)]
      exact hs
    have hw1 : (st1.procs ch).hasWaited = true := by
      rw [hp]; simp [setProc_self]
    exact sys_waitpid_already st1 p ch pid status1 options1 hs1 hw1
  · intro stb ch code stw rv st1 hb hex hret hwake status1 options1
    obtain ⟨hs, hbx, hbw, hbp, hbc⟩ := sys_waitpid_blocked st stb p ch pid status options hb
    obtain ⟨hex1, hep, hec, hew, _, _, _, _, _⟩ := sys__exit_fields stb stw ch code hex
    have hp : st1.procs = stw.procs := by
      unfold sys_waitpid_wake at hwake
      split at hwake
      · simp at hwake
      · exact waitpid_finish_state _ _ _ _ _ _ _ _ hwake
    have hd0 := search_pid_found st p ch pid hs
    have hfield : ∀ x, (st1.procs x).children = (st.procs x).children ∧
        (st1.procs x).destroyed = (st.procs x).destroyed ∧
        (st1.procs x).pid = (st.procs x).pid := by
      intro x
      rw [hp]
      by_cases hx : x = ch
      · subst hx
        exact ⟨by rw [hec, hbc], by rw [hret, hd0], by rw [hep, hbp]⟩
      · rw [hex1 x hx, hbx x hx]
        exact ⟨rfl, rfl, rfl⟩
    have hs1 : search_pid st1 p pid = some ch := by
      rw [search_pid_congr st st1 p pid (hfield p).1 (fun x => (hfield x).2.1)
        (fun x => (hfield x).2.2)]
      exact hs
    have hw1 : (st1.procs ch).hasWaited = true := by
      rw [hp, hew, hbw]
    exact sys_waitpid_already st1 p ch pid status1 options1 hs1 hw1

/-- C9, instantiated: in `exitedState` pid 9 names no child of the parent, whose call
returns -1; its first call on pid 3 returns 0 and the second returns -2. -/
theorem sys_waitpid_errors_witness :
    sys_waitpid exitedState 1 9 0x7fff0000 0 = WaitOutcome.returned (-1) none exitedState ∧
    ∃ st1, sys_waitpid exitedState 1 3 0x7fff0000 0 = WaitOutcome.returned 0 (some 3) st1 ∧
      sys_waitpid st1 1 3 0x7fff0000 0 = WaitOutcome.returned (-2) none st1 := by
  refine ⟨(sys_waitpid_errors exitedState 1 9 0x7fff0000 0).1 (by decide), ?_⟩
  obtain ⟨st1, h⟩ := exitedState_waitpid
  exact ⟨st1, h, (sys_waitpid_errors exitedState 1 3 0x7fff0000 0).2.1 _ st1 h _ _⟩

/-- C10. For a process `p` calling `sys__exit(code)`, that is a process whose PCB exists
and that has an address space (every process that runs has one: `runprogram`, `sys_fork`
and `sys_execv` install it, and `sys__exit` asserts it), the call reaches `thread_exit` with
`exitcode = code` and `alive = false`; the PCB has been destroyed if and only if `p` has
no parent reference or its parent's `alive` flag is false, and is otherwise retained
with the recorded exit code. No other PCB changes. -/
theorem sys__exit_pcb (st : KState) (p : Nat) (code : Int)
    (has : (st.procs p).p_addrspace ≠ none) (hpcb : (st.procs p).destroyed = false) :
    ∃ st1, sys__exit st p code = some st1 ∧
      (st1.procs p).exitcode = code ∧ (st1.procs p).alive = false ∧
      ((st1.procs p).destroyed = true ↔
        ((st.procs p).p_parent = none ∨
          ∃ q, (st.procs p).p_parent = some q ∧ (st1.procs q).alive = false)) ∧
      (∀ x, x ≠ p → st1.procs x = st.procs x) := by
  obtain ⟨st1, h⟩ := sys__exit_some st p code has
  obtain ⟨hx, _, _, _, _, hcode, halive, _, hd⟩ := sys__exit_fields st st1 p code h
  refine ⟨st1, h, hcode, halive, ?_, hx⟩
  rw [hd]
  simp [hpcb]

/-- C10, instantiated: the child of `forkedState` (parent alive) calls
`sys__exit(7)` and is retained. -/
theorem sys__exit_pcb_witness :
    ∃ st1, sys__exit forkedState 2 7 = some st1 ∧
      (st1.procs 2).exitcode = 7 ∧ (st1.procs 2).alive = false ∧
      ((st1.procs 2).destroyed = true ↔
        ((forkedState.procs 2).p_parent = none ∨
          ∃ q, (forkedState.procs 2).p_parent = some q ∧ (st1.procs q).alive = false)) ∧
      (∀ x, x ≠ 2 → st1.procs x = forkedState.procs x) :=
  sys__exit_pcb forkedState 2 7 (by decide) (by decide)

/-! ## Address-space operations: lemmas and claims -/

theorem and_page_offset (x : Nat) : x &&& (PAGE_FRAME ^^^ (WORD - 1)) = x % 2 ^ 12 := by
  have e : PAGE_FRAME ^^^ (WORD - 1) = 2 ^ 12 - 1 := by decide
  rw [e, Nat.and_pow_two_sub_one_eq_mod]

/-- The values `as_define_region` computes: the page-aligned base and the page count. -/
theorem as_define_region_values (as : addrspace) (vaddr sz : Nat) (r w x : Int) :
    as_define_region as vaddr sz r w x =
      if as.as_vbase1 = 0 then
        (0, { as with
          as_vbase1 := vaddr % 4294967296 / 4096 * 4096
          as_npages1 := (sz + vaddr % 4096 + 4095) % 4294967296 / 4096 })
      else if as.as_vbase2 = 0 then
        (0, { as with
          as_vbase2 := vaddr % 4294967296 / 4096 * 4096
          as_npages2 := (sz + vaddr % 4096 + 4095) % 4294967296 / 4096 })
      else (EUNIMP, as) := by
  unfold as_define_region
  simp only [and_page_offset, and_PAGE_FRAME]
  have hnp : ((sz + vaddr % 2 ^ 12) % WORD + PAGE_SIZE - 1) % WORD % 2 ^ 32 / 2 ^ 12 * 2 ^ 12
      / PAGE_SIZE = (sz + vaddr % 4096 + 4095) % 4294967296 / 4096 := by
    simp only [WORD, PAGE_SIZE]
    omega
  have hvb : vaddr % 2 ^ 32 / 2 ^ 12 * 2 ^ 12 = vaddr % 4294967296 / 4096 * 4096 := by
    norm_num
  rw [hnp, hvb]

/-- C11 (counterexample). On a fresh address space the calls
`as_define_region(0x10, 4096)` and `as_define_region(0x400000, 8192)` both return 0 (the
first leaves `as_vbase1 = 0`, so the second one fills region 1 again), and a third call
`as_define_region(0x500000, 4096)` returns 0 as well and fills region 2. -/
theorem as_define_region_third_succeeds :
    (as_create true).map (fun as0 =>
      ((as_define_region as0 0x10 4096 1 0 1).1,
       (as_define_region (as_define_region as0 0x10 4096 1 0 1).2 0x400000 8192 1 1 0).1,
       as_define_region
         (as_define_region (as_define_region as0 0x10 4096 1 0 1).2 0x400000 8192 1 1 0).2
         0x500000 4096 1 1 0)) =
    some (0, 0, 0,
      { as_vbase1 := 0x400000, as_pbase1 := 0, as_npages1 := 2,
        as_vbase2 := 0x500000, as_pbase2 := 0, as_npages2 := 1,
        as_stackpbase := 0, hasLoaded := false }) := by
  decide

/-- C11 (amended). On a freshly created address space on which two `as_define_region`
calls have succeeded, both with a non-zero page-aligned virtual base
(`vaddr & PAGE_FRAME ≠ 0`, that is `vaddr ≥ PAGE_SIZE`), a third call returns `EUNIMP`
and leaves every field of the address space unchanged. -/
theorem as_define_region_third (as0 as1 as2 : addrspace) (v1 s1 v2 s2 v3 s3 : Nat)
    (r1 w1 x1 r2 w2 x2 r3 w3 x3 : Int)
    (hc : as_create true = some as0)
    (hd1 : as_define_region as0 v1 s1 r1 w1 x1 = (0, as1))
    (hd2 : as_define_region as1 v2 s2 r2 w2 x2 = (0, as2))
    (h1 : v1 &&& PAGE_FRAME ≠ 0) (h2 : v2 &&& PAGE_FRAME ≠ 0) :
    as_define_region as2 v3 s3 r3 w3 x3 = (EUNIMP, as2) := by
  simp only [as_create, if_true, Option.some.injEq] at hc
  subst hc
  rw [and_PAGE_FRAME] at h1 h2
  have hv1 : ¬ (v1 % 4294967296 / 4096 * 4096 = 0) := by
    norm_num at h1; omega
  have hv2 : ¬ (v2 % 4294967296 / 4096 * 4096 = 0) := by
    norm_num at h2; omega
  rw [as_define_region_values] at hd1 hd2 ⊢
  simp only [if_true, Prod.mk.injEq, true_and] at hd1
  subst hd1
  simp only [hv1, if_false, if_true, Prod.mk.injEq, true_and] at hd2
  subst hd2
  simp only [hv1, hv2, if_false]

/-- C11 (amended), instantiated: regions at `0x400000` (2 pages) and `0x500000`
(1 page), then a third request at `0x600000`. -/
theorem as_define_region_third_witness :
    as_define_region
      { as_vbase1 := 0x400000, as_pbase1 := 0, as_npages1 := 2,
        as_vbase2 := 0x500000, as_pbase2 := 0, as_npages2 := 1,
        as_stackpbase := 0, hasLoaded := false } 0x600000 4096 1 1 0 =
      (EUNIMP,
        { as_vbase1 := 0x400000, as_pbase1 := 0, as_npages1 := 2,
          as_vbase2 := 0x500000, as_pbase2 := 0, as_npages2 := 1,
          as_stackpbase := 0, hasLoaded := false }) :=
  as_define_region_third
    { as_vbase1 := 0, as_pbase1 := 0, as_npages1 := 0, as_vbase2 := 0, as_pbase2 := 0,
      as_npages2 := 0, as_stackpbase := 0, hasLoaded := false }
    { as_vbase1 := 0x400000, as_pbase1 := 0, as_npages1 := 2, as_vbase2 := 0,
      as_pbase2 := 0, as_npages2 := 0, as_stackpbase := 0, hasLoaded := false }
    _ 0x400000 8192 0x500000 4096 0x600000 4096 1 0 1 1 1 0 1 1 0
    (by decide) (by decide) (by decide) (by decide) (by decide)

/-- C12. For `vaddr` and `sz` with `vaddr + sz + PAGE_SIZE < 2^32`, a call of
`as_define_region` that returns 0 stores, in region 1 if it was unset and else in
region 2, the base `vaddr` rounded down to a page boundary and a page count `np` with
`[base, base + np * PAGE_SIZE)` covering `[vaddr, vaddr + sz)`, and no smaller page count
does. -/
theorem as_define_region_rounding (as as1 : addrspace) (vaddr sz : Nat) (r w x : Int)
    (hw : vaddr + sz + PAGE_SIZE < WORD)
    (h : as_define_region as vaddr sz r w x = (0, as1)) :
    ∃ base np, base = vaddr / PAGE_SIZE * PAGE_SIZE ∧
      ((as.as_vbase1 = 0 ∧ as1.as_vbase1 = base ∧ as1.as_npages1 = np) ∨
       (as.as_vbase1 ≠ 0 ∧ as.as_vbase2 = 0 ∧ as1.as_vbase2 = base ∧
         as1.as_npages2 = np)) ∧
      base ≤ vaddr ∧ vaddr < base + PAGE_SIZE ∧
      vaddr + sz ≤ base + np * PAGE_SIZE ∧
      (∀ m, vaddr + sz ≤ base + m * PAGE_SIZE → np ≤ m) ∧
      (1 ≤ sz → ∀ m, (∀ a, vaddr ≤ a → a < vaddr + sz → a < base + m * PAGE_SIZE) →
        np ≤ m) := by
  rw [as_define_region_values] at h
  simp only [WORD, PAGE_SIZE] at hw ⊢
  have hb : vaddr % 4294967296 / 4096 * 4096 = vaddr / 4096 * 4096 := by
    rw [Nat.mod_eq_of_lt (by omega)]
  have hn : (sz + vaddr % 4096 + 4095) % 4294967296 / 4096 =
      (sz + vaddr % 4096 + 4095) / 4096 := by
    rw [Nat.mod_eq_of_lt (by omega)]
  rw [hb, hn] at h
  refine ⟨vaddr / 4096 * 4096, (sz + vaddr % 4096 + 4095) / 4096, rfl, ?_, ?_, ?_, ?_, ?_, ?_⟩
  · by_cases h1 : as.as_vbase1 = 0
    · left
      simp only [h1, if_true, Prod.mk.injEq, true_and] at h
      subst h
      exact ⟨h1, rfl, rfl⟩
    · right
      by_cases h2 : as.as_vbase2 = 0
      · simp only [h1, h2, if_false, if_true, Prod.mk.injEq, true_and] at h
        subst h
        exact ⟨h1, h2, rfl, rfl⟩
      · simp [h1, h2, EUNIMP] at h
  · omega
  · omega
  · omega
  · intro m hm; omega
  · intro hsz m hm
    have := hm (vaddr + sz - 1) (by omega) (by omega)
    omega

/-- C12, instantiated: `as_define_region(0x400ff0, 0x20)` on a fresh address space stores
base `0x400000` and two pages. -/
theorem as_define_region_rounding_witness :
    ∃ base np, base = 0x400ff0 / PAGE_SIZE * PAGE_SIZE ∧
      (((0 : Nat) = 0 ∧ 0x400000 = base ∧ 2 = np) ∨
       ((0 : Nat) ≠ 0 ∧ (0 : Nat) = 0 ∧ 0 = base ∧ 0 = np)) ∧
      base ≤ 0x400ff0 ∧ 0x400ff0 < base + PAGE_SIZE ∧
      0x400ff0 + 0x20 ≤ base + np * PAGE_SIZE ∧
      (∀ m, 0x400ff0 + 0x20 ≤ base + m * PAGE_SIZE → np ≤ m) ∧
      (1 ≤ 0x20 → ∀ m, (∀ a, 0x400ff0 ≤ a → a < 0x400ff0 + 0x20 →
        a < base + m * PAGE_SIZE) → np ≤ m) :=
  as_define_region_rounding
    { as_vbase1 := 0, as_pbase1 := 0, as_npages1 := 0, as_vbase2 := 0, as_pbase2 := 0,
      as_npages2 := 0, as_stackpbase := 0, hasLoaded := false }
    { as_vbase1 := 0x400000, as_pbase1 := 0, as_npages1 := 2, as_vbase2 := 0,
      as_pbase2 := 0, as_npages2 := 0, as_stackpbase := 0, hasLoaded := false }
    0x400ff0 0x20 1 0 1 (by decide) (by decide)

/-! ## Allocation failure: lemmas and claims -/

theorem afterBootstrap_page_start_pos (st : CoreState) (h : AfterBootstrap st)
    (hnp : 1 ≤ st.numpages) : PAGE_SIZE ≤ st.page_start := by
  obtain ⟨_, _, lo, hi, st0, hle, hhi, hn, hps⟩ := h
  rw [hn] at hnp
  rw [hps]
  simp only [vm_bootstrap, ROUNDUP, WORD, PAGE_SIZE, SIZEOF_ULONG] at *
  norm_num at *
  omega

/-- The loop that keeps the core-map agrees with `scanLoop`, and when it runs to its end
the core-map is the one it started with. -/
theorem scanLoopT_spec (ps n : Nat) (t : List Nat) :
    ∀ (rem i c start addr : Nat),
      (scanLoop ps n t rem i c start addr =
        match scanLoopT ps n rem i c start addr t with
        | (some a, t1) => some (a, t1)
        | (none, _) => none) ∧
      ((scanLoopT ps n rem i c start addr t).1 = none →
        (scanLoopT ps n rem i c start addr t).2 = t) := by
  intro rem
  induction rem with
  | zero => intro i c start addr; simp [scanLoop, scanLoopT]
  | succ r ih =>
      intro i c start addr
      simp only [scanLoop, scanLoopT]
      by_cases hfull : (if t.getD i 0 = 0 then c + 1 else 0) = n
      · simp only [hfull, if_true]
        simp
      · simp only [hfull, if_false]
        exact ih _ _ _ _

theorem getppages_core_spec (st : CoreState) (n : Nat) (hc : st.core_created = true) :
    (getppages st n =
      match getppages_core st n with
      | (some a, st1) => some (a, st1)
      | (none, _) => none) ∧
    ((getppages_core st n).1 = none → (getppages_core st n).2 = st) := by
  obtain ⟨h1, h2⟩ := scanLoopT_spec st.page_start n st.table st.numpages 0 0 0 0
  unfold getppages getppages_core
  rw [if_pos hc, h1]
  cases hT : scanLoopT st.page_start n st.numpages 0 0 0 0 st.table with
  | mk r t1 =>
      rw [hT] at h2
      cases r with
      | none =>
          simp only at h2 ⊢
          refine ⟨trivial, fun _ => ?_⟩
          rw [h2 trivial]
      | some a => simp

/-- C14. After bootstrap, for every core-map and every `n ≥ 1`, `getppages n` ends in
`panic` if and only if the core-map has no run of `n` consecutive free entries; when it
returns, the address is not 0; and at the `panic` the core-map (with every other field)
is as it was at the call. -/
theorem getppages_panic_iff (st : CoreState) (n : Nat) (hboot : AfterBootstrap st)
    (hn : 1 ≤ n) :
    (getppages st n = none ↔ ¬ ∃ s, freeRun st.table s n) ∧
    (∀ a st1, getppages st n = some (a, st1) → a ≠ 0) ∧
    ((getppages_core st n).1 = none ↔ getppages st n = none) ∧
    (getppages st n = none → getppages_core st n = (none, st)) := by
  have hsome : ∀ a st1, getppages st n = some (a, st1) →
      (∃ s, freeRun st.table s n) ∧ a ≠ 0 := by
    intro a st1 h
    obtain ⟨s, hfr, _, ha, _⟩ := getppages_some st st1 n a hboot hn h
    refine ⟨⟨s, hfr⟩, ?_⟩
    have hl := hboot.2.1
    have hp := afterBootstrap_page_start_pos st hboot (by have := hfr.1; omega)
    rw [ha]
    simp only [PAGE_SIZE] at *
    omega
  obtain ⟨hc1, hc2⟩ := getppages_core_spec st n hboot.1
  have hlink : (getppages_core st n).1 = none ↔ getppages st n = none := by
    rw [hc1]
    cases hT : getppages_core st n with
    | mk r st1 => cases r <;> simp
  refine ⟨⟨?_, ?_⟩, fun a st1 h => (hsome a st1 h).2, hlink, ?_⟩
  · intro h ⟨s, hs⟩
    exact getppages_none st n hboot hn h s hs
  · intro hno
    cases hg : getppages st n with
    | none => rfl
    | some r =>
        obtain ⟨a, st1⟩ := r
        exact absurd (hsome a st1 hg).1 hno
  · intro h
    have h1 := hlink.mpr h
    have h2 := hc2 h1
    exact Prod.ext h1 h2

/-- C14, instantiated: a request for three pages on the two-frame machine
(`lo = 0x1000`, `hi = 0x4000`) right after `vm_bootstrap`, which panics. -/
theorem getppages_panic_iff_witness :
    getppages (vm_bootstrap 0x1000 0x4000 (bootState 0x1000 0x4000)) 3 = none ∧
    getppages_core (vm_bootstrap 0x1000 0x4000 (bootState 0x1000 0x4000)) 3 =
      (none, vm_bootstrap 0x1000 0x4000 (bootState 0x1000 0x4000)) :=
  ⟨by decide,
   (getppages_panic_iff (vm_bootstrap 0x1000 0x4000 (bootState 0x1000 0x4000)) 3
      ⟨rfl, rfl, 0x1000, 0x4000, bootState 0x1000 0x4000, by decide, by decide, rfl, rfl⟩
      (by decide)).2.2.2 (by decide)⟩

theorem scanLoop_length (ps n : Nat) (t : List Nat) :
    ∀ (rem i c start addr a : Nat) (t1 : List Nat),
      scanLoop ps n t rem i c start addr = some (a, t1) → t1.length = t.length := by
  intro rem
  induction rem with
  | zero => intro i c start addr a t1 h; simp [scanLoop] at h
  | succ r ih =>
      intro i c start addr a t1 h
      simp only [scanLoop] at h
      by_cases hfull : (if t.getD i 0 = 0 then c + 1 else 0) = n
      · simp only [hfull, if_true, Option.some.injEq, Prod.mk.injEq] at h
        rw [← h.2, markLoop_length]
      · simp only [hfull, if_false] at h
        exact ih _ _ _ _ _ _ h

/-- After bootstrap a returning `getppages` (for any request, also of 0 pages) leaves a
state that is again "after bootstrap". -/
theorem afterBootstrap_getppages (st st1 : CoreState) (n a : Nat)
    (hboot : AfterBootstrap st) (h : getppages st n = some (a, st1)) :
    AfterBootstrap st1 ∧ st1.page_start = st.page_start ∧ st1.numpages = st.numpages := by
  obtain ⟨h1, h2, h3⟩ := hboot
  unfold getppages at h
  rw [if_pos h1] at h
  cases hsc : scanLoop st.page_start n st.table st.numpages 0 0 0 0 with
  | none => rw [hsc] at h; simp at h
  | some r =>
      obtain ⟨a1, t1⟩ := r
      rw [hsc] at h
      simp only [Option.some.injEq, Prod.mk.injEq] at h
      have hl := scanLoop_length _ _ _ _ _ _ _ _ _ _ hsc
      rw [← h.2]
      exact ⟨⟨h1, by simp [hl, h2], h3⟩, rfl, rfl⟩

theorem getppages_none_of_no_run (st : CoreState) (n : Nat) (hboot : AfterBootstrap st)
    (hno : ¬ ∃ s, freeRun st.table s n) : getppages st n = none := by
  have hn : 1 ≤ n := by
    by_contra hcon
    have h0 : n = 0 := by omega
    subst h0
    exact hno ⟨0, by simp, fun k hk => by omega⟩
  cases hg : getppages st n with
  | none => rfl
  | some r =>
      obtain ⟨a, st1⟩ := r
      obtain ⟨s, hfr, _⟩ := getppages_some st st1 n a hboot hn hg
      exact absurd ⟨s, hfr⟩ hno

theorem getppages_ne_zero (st st1 : CoreState) (n a : Nat) (hboot : AfterBootstrap st)
    (hn : 1 ≤ n) (h : getppages st n = some (a, st1)) : a ≠ 0 := by
  obtain ⟨s, hfr, _, ha, _⟩ := getppages_some st st1 n a hboot hn h
  have hl := hboot.2.1
  have hp := afterBootstrap_page_start_pos st hboot (by have := hfr.1; omega)
  rw [ha]
  simp only [PAGE_SIZE] at *
  omega

/-- C15 (counterexample). On the two-frame machine right after `vm_bootstrap`, an address
space whose region 1 has three pages cannot be supplied; `as_prepare_load` does not
return `ENOMEM`, the kernel panics in `getppages`. -/
theorem as_prepare_load_panics_example :
    ¬ (∃ s, freeRun (vm_bootstrap 0x1000 0x4000 (bootState 0x1000 0x4000)).table s 3) ∧
    getppages (vm_bootstrap 0x1000 0x4000 (bootState 0x1000 0x4000)) 3 = none ∧
    (∀ mem, as_prepare_load (vm_bootstrap 0x1000 0x4000 (bootState 0x1000 0x4000)) mem
      { as_vbase1 := 0x400000, as_pbase1 := 0, as_npages1 := 3,
        as_vbase2 := 0x500000, as_pbase2 := 0, as_npages2 := 1,
        as_stackpbase := 0, hasLoaded := false } = LoadOutcome.panic) := by
  refine ⟨?_, by decide, fun mem => rfl⟩
  rintro ⟨s, hs, _⟩
  have : (vm_bootstrap 0x1000 0x4000 (bootState 0x1000 0x4000)).table.length = 2 := by
    decide
  omega

/-- C15 (amended). After bootstrap, whenever no sufficiently long run of free frames
exists for region 1, for region 2 (after region 1 was supplied) or for the stack (after
both were supplied), `as_prepare_load` does not return: the kernel panics; and for
regions of at least one page it never returns `ENOMEM`. -/
theorem as_prepare_load_panics (st : CoreState) (mem : Mem) (as : addrspace)
    (hboot : AfterBootstrap st) :
    ((¬ ∃ s, freeRun st.table s as.as_npages1) →
      as_prepare_load st mem as = LoadOutcome.panic) ∧
    (∀ a1 st1, getppages st as.as_npages1 = some (a1, st1) → a1 ≠ 0 →
      (¬ ∃ s, freeRun st1.table s as.as_npages2) →
      as_prepare_load st mem as = LoadOutcome.panic) ∧
    (∀ a1 st1 a2 st2, getppages st as.as_npages1 = some (a1, st1) → a1 ≠ 0 →
      getppages st1 as.as_npages2 = some (a2, st2) → a2 ≠ 0 →
      (¬ ∃ s, freeRun st2.table s DUMBVM_STACKPAGES) →
      as_prepare_load st mem as = LoadOutcome.panic) ∧
    (1 ≤ as.as_npages1 → 1 ≤ as.as_npages2 →
      ∀ as1 st1 mem1, as_prepare_load st mem as ≠ LoadOutcome.ret ENOMEM as1 st1 mem1) := by
  refine ⟨?_, ?_, ?_, ?_⟩
  · intro hno
    have hg := getppages_none_of_no_run st _ hboot hno
    unfold as_prepare_load
    split
    · rfl
    · simp only [hg]
  · intro a1 st1 hg1 ha1 hno
    have hb1 := (afterBootstrap_getppages st st1 _ a1 hboot hg1).1
    have hg2 := getppages_none_of_no_run st1 _ hb1 hno
    unfold as_prepare_load
    split
    · rfl
    · simp only [hg1, ha1, if_false, hg2]
  · intro a1 st1 a2 st2 hg1 ha1 hg2 ha2 hno
    have hb1 := (afterBootstrap_getppages st st1 _ a1 hboot hg1).1
    have hb2 := (afterBootstrap_getppages st1 st2 _ a2 hb1 hg2).1
    have hg3 := getppages_none_of_no_run st2 _ hb2 hno
    unfold as_prepare_load
    split
    · rfl
    · simp only [hg1, ha1, if_false, hg2, ha2, hg3]
  · intro hn1 hn2 as1 st1 mem1
    unfold as_prepare_load
    split
    · simp
    · cases hg1 : getppages st as.as_npages1 with
      | none => simp
      | some r1 =>
          obtain ⟨a1, s1⟩ := r1
          have ha1 := getppages_ne_zero st s1 _ a1 hboot hn1 hg1
          have hb1 := (afterBootstrap_getppages st s1 _ a1 hboot hg1).1
          simp only [ha1, if_false]
          cases hg2 : getppages s1 as.as_npages2 with
          | none => simp
          | some r2 =>
              obtain ⟨a2, s2⟩ := r2
              have ha2 := getppages_ne_zero s1 s2 _ a2 hb1 hn2 hg2
              have hb2 := (afterBootstrap_getppages s1 s2 _ a2 hb1 hg2).1
              simp only [ha2, if_false]
              cases hg3 : getppages s2 DUMBVM_STACKPAGES with
              | none => simp
              | some r3 =>
                  obtain ⟨a3, s3⟩ := r3
                  have ha3 := getppages_ne_zero s2 s3 _ a3 hb2 (by decide) hg3
                  simp [ha3, ENOMEM]

/-- C15 (amended), instantiated on the two-frame machine: region 1 of three pages. -/
theorem as_prepare_load_panics_witness :
    as_prepare_load (vm_bootstrap 0x1000 0x4000 (bootState 0x1000 0x4000)) (fun _ => 0)
      { as_vbase1 := 0x400000, as_pbase1 := 0, as_npages1 := 3,
        as_vbase2 := 0x500000, as_pbase2 := 0, as_npages2 := 1,
        as_stackpbase := 0, hasLoaded := false } = LoadOutcome.panic :=
  (as_prepare_load_panics (vm_bootstrap 0x1000 0x4000 (bootState 0x1000 0x4000))
    (fun _ => 0) _
    ⟨rfl, rfl, 0x1000, 0x4000, bootState 0x1000 0x4000, by decide, by decide, rfl,
      rfl⟩).1
    (by
      rintro ⟨s, hs, _⟩
      have : (vm_bootstrap 0x1000 0x4000 (bootState 0x1000 0x4000)).table.length = 2 := by
        decide
      simp only at hs
      omega)

/-! ## Copying an address space: lemmas and claims -/

theorem memmove_in (mem : Mem) (dst src len a : Nat) (h1 : dst ≤ a) (h2 : a < dst + len) :
    memmove mem dst src len a = mem (src + (a - dst)) := by
  simp [memmove, h1, h2]

theorem memmove_out (mem : Mem) (dst src len a : Nat) (h : a < dst ∨ dst + len ≤ a) :
    memmove mem dst src len a = mem a := by
  have : ¬ (dst ≤ a ∧ a < dst + len) := by omega
  simp [memmove, this]

theorem bzero_out (mem : Mem) (ptr len a : Nat) (h : a < ptr ∨ ptr + len ≤ a) :
    bzero mem ptr len a = mem a := by
  have : ¬ (ptr ≤ a ∧ a < ptr + len) := by omega
  simp [bzero, this]

/-- Reading the memory left by the three `bzero`s and three `memmove`s of `as_copy` at an
address outside the three destination ranges. -/
theorem copy_mem_out (mem : Mem) (k1 k2 k3 o1 o2 o3 l1 l2 l3 a : Nat)
    (h1 : a < k1 ∨ k1 + l1 ≤ a) (h2 : a < k2 ∨ k2 + l2 ≤ a) (h3 : a < k3 ∨ k3 + l3 ≤ a) :
    memmove (memmove (memmove (bzero (bzero (bzero mem k1 l1) k2 l2) k3 l3) k1 o1 l1)
      k2 o2 l2) k3 o3 l3 a = mem a := by
  rw [memmove_out _ _ _ _ _ h3, memmove_out _ _ _ _ _ h2, memmove_out _ _ _ _ _ h1,
    bzero_out _ _ _ _ h3, bzero_out _ _ _ _ h2, bzero_out _ _ _ _ h1]

theorem copy_mem_first (mem : Mem) (k1 k2 k3 o1 o2 o3 l1 l2 l3 i : Nat) (hi : i < l1)
    (h12 : k1 + l1 ≤ k2 ∨ k2 + l2 ≤ k1) (h13 : k1 + l1 ≤ k3 ∨ k3 + l3 ≤ k1)
    (g1 : k1 + l1 ≤ o1 ∨ o1 + l1 ≤ k1) (g2 : k2 + l2 ≤ o1 ∨ o1 + l1 ≤ k2)
    (g3 : k3 + l3 ≤ o1 ∨ o1 + l1 ≤ k3) :
    memmove (memmove (memmove (bzero (bzero (bzero mem k1 l1) k2 l2) k3 l3) k1 o1 l1)
      k2 o2 l2) k3 o3 l3 (k1 + i) = mem (o1 + i) := by
  rw [memmove_out _ _ _ _ _ (by omega), memmove_out _ _ _ _ _ (by omega),
    memmove_in _ _ _ _ _ (by omega) (by omega)]
  have e : o1 + (k1 + i - k1) = o1 + i := by omega
  rw [e, bzero_out _ _ _ _ (by omega), bzero_out _ _ _ _ (by omega),
    bzero_out _ _ _ _ (by omega)]

theorem copy_mem_second (mem : Mem) (k1 k2 k3 o1 o2 o3 l1 l2 l3 i : Nat) (hi : i < l2)
    (h23 : k2 + l2 ≤ k3 ∨ k3 + l3 ≤ k2)
    (g1 : k1 + l1 ≤ o2 ∨ o2 + l2 ≤ k1) (g2 : k2 + l2 ≤ o2 ∨ o2 + l2 ≤ k2)
    (g3 : k3 + l3 ≤ o2 ∨ o2 + l2 ≤ k3) :
    memmove (memmove (memmove (bzero (bzero (bzero mem k1 l1) k2 l2) k3 l3) k1 o1 l1)
      k2 o2 l2) k3 o3 l3 (k2 + i) = mem (o2 + i) := by
  rw [memmove_out _ _ _ _ _ (by omega), memmove_in _ _ _ _ _ (by omega) (by omega)]
  have e : o2 + (k2 + i - k2) = o2 + i := by omega
  rw [e, memmove_out _ _ _ _ _ (by omega), bzero_out _ _ _ _ (by omega),
    bzero_out _ _ _ _ (by omega), bzero_out _ _ _ _ (by omega)]

theorem copy_mem_third (mem : Mem) (k1 k2 k3 o1 o2 o3 l1 l2 l3 i : Nat) (hi : i < l3)
    (g1 : k1 + l1 ≤ o3 ∨ o3 + l3 ≤ k1) (g2 : k2 + l2 ≤ o3 ∨ o3 + l3 ≤ k2)
    (g3 : k3 + l3 ≤ o3 ∨ o3 + l3 ≤ k3) :
    memmove (memmove (memmove (bzero (bzero (bzero mem k1 l1) k2 l2) k3 l3) k1 o1 l1)
      k2 o2 l2) k3 o3 l3 (k3 + i) = mem (o3 + i) := by
  rw [memmove_in _ _ _ _ _ (by omega) (by omega)]
  have e : o3 + (k3 + i - k3) = o3 + i := by omega
  rw [e, memmove_out _ _ _ _ _ (by omega), memmove_out _ _ _ _ _ (by omega),
    bzero_out _ _ _ _ (by omega), bzero_out _ _ _ _ (by omega),
    bzero_out _ _ _ _ (by omega)]

/-- Disjoint physical runs below `2^32` have disjoint images in the kernel segment. -/
theorem kv_disjoint (a l b m : Nat) (ha : a + l ≤ WORD) (hb : b + m ≤ WORD)
    (h : a + l ≤ b ∨ b + m ≤ a) :
    PADDR_TO_KVADDR a + l ≤ PADDR_TO_KVADDR b ∨
      PADDR_TO_KVADDR b + m ≤ PADDR_TO_KVADDR a := by
  simp only [PADDR_TO_KVADDR, MIPS_KSEG0, WORD] at *
  omega

/-- A free run and an allocated run of the same core-map do not overlap. -/
theorem free_alloc_disjoint (st : CoreState) (s n p m : Nat) (hn : 1 ≤ n) (hm : 1 ≤ m)
    (hfr : freeRun st.table s n) (hal : allocatedRun st p m) :
    disjointRuns (st.page_start + s * PAGE_SIZE) n p m := by
  obtain ⟨s', hp, hs', hnz⟩ := hal
  have hidx : s + n ≤ s' ∨ s' + m ≤ s := by
    by_contra hcon
    have hx : ∃ x, s ≤ x ∧ x < s + n ∧ s' ≤ x ∧ x < s' + m := by
      by_cases h : s ≤ s'
      · exact ⟨s', by omega, by omega, by omega, by omega⟩
      · exact ⟨s, by omega, by omega, by omega, by omega⟩
    obtain ⟨x, hx1, hx2, hx3, hx4⟩ := hx
    have hz := hfr.2 (x - s) (by omega)
    have hnz1 := hnz (x - s') (by omega)
    have e1 : s + (x - s) = x := by omega
    have e2 : s' + (x - s') = x := by omega
    rw [e1] at hz
    rw [e2] at hnz1
    exact hnz1 hz
  unfold disjointRuns
  rw [hp]
  simp only [PAGE_SIZE]
  omega

/-- Marking a free run keeps every allocated run allocated and makes the marked run
allocated. -/
theorem allocatedRun_mark (st : CoreState) (s n : Nat) (hboot : AfterBootstrap st)
    (hfr : freeRun st.table s n) :
    (∀ p m, allocatedRun st p m →
      allocatedRun { st with table := markLoop s n s st.table } p m) ∧
    allocatedRun { st with table := markLoop s n s st.table }
      (st.page_start + s * PAGE_SIZE) n := by
  have hw := afterBootstrap_nowrap st hboot
  have hl := hboot.2.1
  have hlen := hfr.1
  have hval : ∀ x, s ≤ x → x < s + n → (x + 1 - s) % WORD ≠ 0 := by
    intro x h1 h2
    have : x + 1 - s < WORD := by
      simp only [WORD, PAGE_SIZE] at *
      omega
    rw [Nat.mod_eq_of_lt this]
    omega
  constructor
  · intro p m ⟨s', hp, hs', hnz⟩
    refine ⟨s', hp, hs', fun k hk => ?_⟩
    simp only
    rw [markLoop_getD s n s st.table (s' + k) hlen]
    split
    · rename_i hx
      exact hval _ hx.1 hx.2
    · exact hnz k hk
  · refine ⟨s, rfl, by simp only; omega, fun k hk => ?_⟩
    simp only
    rw [markLoop_getD s n s st.table (s + k) hlen, if_pos ⟨by omega, by omega⟩]
    exact hval _ (by omega) (by omega)

/-- What one successful `getppages n` (`n ≥ 1`) after bootstrap gives: a non-zero run
below `2^32`, disjoint from every run that was allocated, with all those runs and the
new one allocated afterwards. -/
theorem getppages_fresh (st st1 : CoreState) (n a : Nat) (hboot : AfterBootstrap st)
    (hn : 1 ≤ n) (h : getppages st n = some (a, st1)) :
    AfterBootstrap st1 ∧ a ≠ 0 ∧ a + n * PAGE_SIZE ≤ WORD ∧ n * PAGE_SIZE < WORD ∧
    allocatedRun st1 a n ∧
    (∀ p m, allocatedRun st p m → allocatedRun st1 p m) ∧
    (∀ p m, 1 ≤ m → allocatedRun st p m → disjointRuns a n p m) := by
  obtain ⟨s, hfr, _, ha, hst1⟩ := getppages_some st st1 n a hboot hn h
  obtain ⟨hk1, hk2⟩ := allocatedRun_mark st s n hboot hfr
  have hw := afterBootstrap_nowrap st hboot
  have hl := hboot.2.1
  have hlen := hfr.1
  have hp := afterBootstrap_page_start_pos st hboot (by omega)
  refine ⟨(afterBootstrap_getppages st st1 n a hboot h).1,
    getppages_ne_zero st st1 n a hboot hn h, ?_, ?_, ?_, ?_, ?_⟩
  · rw [ha]
    simp only [PAGE_SIZE, WORD] at *
    omega
  · simp only [PAGE_SIZE, WORD] at *
    omega
  · rw [hst1, ha]; exact hk2
  · intro p m hpm
    rw [hst1]; exact hk1 p m hpm
  · intro p m hm hpm
    rw [ha]
    exact free_alloc_disjoint st s n p m hn hm hfr hpm

theorem allocatedRun_le_word (st : CoreState) (p m : Nat) (hboot : AfterBootstrap st)
    (h : allocatedRun st p m) : p + m * PAGE_SIZE ≤ WORD := by
  obtain ⟨s, hp, hs, _⟩ := h
  have hw := afterBootstrap_nowrap st hboot
  rw [hp]
  simp only [PAGE_SIZE, WORD] at *
  omega

theorem disjointRuns_symm (a n b m : Nat) (h : disjointRuns a n b m) :
    disjointRuns b m a n := by
  unfold disjointRuns at *
  omega

theorem outside_of_disjoint (k l o m i : Nat) (h : k + l ≤ o ∨ o + m ≤ k) (hi : i < m) :
    o + i < k ∨ k + l ≤ o + i := by
  omega

/-- The kernel-segment form of `disjointRuns`, for runs below `2^32`. -/
theorem disjointRuns_kv (a n b m : Nat) (ha : a + n * PAGE_SIZE ≤ WORD)
    (hb : b + m * PAGE_SIZE ≤ WORD) (h : disjointRuns a n b m) :
    PADDR_TO_KVADDR a + n * PAGE_SIZE ≤ PADDR_TO_KVADDR b ∨
      PADDR_TO_KVADDR b + m * PAGE_SIZE ≤ PADDR_TO_KVADDR a :=
  kv_disjoint a (n * PAGE_SIZE) b (m * PAGE_SIZE) ha hb h

/-- C13. After bootstrap, for a source address space with non-empty regions whose three
physical runs are allocated, when `kmalloc` supplies the structure and the three
`getppages` requests of `as_prepare_load` find their runs (`a1`, `a2`, `a3`), `as_copy`
returns 0 and an address space with the source's virtual bases and page counts and the
physical bases `a1`, `a2`, `a3`; these are non-zero, the three new runs are pairwise
disjoint and disjoint from the three runs of the source, every byte of region 1,
region 2 and the stack of the copy equals the byte of the source, and the bytes of the
source are as before (the source structure is only read). -/
theorem as_copy_spec (st st1 st2 st3 : CoreState) (mem : Mem) (old : addrspace)
    (a1 a2 a3 : Nat) (hboot : AfterBootstrap st)
    (hn1 : 1 ≤ old.as_npages1) (hn2 : 1 ≤ old.as_npages2)
    (ho1 : allocatedRun st old.as_pbase1 old.as_npages1)
    (ho2 : allocatedRun st old.as_pbase2 old.as_npages2)
    (ho3 : allocatedRun st old.as_stackpbase DUMBVM_STACKPAGES)
    (hg1 : getppages st old.as_npages1 = some (a1, st1))
    (hg2 : getppages st1 old.as_npages2 = some (a2, st2))
    (hg3 : getppages st2 DUMBVM_STACKPAGES = some (a3, st3)) :
    ∃ mem1,
      as_copy st mem true old =
        LoadOutcome.ret 0
          { as_vbase1 := old.as_vbase1, as_pbase1 := a1, as_npages1 := old.as_npages1,
            as_vbase2 := old.as_vbase2, as_pbase2 := a2, as_npages2 := old.as_npages2,
            as_stackpbase := a3, hasLoaded := false } st3 mem1 ∧
      (a1 ≠ 0 ∧ a2 ≠ 0 ∧ a3 ≠ 0) ∧
      (disjointRuns a1 old.as_npages1 a2 old.as_npages2 ∧
        disjointRuns a1 old.as_npages1 a3 DUMBVM_STACKPAGES ∧
        disjointRuns a2 old.as_npages2 a3 DUMBVM_STACKPAGES) ∧
      (∀ p m, (p, m) ∈ [(old.as_pbase1, old.as_npages1), (old.as_pbase2, old.as_npages2),
          (old.as_stackpbase, DUMBVM_STACKPAGES)] →
        disjointRuns a1 old.as_npages1 p m ∧ disjointRuns a2 old.as_npages2 p m ∧
          disjointRuns a3 DUMBVM_STACKPAGES p m) ∧
      (sameContents mem1 a1 mem old.as_pbase1 old.as_npages1 ∧
        sameContents mem1 a2 mem old.as_pbase2 old.as_npages2 ∧
        sameContents mem1 a3 mem old.as_stackpbase DUMBVM_STACKPAGES) ∧
      (sameContents mem1 old.as_pbase1 mem old.as_pbase1 old.as_npages1 ∧
        sameContents mem1 old.as_pbase2 mem old.as_pbase2 old.as_npages2 ∧
        sameContents mem1 old.as_stackpbase mem old.as_stackpbase DUMBVM_STACKPAGES) := by
  have hn3 : 1 ≤ DUMBVM_STACKPAGES := by decide
  obtain ⟨hb1, ha1, hw1, hl1, hal1, keep1, dis1⟩ :=
    getppages_fresh st st1 _ a1 hboot hn1 hg1
  obtain ⟨hb2, ha2, hw2, hl2, hal2, keep2, dis2⟩ :=
    getppages_fresh st1 st2 _ a2 hb1 hn2 hg2
  obtain ⟨_, ha3, hw3, hl3, _, _, dis3⟩ :=
    getppages_fresh st2 st3 _ a3 hb2 hn3 hg3
  -- disjointness of the physical runs
  have d12 := disjointRuns_symm _ _ _ _ (dis2 a1 _ hn1 hal1)
  have d13 := disjointRuns_symm _ _ _ _ (dis3 a1 _ hn1 (keep2 _ _ hal1))
  have d23 := disjointRuns_symm _ _ _ _ (dis3 a2 _ hn2 hal2)
  have hcross : ∀ p m, 1 ≤ m → allocatedRun st p m →
      disjointRuns a1 old.as_npages1 p m ∧ disjointRuns a2 old.as_npages2 p m ∧
        disjointRuns a3 DUMBVM_STACKPAGES p m := by
    intro p m hm hpm
    exact ⟨dis1 p m hm hpm, dis2 p m hm (keep1 _ _ hpm),
      dis3 p m hm (keep2 _ _ (keep1 _ _ hpm))⟩
  obtain ⟨c11, c21, c31⟩ := hcross _ _ hn1 ho1
  obtain ⟨c12, c22, c32⟩ := hcross _ _ hn2 ho2
  obtain ⟨c13, c23, c33⟩ := hcross _ _ hn3 ho3
  have ow1 := allocatedRun_le_word st _ _ hboot ho1
  have ow2 := allocatedRun_le_word st _ _ hboot ho2
  have ow3 := allocatedRun_le_word st _ _ hboot ho3
  -- the same in the kernel segment
  have k12 := disjointRuns_kv _ _ _ _ hw1 hw2 d12
  have k13 := disjointRuns_kv _ _ _ _ hw1 hw3 d13
  have k23 := disjointRuns_kv _ _ _ _ hw2 hw3 d23
  have k11' := disjointRuns_kv _ _ _ _ hw1 ow1 c11
  have k21' := disjointRuns_kv _ _ _ _ hw2 ow1 c21
  have k31' := disjointRuns_kv _ _ _ _ hw3 ow1 c31
  have k12' := disjointRuns_kv _ _ _ _ hw1 ow2 c12
  have k22' := disjointRuns_kv _ _ _ _ hw2 ow2 c22
  have k32' := disjointRuns_kv _ _ _ _ hw3 ow2 c32
  have k13' := disjointRuns_kv _ _ _ _ hw1 ow3 c13
  have k23' := disjointRuns_kv _ _ _ _ hw2 ow3 c23
  have k33' := disjointRuns_kv _ _ _ _ hw3 ow3 c33
  have e1 : (old.as_npages1 * PAGE_SIZE) % WORD = old.as_npages1 * PAGE_SIZE :=
    Nat.mod_eq_of_lt hl1
  have e2 : (old.as_npages2 * PAGE_SIZE) % WORD = old.as_npages2 * PAGE_SIZE :=
    Nat.mod_eq_of_lt hl2
  have e3 : (DUMBVM_STACKPAGES * PAGE_SIZE) % WORD = DUMBVM_STACKPAGES * PAGE_SIZE :=
    Nat.mod_eq_of_lt hl3
  refine ⟨memmove (memmove (memmove
      (bzero (bzero (bzero mem (PADDR_TO_KVADDR a1) (old.as_npages1 * PAGE_SIZE))
        (PADDR_TO_KVADDR a2) (old.as_npages2 * PAGE_SIZE))
        (PADDR_TO_KVADDR a3) (DUMBVM_STACKPAGES * PAGE_SIZE))
      (PADDR_TO_KVADDR a1) (PADDR_TO_KVADDR old.as_pbase1) (old.as_npages1 * PAGE_SIZE))
      (PADDR_TO_KVADDR a2) (PADDR_TO_KVADDR old.as_pbase2) (old.as_npages2 * PAGE_SIZE))
      (PADDR_TO_KVADDR a3) (PADDR_TO_KVADDR old.as_stackpbase)
      (DUMBVM_STACKPAGES * PAGE_SIZE),
    ?_, ⟨ha1, ha2, ha3⟩, ⟨d12, d13, d23⟩, ?_, ⟨?_, ?_, ?_⟩, ⟨?_, ?_, ?_⟩⟩
  · unfold as_copy as_create as_prepare_load
    simp only [if_true, not_true_eq_false, and_self, if_false, hg1, hg2, hg3, ha1, ha2,
      ha3, ne_eq, or_self, as_zero_region, e1, e2, e3]
  · intro p m hpm
    simp only [List.mem_cons, Prod.mk.injEq, List.mem_singleton, List.not_mem_nil,
      or_false] at hpm
    rcases hpm with ⟨rfl, rfl⟩ | ⟨rfl, rfl⟩ | ⟨rfl, rfl⟩
    · exact ⟨c11, c21, c31⟩
    · exact ⟨c12, c22, c32⟩
    · exact ⟨c13, c23, c33⟩
  · intro i hi
    exact copy_mem_first mem _ _ _ _ _ _ _ _ _ i hi k12 k13 k11' k21' k31'
  · intro i hi
    exact copy_mem_second mem _ _ _ _ _ _ _ _ _ i hi k23 k12' k22' k32'
  · intro i hi
    exact copy_mem_third mem _ _ _ _ _ _ _ _ _ i hi k13' k23' k33'
  · intro i hi
    exact copy_mem_out mem _ _ _ _ _ _ _ _ _ _ (outside_of_disjoint _ _ _ _ _ k11' hi)
      (outside_of_disjoint _ _ _ _ _ k21' hi) (outside_of_disjoint _ _ _ _ _ k31' hi)
  · intro i hi
    exact copy_mem_out mem _ _ _ _ _ _ _ _ _ _ (outside_of_disjoint _ _ _ _ _ k12' hi)
      (outside_of_disjoint _ _ _ _ _ k22' hi) (outside_of_disjoint _ _ _ _ _ k32' hi)
  · intro i hi
    exact copy_mem_out mem _ _ _ _ _ _ _ _ _ _ (outside_of_disjoint _ _ _ _ _ k13' hi)
      (outside_of_disjoint _ _ _ _ _ k23' hi) (outside_of_disjoint _ _ _ _ _ k33' hi)

theorem copyDemoState_afterBootstrap : AfterBootstrap copyDemoState :=
  ⟨rfl, by decide, 0x30000, 0x80000, bootState 0x30000 0x80000, by decide, by decide, rfl,
    rfl⟩

/-- C13, instantiated: `asDemo` is copied on the 512 KB machine; the new runs are at
`0x40000` (two pages), `0x42000` (one page) and `0x43000` (twelve pages). -/
theorem as_copy_spec_witness :
    ∃ mem1,
      as_copy copyDemoState (fun a => a % 256) true asDemo =
        LoadOutcome.ret 0
          { as_vbase1 := 0x400000, as_pbase1 := 0x40000, as_npages1 := 2,
            as_vbase2 := 0x500000, as_pbase2 := 0x42000, as_npages2 := 1,
            as_stackpbase := 0x43000, hasLoaded := false } copyDemoState3 mem1 ∧
      ((0x40000 : Nat) ≠ 0 ∧ (0x42000 : Nat) ≠ 0 ∧ (0x43000 : Nat) ≠ 0) ∧
      (disjointRuns 0x40000 2 0x42000 1 ∧ disjointRuns 0x40000 2 0x43000 DUMBVM_STACKPAGES ∧
        disjointRuns 0x42000 1 0x43000 DUMBVM_STACKPAGES) ∧
      (∀ p m, (p, m) ∈ [(0x31000, 2), (0x33000, 1), (0x34000, DUMBVM_STACKPAGES)] →
        disjointRuns 0x40000 2 p m ∧ disjointRuns 0x42000 1 p m ∧
          disjointRuns 0x43000 DUMBVM_STACKPAGES p m) ∧
      (sameContents mem1 0x40000 (fun a => a % 256) 0x31000 2 ∧
        sameContents mem1 0x42000 (fun a => a % 256) 0x33000 1 ∧
        sameContents mem1 0x43000 (fun a => a % 256) 0x34000 DUMBVM_STACKPAGES) ∧
      (sameContents mem1 0x31000 (fun a => a % 256) 0x31000 2 ∧
        sameContents mem1 0x33000 (fun a => a % 256) 0x33000 1 ∧
        sameContents mem1 0x34000 (fun a => a % 256) 0x34000 DUMBVM_STACKPAGES) :=
  as_copy_spec copyDemoState copyDemoState1 copyDemoState2 copyDemoState3
    (fun a => a % 256) asDemo 0x40000 0x42000 0x43000 copyDemoState_afterBootstrap
    (by decide) (by decide)
    ⟨0, by decide, by decide, by decide⟩
    ⟨2, by decide, by decide, by decide⟩
    ⟨3, by decide, by decide, by decide⟩
    (by decide) (by decide) (by decide)

/-! ## `sys_execv`, `sys_waitpid` with options, and read-only faults: claims -/

/-- C16 (evaluation at the failing input). On the 512 KB machine the calling process owns
`asDemo`, whose three runs are allocated (`copyDemoState`). `sys_execv` is called for a
file that `vfs_open` opens and `load_elf` rejects with error 8 without touching the new
address space. The call returns 8; the process is left with the empty address space of
`as_create`, and the three runs of `asDemo` have been released by `as_destroy(oldas)`:
the core-map is all free again. -/
theorem sys_execv_failure_loses_addrspace :
    sys_execv_load 0 true (fun as st => some (8, as, st)) (some asDemo) copyDemoState =
      ExecOutcome.returned 8 (as_create true)
        (vm_bootstrap 0x30000 0x80000 (bootState 0x30000 0x80000)) ∧
    as_create true ≠ some asDemo ∧
    freeCount copyDemoState = 64 ∧
    freeCount (vm_bootstrap 0x30000 0x80000 (bootState 0x30000 0x80000)) = 79 := by
  refine ⟨by decide, by decide, by decide, by decide⟩

/-- C17 (counterexample). In `exitedState` the child (handle 2, pid 3) is a zombie; the
parent's `sys_waitpid` returns 0 with its status, and afterwards the child's PCB is not
destroyed and `search_pid` still finds it among the parent's children. -/
theorem sys_waitpid_keeps_pcb :
    ∃ st1, sys_waitpid exitedState 1 3 0x7fff0000 0 = WaitOutcome.returned 0 (some 3) st1 ∧
      (st1.procs 2).destroyed = false ∧ search_pid st1 1 3 = some 2 := by
  refine ⟨_, rfl, ?_, ?_⟩
  · decide
  · decide

/-- C17 (amended). After a `sys_waitpid` call has returned 0 (the exit status of the
child), the child's PCB has not been destroyed: it is the PCB as before with `hasWaited`
set, `search_pid` still finds it among the caller's children, and no other PCB has
changed; the part of the call that runs after a sleep changes no PCB at all. -/
theorem sys_waitpid_no_reap (st st1 : KState) (p : Nat) (pid : Int) (status : Nat)
    (options : Int) (rv : Option Int)
    (h : sys_waitpid st p pid status options = WaitOutcome.returned 0 rv st1) :
    (∃ ch, search_pid st p pid = some ch ∧ search_pid st1 p pid = some ch ∧
      (st1.procs ch).destroyed = false ∧
      st1.procs ch = { st.procs ch with hasWaited := true } ∧
      (∀ x, x ≠ ch → st1.procs x = st.procs x)) ∧
    (∀ stw ch r rv1 st2,
      sys_waitpid_wake stw ch pid status options = WaitOutcome.returned r rv1 st2 →
      st2.procs = stw.procs) := by
  constructor
  · obtain ⟨ch, hs, hp⟩ := sys_waitpid_returned_zero st st1 p pid status options rv h
    have hfield : ∀ x, (st1.procs x).children = (st.procs x).children ∧
        (st1.procs x).destroyed = (st.procs x).destroyed ∧
        (st1.procs x).pid = (st.procs x).pid := by
      intro x
      rw [hp]
      by_cases hx : x = ch
      · subst hx; simp [setProc_self]
      · simp [setProc_ne, hx]
    have hs1 : search_pid st1 p pid = some ch := by
      rw [search_pid_congr st st1 p pid (hfield p).1 (fun x => (hfield x).2.1)
        (fun x => (hfield x).2.2)]
      exact hs
    refine ⟨ch, hs, hs1, ?_, ?_, ?_⟩
    · rw [(hfield ch).2.1]; exact search_pid_found st p ch pid hs
    · rw [hp, setProc_self]
    · intro x hx
      rw [hp, setProc_ne _ _ _ _ hx]
  · intro stw ch r rv1 st2 hw
    unfold sys_waitpid_wake at hw
    split at hw
    · simp at hw
    · exact waitpid_finish_state _ _ _ _ _ _ _ _ hw

/-- C17 (amended), instantiated on `exitedState`. -/
theorem sys_waitpid_no_reap_witness :
    ∃ st1, sys_waitpid exitedState 1 3 0x7fff0000 0 = WaitOutcome.returned 0 (some 3) st1 ∧
      ∃ ch, search_pid exitedState 1 3 = some ch ∧ search_pid st1 1 3 = some ch ∧
        (st1.procs ch).destroyed = false := by
  obtain ⟨st1, h⟩ := exitedState_waitpid
  obtain ⟨ch, h1, h2, h3, _⟩ :=
    (sys_waitpid_no_reap exitedState st1 1 3 0x7fff0000 0 (some 3) h).1
  exact ⟨st1, h, ch, h1, h2, h3⟩

/-- C18. For a child `ch` of the caller named by `pid` that has exited (`alive` is
false) and has not been waited for, `sys_waitpid` with `options ≠ 0` returns `EINVAL`
without sleeping, does not assign `*retval` and stores nothing in user memory. (The
child's `hasWaited` flag has been set by then; no other PCB field changes.) -/
theorem sys_waitpid_bad_options (st : KState) (p ch : Nat) (pid : Int) (status : Nat)
    (options : Int) (hchild : search_pid st p pid = some ch)
    (hexit : (st.procs ch).alive = false) (hnw : (st.procs ch).hasWaited = false)
    (hopt : options ≠ 0) :
    ∃ st1, sys_waitpid st p pid status options = WaitOutcome.returned EINVAL none st1 ∧
      st1.umem = st.umem ∧
      st1.procs ch = { st.procs ch with hasWaited := true } ∧
      (∀ x, x ≠ ch → st1.procs x = st.procs x) := by
  refine ⟨setProc st ch { st.procs ch with hasWaited := true }, ?_, rfl, ?_, ?_⟩
  · unfold sys_waitpid
    rw [hchild]
    simp only [hnw, Bool.false_eq_true, if_false]
    simp only [setProc_self, hexit, Bool.false_eq_true, if_false]
    unfold waitpid_finish
    simp only [ne_eq, hopt, not_false_eq_true, if_true]
  · rw [setProc_self]
  · intro x hx
    rw [setProc_ne _ _ _ _ hx]

/-- C18, instantiated: the parent of `exitedState` waits for its exited child with
`options = 1`. -/
theorem sys_waitpid_bad_options_witness :
    ∃ st1, sys_waitpid exitedState 1 3 0x7fff0000 1 =
        WaitOutcome.returned EINVAL none st1 ∧
      st1.umem = exitedState.umem ∧
      st1.procs 2 = { exitedState.procs 2 with hasWaited := true } ∧
      (∀ x, x ≠ 2 → st1.procs x = exitedState.procs x) :=
  sys_waitpid_bad_options exitedState 1 2 3 0x7fff0000 1 (by decide) (by decide)
    (by decide) (by decide)

theorem regionOf_classify_aligned (as : addrspace) (fa : Nat) (hassert : setupAsserts as)
    (hreg : regionOf as (fa &&& PAGE_FRAME) ≠ none) :
    ∃ paddr isCode, classify as (fa &&& PAGE_FRAME) = some (paddr, isCode) ∧
      paddr &&& PAGE_FRAME = paddr := by
  cases hr : regionOf as (fa &&& PAGE_FRAME) with
  | none => exact absurd hr hreg
  | some r =>
      obtain ⟨vb, pb, np⟩ := r
      obtain ⟨isCode, hc, _, hvb, hoff⟩ := classify_regionOf as _ vb pb np hr
      obtain ⟨hvba, hpba⟩ := regionOf_aligned as _ vb pb np hassert hr
      have hva : (fa &&& PAGE_FRAME) &&& PAGE_FRAME = fa &&& PAGE_FRAME := by
        rw [Nat.and_assoc, Nat.and_self]
      refine ⟨_, isCode, hc, ?_⟩
      rw [aligned_iff] at hvba hpba hva ⊢
      simp only [WORD]
      omega

/-- C19. For a read or write fault whose page-aligned address `vm_fault` matches against
region 1, region 2 or the stack window of an address space passing the set-up
assertions, `vm_fault` returns 0 whatever the TLB holds; when no slot among the
`NUM_TLB` is invalid the entry is written by `tlb_random` into the slot `rnd`, and it
carries the page-aligned fault address and the valid bit. -/
theorem vm_fault_succeeds (as : addrspace) (tlb : Tlb) (rnd : Nat) (ft : Int) (fa : Nat)
    (hassert : setupAsserts as) (hft : ft = VM_FAULT_READ ∨ ft = VM_FAULT_WRITE)
    (hreg : (fa &&& PAGE_FRAME ≥ as.as_vbase1 ∧ fa &&& PAGE_FRAME < vtop1 as) ∨
      (fa &&& PAGE_FRAME ≥ as.as_vbase2 ∧ fa &&& PAGE_FRAME < vtop2 as) ∨
      (fa &&& PAGE_FRAME ≥ stackbase ∧ fa &&& PAGE_FRAME < stacktop)) :
    ∃ tlb1, vm_fault (some (some as)) tlb rnd ft fa = FaultOutcome.ret 0 tlb1 ∧
      ((∀ i, i < NUM_TLB → (tlb_read tlb i).2 &&& TLBLO_VALID ≠ 0) →
        ∃ elo, tlb1 = tlb_random tlb rnd (fa &&& PAGE_FRAME) elo ∧
          elo &&& TLBLO_VALID ≠ 0) := by
  have hr : regionOf as (fa &&& PAGE_FRAME) ≠ none := by
    unfold regionOf
    rcases hreg with h | h | h
    · rw [if_pos h]; simp
    · by_cases h1 : fa &&& PAGE_FRAME ≥ as.as_vbase1 ∧ fa &&& PAGE_FRAME < vtop1 as
      · rw [if_pos h1]; simp
      · rw [if_neg h1, if_pos h]; simp
    · by_cases h1 : fa &&& PAGE_FRAME ≥ as.as_vbase1 ∧ fa &&& PAGE_FRAME < vtop1 as
      · rw [if_pos h1]; simp
      · by_cases h2 : fa &&& PAGE_FRAME ≥ as.as_vbase2 ∧ fa &&& PAGE_FRAME < vtop2 as
        · rw [if_neg h1, if_pos h2]; simp
        · rw [if_neg h1, if_neg h2, if_pos h]; simp
  obtain ⟨paddr, isCode, hc, hal⟩ := regionOf_classify_aligned as fa hassert hr
  obtain ⟨slot, hres, hsome, hnone⟩ :=
    vm_fault_classified as tlb rnd ft fa paddr isCode hassert hft hc hal
  refine ⟨_, hres, fun hall => ⟨mkElo as paddr isCode, ?_, ?_⟩⟩
  · cases hfl : fillLoop tlb (fa &&& PAGE_FRAME) (mkElo as paddr isCode) NUM_TLB 0 with
    | some t =>
        obtain ⟨hs1, hs2⟩ := hsome ⟨t, hfl⟩
        exact absurd hs2 (hall slot hs1)
    | none =>
        rw [hnone hfl]
        rfl
  · rw [(mkElo_bits as paddr isCode).1]
    decide

/-- C19, instantiated: a write fault on the stack of `asDemo` with every slot valid. -/
theorem vm_fault_succeeds_witness :
    ∃ tlb1, vm_fault (some (some asDemo)) tlbFull 7 VM_FAULT_WRITE 0x7fffff10 =
        FaultOutcome.ret 0 tlb1 ∧
      ((∀ i, i < NUM_TLB → (tlb_read tlbFull i).2 &&& TLBLO_VALID ≠ 0) →
        ∃ elo, tlb1 = tlb_random tlbFull 7 (0x7fffff10 &&& PAGE_FRAME) elo ∧
          elo &&& TLBLO_VALID ≠ 0) :=
  vm_fault_succeeds asDemo tlbFull 7 VM_FAULT_WRITE 0x7fffff10 (by decide) (Or.inr rfl)
    (Or.inr (Or.inr (by decide)))

/-- C20. For a fault of type `VM_FAULT_READONLY` taken by the current process, which
has an address space (the fault comes from a TLB entry `vm_fault` installed for that
address space), `vm_fault` terminates that process through
`sys__exit(__WROMWRITE)`: its exit code becomes `__WROMWRITE` and its `alive` flag false,
the kernel does not panic, no other PCB changes, and the TLB is as it was. -/
theorem vm_fault_readonly_exits (W : Int) (st : KState) (p : Nat) (tlb : Tlb) (rnd : Nat)
    (fa : Nat) (has : (st.procs p).p_addrspace ≠ none) :
    ∃ st1, vm_fault_sys W st (some p) tlb rnd VM_FAULT_READONLY fa =
        FaultSysOutcome.exited st1 tlb ∧
      (st1.procs p).exitcode = W ∧ (st1.procs p).alive = false ∧
      (∀ x, x ≠ p → st1.procs x = st.procs x) := by
  obtain ⟨st1, h⟩ := sys__exit_some st p W has
  obtain ⟨hx, _, _, _, _, hcode, halive, _, _⟩ := sys__exit_fields st st1 p W h
  refine ⟨st1, ?_, hcode, halive, hx⟩
  unfold vm_fault_sys vm_fault
  simp only [if_true, h]

/-- C20, instantiated: the child of `forkedState` takes a read-only fault. -/
theorem vm_fault_readonly_exits_witness :
    ∃ st1, vm_fault_sys 3 forkedState (some 2) tlbFull 0 VM_FAULT_READONLY 0x400010 =
        FaultSysOutcome.exited st1 tlbFull ∧
      (st1.procs 2).exitcode = 3 ∧ (st1.procs 2).alive = false ∧
      (∀ x, x ≠ 2 → st1.procs x = forkedState.procs x) :=
  vm_fault_readonly_exits 3 forkedState 2 tlbFull 0 0x400010 (by decide)

/-! ## Bootstrap layout, zero-page requests, waiting after an error: claims -/

/-- C24. For page-aligned `lo ≤ hi < 2^32`, `vm_bootstrap` sets
`numpages = (hi - lo) / (PAGE_SIZE + sizeof(unsigned long))`, puts the core-map of
`numpages` zero words at `lo`, sets `page_start` to the end of the table rounded up to a
page, and the table ends at or before `page_start` while all managed frames fit below
`hi`. -/
theorem vm_bootstrap_layout (lo hi : Nat) (st0 : CoreState)
    (hlo : lo % PAGE_SIZE = 0) (hhi : hi % PAGE_SIZE = 0) (hle : lo ≤ hi)
    (hlt : hi < WORD) :
    (vm_bootstrap lo hi st0).numpages = (hi - lo) / (PAGE_SIZE + SIZEOF_ULONG) ∧
    (vm_bootstrap lo hi st0).coremap = lo ∧
    (vm_bootstrap lo hi st0).table.length = (vm_bootstrap lo hi st0).numpages ∧
    (∀ i, (vm_bootstrap lo hi st0).table.getD i 0 = 0) ∧
    (vm_bootstrap lo hi st0).core_created = true ∧
    (vm_bootstrap lo hi st0).page_start =
      (lo + (vm_bootstrap lo hi st0).numpages * SIZEOF_ULONG + PAGE_SIZE - 1)
        / PAGE_SIZE * PAGE_SIZE ∧
    lo + (vm_bootstrap lo hi st0).numpages * SIZEOF_ULONG ≤
      (vm_bootstrap lo hi st0).page_start ∧
    (vm_bootstrap lo hi st0).page_start +
      (vm_bootstrap lo hi st0).numpages * PAGE_SIZE ≤ hi := by
  obtain ⟨a, rfl⟩ : ∃ a, lo = 4096 * a :=
    ⟨lo / 4096, by simp only [PAGE_SIZE] at hlo; omega⟩
  obtain ⟨b, rfl⟩ : ∃ b, hi = 4096 * b :=
    ⟨hi / 4096, by simp only [PAGE_SIZE] at hhi; omega⟩
  have hW : 4096 * b < 4294967296 := by simpa [WORD] using hlt
  have e : (4096 * b + 4294967296 - 4096 * a) % 4294967296 = 4096 * b - 4096 * a := by
    omega
  simp only [vm_bootstrap, ROUNDUP, WORD, PAGE_SIZE, SIZEOF_ULONG, Nat.reducePow,
    Nat.reduceAdd, e, List.length_replicate, true_and]
  generalize hn : (4096 * b - 4096 * a) / 4100 = n
  have h1 : 4100 * n ≤ 4096 * b - 4096 * a := by omega
  have h3 : (4096 * a + n * 4) % 4294967296 = 4096 * a + n * 4 := by omega
  have h4 : (4096 * a + n * 4 + 4096 - 1) % 4294967296 = 4096 * a + n * 4 + 4096 - 1 := by
    omega
  have h2 : (4096 * a + n * 4 + 4096 - 1) / 4096 = a + (n + 1023) / 1024 := by omega
  have h5 : a + (n + 1023) / 1024 + n ≤ b := by omega
  have h6 : (a + (n + 1023) / 1024) * 4096 % 4294967296 =
      (a + (n + 1023) / 1024) * 4096 := by omega
  rw [h3, h4, h2, h6]
  clear h2 h3 h4 h6 e hlo hhi hlt
  refine ⟨?_, ?_, ?_, ?_⟩
  · intro i
    rw [List.getD_eq_getElem?_getD, List.getElem?_replicate]
    split <;> rfl
  · omega
  · omega
  · omega

/-- C24, instantiated on the 512 KB machine: 79 frames, table at `0x30000`, frames from
`0x31000`. -/
theorem vm_bootstrap_layout_witness :
    (vm_bootstrap 0x30000 0x80000 (bootState 0x30000 0x80000)).numpages = 79 ∧
    (vm_bootstrap 0x30000 0x80000 (bootState 0x30000 0x80000)).page_start = 0x31000 ∧
    (vm_bootstrap 0x30000 0x80000 (bootState 0x30000 0x80000)).page_start +
      (vm_bootstrap 0x30000 0x80000 (bootState 0x30000 0x80000)).numpages * PAGE_SIZE
      ≤ 0x80000 :=
  ⟨by decide, by decide,
   (vm_bootstrap_layout 0x30000 0x80000 (bootState 0x30000 0x80000) (by decide)
      (by decide) (by decide) (by decide)).2.2.2.2.2.2.2⟩

/-- For `n ≥ 1` the allocator writes free entries only: every entry that was non-zero
before a call that returns keeps its value. -/
theorem getppages_keeps_nonzero (st st1 : CoreState) (n a : Nat) (hboot : AfterBootstrap st)
    (hn : 1 ≤ n) (h : getppages st n = some (a, st1)) :
    ∀ j, st.table.getD j 0 ≠ 0 → st1.table.getD j 0 = st.table.getD j 0 := by
  obtain ⟨s, hfr, _, _, hst1⟩ := getppages_some st st1 n a hboot hn h
  intro j hj
  rw [hst1]
  show (markLoop s n s st.table).getD j 0 = _
  rw [markLoop_getD s n s st.table j hfr.1]
  by_cases hin : s ≤ j ∧ j < s + n
  · have hz := hfr.2 (j - s) (by omega)
    have e : s + (j - s) = j := by omega
    rw [e] at hz
    exact absurd hz hj
  · rw [if_neg hin]

/-- C25 (evaluation at the failing input). `holeState` is reachable (three frames;
`getppages(1)` twice, then `free_kpages` on the first run) and has the core-map
`[0, 1, 0]`. `getppages(0)` returns `0x2000` and leaves `[1, 2, 0]`: the entry of the
allocated middle frame, which was 1, has been overwritten with 2. -/
theorem getppages_zero_overwrites :
    Reachable holeState ∧ AfterBootstrap holeState ∧ holeState.table = [0, 1, 0] ∧
    getppages holeState 0 = some (0x2000, { holeState with table := [1, 2, 0] }) := by
  have h0 : Reachable (vm_bootstrap 0x1000 0x5000 (bootState 0x1000 0x5000)) :=
    Reachable.boot _ _ _ (by decide) (by decide)
  have h1 := Reachable.alloc _ { holeState with table := [1, 0, 0] } 1 0x2000
    h0 (by decide) (by decide)
  have h2 := Reachable.alloc _ { holeState with table := [1, 1, 0] } 1 0x3000
    h1 (by decide) (by decide)
  have h3 := Reachable.free _ 0 h2 (by decide) (by decide)
  have e : free_kpages { holeState with table := [1, 1, 0] }
      (PADDR_TO_KVADDR (({ holeState with table := [1, 1, 0] } : CoreState).page_start
        + 0 * PAGE_SIZE) % WORD) = holeState := by decide
  refine ⟨?_, ⟨rfl, rfl, 0x1000, 0x5000, bootState 0x1000 0x5000, by decide, by decide,
    rfl, rfl⟩, rfl, by decide⟩
  rw [← e]
  exact h3

/-- C23 (counterexample). In `exitedState` the child (handle 2, pid 3) has not been waited
for. The parent's `sys_waitpid` with `options = 1` returns `EINVAL` and has set the
child's `hasWaited` flag; the next call, with `options = 0`, returns -2 ("already
waited") although no call has returned the exit status. -/
theorem sys_waitpid_error_sets_flag :
    ∃ st1, sys_waitpid exitedState 1 3 0x7fff0000 1 =
        WaitOutcome.returned EINVAL none st1 ∧
      (exitedState.procs 2).hasWaited = false ∧ (st1.procs 2).hasWaited = true ∧
      sys_waitpid st1 1 3 0x7fff0000 0 = WaitOutcome.returned (-2) none st1 := by
  refine ⟨_, rfl, ?_, ?_, ?_⟩
  · decide
  · decide
  · rfl

/-- C23 (amended). A `sys_waitpid` call on an exited, not yet waited-for child that
returns an error because `options` is not 0 (`EINVAL`) or because the status cannot be
copied out (`EFAULT`) has set the child's `hasWaited` flag before the error was found;
every later call on that child then returns -2 ("already waited"). -/
theorem sys_waitpid_error_marks_waited (st : KState) (p ch : Nat) (pid : Int)
    (status : Nat) (options : Int) (hchild : search_pid st p pid = some ch)
    (hexit : (st.procs ch).alive = false) (hnw : (st.procs ch).hasWaited = false)
    (herr : options ≠ 0 ∨ st.umem status = none) :
    ∃ r st1, sys_waitpid st p pid status options = WaitOutcome.returned r none st1 ∧
      (r = EINVAL ∨ r = EFAULT) ∧
      (st1.procs ch).hasWaited = true ∧ st1.umem = st.umem ∧
      (∀ status1 options1,
        sys_waitpid st1 p pid status1 options1 = WaitOutcome.returned (-2) none st1) := by
  have hfin : ∃ r, sys_waitpid st p pid status options =
      WaitOutcome.returned r none (setProc st ch { st.procs ch with hasWaited := true }) ∧
      (r = EINVAL ∨ r = EFAULT) := by
    unfold sys_waitpid
    rw [hchild]
    simp only [hnw, Bool.false_eq_true, if_false]
    simp only [setProc_self, hexit, Bool.false_eq_true, if_false]
    unfold waitpid_finish
    by_cases ho : options = 0
    · have hu : st.umem status = none := by
        rcases herr with h | h
        · exact absurd ho h
        · exact h
      refine ⟨EFAULT, ?_, Or.inr rfl⟩
      simp only [ho, ne_eq, not_true_eq_false, if_false, copyout, setProc_umem, hu]
      simp [EFAULT]
    · refine ⟨EINVAL, ?_, Or.inl rfl⟩
      simp only [ne_eq, ho, not_false_eq_true, if_true]
  obtain ⟨r, hr, hrv⟩ := hfin
  refine ⟨r, _, hr, hrv, by rw [setProc_self], rfl, ?_⟩
  intro status1 options1
  have hfield : ∀ x,
      ((setProc st ch { st.procs ch with hasWaited := true }).procs x).children =
        (st.procs x).children ∧
      ((setProc st ch { st.procs ch with hasWaited := true }).procs x).destroyed =
        (st.procs x).destroyed ∧
      ((setProc st ch { st.procs ch with hasWaited := true }).procs x).pid =
        (st.procs x).pid := by
    intro x
    by_cases hx : x = ch
    · subst hx; simp [setProc_self]
    · simp [setProc_ne, hx]
  have hs1 : search_pid (setProc st ch { st.procs ch with hasWaited := true }) p pid
      = some ch := by
    rw [search_pid_congr st _ p pid (hfield p).1 (fun x => (hfield x).2.1)
      (fun x => (hfield x).2.2)]
    exact hchild
  exact sys_waitpid_already _ p ch pid status1 options1 hs1 (by rw [setProc_self])

/-- C23 (amended), instantiated: the parent of `exitedState` calls with `options = 1`. -/
theorem sys_waitpid_error_marks_waited_witness :
    ∃ r st1, sys_waitpid exitedState 1 3 0x7fff0000 1 = WaitOutcome.returned r none st1 ∧
      (r = EINVAL ∨ r = EFAULT) ∧
      (st1.procs 2).hasWaited = true ∧ st1.umem = exitedState.umem ∧
      (∀ status1 options1,
        sys_waitpid st1 1 3 status1 options1 = WaitOutcome.returned (-2) none st1) :=
  sys_waitpid_error_marks_waited exitedState 1 2 3 0x7fff0000 1 (by decide) (by decide)
    (by decide) (Or.inl (by decide))

/-! ## The TLB fill and the loaded flag of a copy: claims -/

/-- The fault handler past its checks: the outcome is that of the TLB fill loop, and
of `tlb_random` when the loop finds no invalid slot. -/
theorem vm_fault_fill (as : addrspace) (tlb : Tlb) (rnd : Nat) (ft : Int) (fa : Nat)
    (paddr : Nat) (isCode : Bool) (hassert : setupAsserts as)
    (hft : ft = VM_FAULT_READ ∨ ft = VM_FAULT_WRITE)
    (hc : classify as (fa &&& PAGE_FRAME) = some (paddr, isCode))
    (hal : paddr &&& PAGE_FRAME = paddr) :
    vm_fault (some (some as)) tlb rnd ft fa =
      match fillLoop tlb (fa &&& PAGE_FRAME) (mkElo as paddr isCode) NUM_TLB 0 with
      | some tlb1 => FaultOutcome.ret 0 tlb1
      | none => FaultOutcome.ret 0
          (tlb_random tlb rnd (fa &&& PAGE_FRAME) (mkElo as paddr isCode)) := by
  have hro := fault_type_not_readonly ft hft
  unfold vm_fault
  simp only [if_neg hro, hft, not_true_eq_false, if_false, hassert, hc, hal, ne_eq]

/-- Reading a slot of a TLB after one slot has been written. -/
theorem tlb_read_set (tlb : Tlb) (slot j : Nat) (e : TlbEntry) :
    tlb_read (tlb.set slot e) j =
      if j = slot ∧ slot < tlb.length then e else tlb_read tlb j := by
  unfold tlb_read
  rw [List.getD_eq_getElem?_getD, List.getD_eq_getElem?_getD, List.getElem?_set]
  by_cases hj : j = slot
  · subst hj
    by_cases hl : j < tlb.length
    · simp [hl]
    · have hn : tlb[j]? = none := List.getElem?_eq_none (Nat.le_of_not_lt hl)
      simp [hl, hn]
  · have hj2 : ¬ slot = j := fun h => hj h.symm
    simp [hj, hj2]

/-- C26. When `vm_fault` returns 0 for a 64-slot TLB with at least one invalid slot, it
has written exactly one slot: the lowest-index slot whose valid bit is clear now holds
`(fault address & PAGE_FRAME, elo)`, where `elo` is the word built from the physical
address of the page and the flag bits (its frame bits are that physical address, its
valid bit is set); every other slot reads as before and the TLB keeps its size. -/
theorem vm_fault_fills_lowest_invalid (cur : Option (Option addrspace)) (tlb tlb1 : Tlb)
    (rnd : Nat) (ft : Int) (fa : Nat) (hlen : tlb.length = NUM_TLB)
    (h : vm_fault cur tlb rnd ft fa = FaultOutcome.ret 0 tlb1)
    (hinv : ∃ i, i < NUM_TLB ∧ (tlb_read tlb i).2 &&& TLBLO_VALID = 0) :
    ∃ as paddr isCode slot, cur = some (some as) ∧
      classify as (fa &&& PAGE_FRAME) = some (paddr, isCode) ∧
      slot < NUM_TLB ∧ (tlb_read tlb slot).2 &&& TLBLO_VALID = 0 ∧
      (∀ j, j < slot → (tlb_read tlb j).2 &&& TLBLO_VALID ≠ 0) ∧
      tlb_read tlb1 slot = (fa &&& PAGE_FRAME, mkElo as paddr isCode) ∧
      mkElo as paddr isCode &&& PAGE_FRAME = paddr ∧
      mkElo as paddr isCode &&& TLBLO_VALID = TLBLO_VALID ∧
      (∀ j, j ≠ slot → tlb_read tlb1 j = tlb_read tlb j) ∧
      tlb1.length = tlb.length := by
  obtain ⟨as, paddr, isCode, hcur, hassert, hft, hc, hal⟩ :=
    vm_fault_ret_zero cur tlb tlb1 rnd ft fa h
  subst hcur
  rw [vm_fault_fill as tlb rnd ft fa paddr isCode hassert hft hc hal] at h
  cases hfl : fillLoop tlb (fa &&& PAGE_FRAME) (mkElo as paddr isCode) NUM_TLB 0 with
  | none =>
      obtain ⟨i, hi, hiv⟩ := hinv
      exact absurd hiv (fillLoop_none tlb _ _ NUM_TLB 0 hfl i (Nat.zero_le _) (by omega))
  | some t =>
      rw [hfl] at h
      simp only [FaultOutcome.ret.injEq, true_and] at h
      obtain ⟨slot, _, hs2, hs3, hs4, hs5⟩ := fillLoop_some tlb _ _ NUM_TLB 0 t hfl
      have hb := mkElo_bits as paddr isCode
      refine ⟨as, paddr, isCode, slot, rfl, hc, by omega, hs3,
        fun j hj => hs4 j (Nat.zero_le _) hj, ?_, hb.2.2.2 hal, hb.1, ?_, ?_⟩
      · rw [← h, hs5, tlb_read_set, if_pos ⟨rfl, by omega⟩]
      · intro j hj
        rw [← h, hs5, tlb_read_set, if_neg (fun hh => hj hh.1)]
      · rw [← h, hs5, List.length_set]

/-- C26, instantiated: a read fault at `0x401234` on `asDemo` with slots 0 and 1 valid
and all others invalid fills slot 2. -/
theorem vm_fault_fills_lowest_invalid_witness :
    ∃ as paddr isCode slot, some (some asDemo) = some (some as) ∧
      classify as (0x401234 &&& PAGE_FRAME) = some (paddr, isCode) ∧
      slot < NUM_TLB ∧
      (tlb_read ((tlbEmpty.set 0 (0, TLBLO_VALID)).set 1 (0, TLBLO_VALID)) slot).2
        &&& TLBLO_VALID = 0 ∧
      (∀ j, j < slot →
        (tlb_read ((tlbEmpty.set 0 (0, TLBLO_VALID)).set 1 (0, TLBLO_VALID)) j).2
          &&& TLBLO_VALID ≠ 0) ∧
      tlb_read
          (((tlbEmpty.set 0 (0, TLBLO_VALID)).set 1 (0, TLBLO_VALID)).set 2
            (0x401000, 0x32200)) slot
        = (0x401234 &&& PAGE_FRAME, mkElo as paddr isCode) ∧
      mkElo as paddr isCode &&& PAGE_FRAME = paddr ∧
      mkElo as paddr isCode &&& TLBLO_VALID = TLBLO_VALID ∧
      (∀ j, j ≠ slot →
        tlb_read
          (((tlbEmpty.set 0 (0, TLBLO_VALID)).set 1 (0, TLBLO_VALID)).set 2
            (0x401000, 0x32200)) j
        = tlb_read ((tlbEmpty.set 0 (0, TLBLO_VALID)).set 1 (0, TLBLO_VALID)) j) ∧
      (((tlbEmpty.set 0 (0, TLBLO_VALID)).set 1 (0, TLBLO_VALID)).set 2
        (0x401000, 0x32200)).length
        = ((tlbEmpty.set 0 (0, TLBLO_VALID)).set 1 (0, TLBLO_VALID)).length :=
  vm_fault_fills_lowest_invalid (some (some asDemo))
    ((tlbEmpty.set 0 (0, TLBLO_VALID)).set 1 (0, TLBLO_VALID))
    (((tlbEmpty.set 0 (0, TLBLO_VALID)).set 1 (0, TLBLO_VALID)).set 2 (0x401000, 0x32200))
    9 VM_FAULT_READ 0x401234 (by decide) (by decide) ⟨2, by decide, by decide⟩

/-- Reading a list of words after one entry has been written. -/
theorem getD_set_nat (t : List Nat) (i x v : Nat) :
    (t.set i v).getD x 0 = if x = i ∧ i < t.length then v else t.getD x 0 := by
  rw [List.getD_eq_getElem?_getD, List.getD_eq_getElem?_getD, List.getElem?_set]
  by_cases hx : x = i
  · subst hx
    by_cases hl : x < t.length
    · simp [hl]
    · have hn : t[x]? = none := List.getElem?_eq_none (Nat.le_of_not_lt hl)
      simp [hl, hn]
  · have hx2 : ¬ i = x := fun h => hx h.symm
    simp [hx, hx2]

/-- Two lists of words of the same length with the same entries are equal. -/
theorem list_eq_of_getD (l1 l2 : List Nat) (hl : l1.length = l2.length)
    (h : ∀ x, l1.getD x 0 = l2.getD x 0) : l1 = l2 := by
  apply List.ext_getElem hl
  intro x h1 h2
  have := h x
  rw [List.getD_eq_getElem _ _ h1, List.getD_eq_getElem _ _ h2] at this
  exact this

/-- The loop of `free_kpages` on a run `s .. s+n-1` holding `1 .. n` that is followed by
an entry other than `n + 1`: started with `tracker` inside the run, it resets the entries
from `tracker` to the end of the run and nothing else. -/
theorem freeLoop_run (s n : Nat) (hW : n + 1 < WORD) :
    ∀ (d rem tr : Nat) (t : List Nat), s ≤ tr → tr + d + 1 = s + n → d + 1 ≤ rem →
      s + n < t.length → (∀ k, tr ≤ k → k < s + n → t.getD k 0 = k + 1 - s) →
      t.getD (s + n) 0 ≠ n + 1 →
      (freeLoop rem (tr + 1) tr (tr + 1 - s) t).length = t.length ∧
      ∀ x, (freeLoop rem (tr + 1) tr (tr + 1 - s) t).getD x 0 =
        if tr ≤ x ∧ x < s + n then 0 else t.getD x 0 := by
  intro d
  induction d with
  | zero =>
      intro rem tr t hs hd hrem hlen hrun hnext
      obtain ⟨r, rfl⟩ : ∃ r, rem = r + 1 := ⟨rem - 1, by omega⟩
      have e1 : tr + 1 = s + n := by omega
      have e2 : (tr + 1 - s + 1) % WORD = n + 1 := by
        rw [Nat.mod_eq_of_lt (by omega)]
        omega
      rw [freeLoop, e2, e1, if_pos hnext]
      refine ⟨by simp, ?_⟩
      intro x
      rw [getD_set_nat]
      by_cases hx : x = tr
      · rw [if_pos ⟨hx, by omega⟩, if_pos ⟨by omega, by omega⟩]
      · rw [if_neg (fun hh => hx hh.1), if_neg (by omega)]
  | succ d ih =>
      intro rem tr t hs hd hrem hlen hrun hnext
      obtain ⟨r, rfl⟩ : ∃ r, rem = r + 1 := ⟨rem - 1, by omega⟩
      have e1 : t.getD (tr + 1) 0 = tr + 1 + 1 - s := hrun (tr + 1) (by omega) (by omega)
      have e2 : (tr + 1 - s + 1) % WORD = tr + 1 + 1 - s := by
        rw [Nat.mod_eq_of_lt (by omega)]
        omega
      have hcont : ¬ (t.getD (tr + 1) 0 ≠ (tr + 1 - s + 1) % WORD) := by
        rw [e1, e2]
        simp
      have e3 : (t.set tr 0).getD (tr + 1) 0 = tr + 1 + 1 - s := by
        rw [getD_set_nat, if_neg (by omega), e1]
      rw [freeLoop, if_neg hcont]
      simp only []
      rw [e3]
      have hrun1 : ∀ k, tr + 1 ≤ k → k < s + n → (t.set tr 0).getD k 0 = k + 1 - s := by
        intro k hk1 hk2
        rw [getD_set_nat, if_neg (by omega)]
        exact hrun k (by omega) hk2
      have hnext1 : (t.set tr 0).getD (s + n) 0 ≠ n + 1 := by
        rw [getD_set_nat, if_neg (by omega)]
        exact hnext
      obtain ⟨hl, hg⟩ := ih r (tr + 1) (t.set tr 0) (by omega) (by omega) (by omega)
        (by simp; omega) hrun1 hnext1
      refine ⟨by rw [hl]; simp, ?_⟩
      intro x
      rw [hg x, getD_set_nat]
      by_cases hx : x = tr
      · subst hx
        rw [if_neg (by omega), if_pos ⟨rfl, by omega⟩, if_pos ⟨by omega, by omega⟩]
      · by_cases hin : tr + 1 ≤ x ∧ x < s + n
        · rw [if_pos hin, if_pos ⟨by omega, hin.2⟩]
        · rw [if_neg hin, if_neg (fun hh => hx hh.1), if_neg (by omega)]

/-- In a well-formed core-map the entry that follows a free run of `n ≥ 1` entries is
not `n + 1`. -/
theorem wellFormed_after_free_run (t : List Nat) (s n : Nat) (hwf : wellFormed t)
    (hn : 1 ≤ n) (hfr : freeRun t s n) (hlt : s + n < t.length) :
    t.getD (s + n) 0 ≠ n + 1 := by
  intro hcon
  rcases hwf (s + n) hlt with h0 | ⟨s', _, m, _, h1, h2, _, hblock, _⟩
  · omega
  · have hv := hblock (s + n - s') (by omega)
    have e : s' + (s + n - s') = s + n := by omega
    rw [e, hcon] at hv
    have hs : s' = s := by omega
    have h0 := hblock 0 (by omega)
    have hz := hfr.2 0 (by omega)
    rw [hs] at h0
    rw [h0] at hz
    omega

/-- C22. From a state after bootstrap whose core-map is well formed, let `getppages(n)`,
`n ≥ 1`, return `a` for a run that ends before the last core-map entry. Then
`free_kpages` on the kernel address of `a` resets the `n` entries of that run (which held
`1 .. n`) to 0 and changes no other entry; the state equals the state before the
allocation, and `getppages(n)` called next returns `a` again. -/
theorem free_kpages_undoes_getppages (st st1 : CoreState) (n a : Nat)
    (hboot : AfterBootstrap st) (hwf : wellFormed st.table) (hn : 1 ≤ n)
    (hg : getppages st n = some (a, st1))
    (hend : a + n * PAGE_SIZE < st.page_start + st.numpages * PAGE_SIZE) :
    (∃ s, a = st.page_start + s * PAGE_SIZE ∧ s + n < st.numpages ∧
      (∀ k, k < n → st1.table.getD (s + k) 0 = k + 1 ∧
        (free_kpages st1 (PADDR_TO_KVADDR a)).table.getD (s + k) 0 = 0) ∧
      (∀ j, (j < s ∨ s + n ≤ j) →
        (free_kpages st1 (PADDR_TO_KVADDR a)).table.getD j 0 = st1.table.getD j 0)) ∧
    free_kpages st1 (PADDR_TO_KVADDR a) = st ∧
    getppages (free_kpages st1 (PADDR_TO_KVADDR a)) n = some (a, st1) := by
  obtain ⟨s, hfr, _, ha, hst1⟩ := getppages_some st st1 n a hboot hn hg
  have hw := afterBootstrap_nowrap st hboot
  have hl := hboot.2.1
  have hlen := hfr.1
  have hsn : s + n < st.numpages := by
    rw [ha] at hend
    simp only [PAGE_SIZE] at hend
    omega
  have hnW : n + 1 < WORD := by
    simp only [WORD, PAGE_SIZE] at *
    omega
  have hnext := wellFormed_after_free_run st.table s n hwf hn hfr (by omega)
  -- the core-map after the allocation
  have ht1 : ∀ x, st1.table.getD x 0 =
      if s ≤ x ∧ x < s + n then x + 1 - s else st.table.getD x 0 := by
    intro x
    rw [hst1]
    show (markLoop s n s st.table).getD x 0 = _
    rw [markLoop_getD s n s st.table x hlen]
    by_cases hx : s ≤ x ∧ x < s + n
    · rw [if_pos hx, if_pos hx, Nat.mod_eq_of_lt (by omega)]
    · rw [if_neg hx, if_neg hx]
  have hl1 : st1.table.length = st.table.length := by
    rw [hst1]
    exact markLoop_length s n s st.table
  have hnp1 : st1.numpages = st.numpages := by rw [hst1]
  have hps1 : st1.page_start = st.page_start := by rw [hst1]
  -- the index `free_kpages` computes
  have hidx : ROUNDUP (((KVADDR_TO_PADDR (PADDR_TO_KVADDR a) + WORD - st1.page_start) % WORD)
      / PAGE_SIZE) 1 = s := by
    rw [hps1, ha]
    simp only [ROUNDUP, KVADDR_TO_PADDR, PADDR_TO_KVADDR, MIPS_KSEG0, WORD, PAGE_SIZE] at *
    omega
  have htv : st1.table.getD s 0 = s + 1 - s := by
    rw [ht1 s, if_pos ⟨Nat.le_refl _, by omega⟩]
  obtain ⟨hfl, hfg⟩ := freeLoop_run s n hnW (n - 1) (st1.numpages - (s + 1)) s st1.table
    (Nat.le_refl _) (by omega) (by rw [hnp1]; omega) (by rw [hl1]; omega)
    (fun k hk1 hk2 => by rw [ht1 k, if_pos ⟨hk1, hk2⟩])
    (by rw [ht1 (s + n), if_neg (by omega)]; exact hnext)
  have htab : (free_kpages st1 (PADDR_TO_KVADDR a)).table =
      freeLoop (st1.numpages - (s + 1)) (s + 1) s (s + 1 - s) st1.table := by
    unfold free_kpages
    simp only [hidx, htv]
  have hback : (free_kpages st1 (PADDR_TO_KVADDR a)).table = st.table := by
    rw [htab]
    apply list_eq_of_getD _ _ (by rw [hfl, hl1])
    intro x
    rw [hfg x]
    by_cases hx : s ≤ x ∧ x < s + n
    · rw [if_pos hx]
      have := hfr.2 (x - s) (by omega)
      have e : s + (x - s) = x := by omega
      rw [e] at this
      exact this.symm
    · rw [if_neg hx, ht1 x, if_neg hx]
  have hstate : free_kpages st1 (PADDR_TO_KVADDR a) = st := by
    have e : free_kpages st1 (PADDR_TO_KVADDR a) =
        { st1 with table := (free_kpages st1 (PADDR_TO_KVADDR a)).table } := rfl
    rw [e, hback, hst1]
  refine ⟨⟨s, ha, hsn, ?_, ?_⟩, hstate, by rw [hstate]; exact hg⟩
  · intro k hk
    refine ⟨?_, ?_⟩
    · rw [ht1 (s + k), if_pos ⟨by omega, by omega⟩]
      omega
    · rw [hback]
      exact hfr.2 k hk
  · intro j hj
    rw [hback, ht1 j, if_neg (by omega)]

/-- C22, instantiated on `holeState` (core-map `[0, 1, 0]`): `getppages(1)` returns
`0x2000` and leaves `[1, 1, 0]`; freeing it gives `[0, 1, 0]` back. -/
theorem free_kpages_undoes_getppages_witness :
    (∃ s, 0x2000 = holeState.page_start + s * PAGE_SIZE ∧ s + 1 < holeState.numpages ∧
      (∀ k, k < 1 →
        ({ holeState with table := [1, 1, 0] } : CoreState).table.getD (s + k) 0 = k + 1 ∧
        (free_kpages { holeState with table := [1, 1, 0] }
          (PADDR_TO_KVADDR 0x2000)).table.getD (s + k) 0 = 0) ∧
      (∀ j, (j < s ∨ s + 1 ≤ j) →
        (free_kpages { holeState with table := [1, 1, 0] }
          (PADDR_TO_KVADDR 0x2000)).table.getD j 0 =
        ({ holeState with table := [1, 1, 0] } : CoreState).table.getD j 0)) ∧
    free_kpages { holeState with table := [1, 1, 0] } (PADDR_TO_KVADDR 0x2000) =
      holeState ∧
    getppages (free_kpages { holeState with table := [1, 1, 0] } (PADDR_TO_KVADDR 0x2000)) 1
      = some (0x2000, { holeState with table := [1, 1, 0] }) :=
  free_kpages_undoes_getppages holeState { holeState with table := [1, 1, 0] } 1 0x2000
    ⟨rfl, rfl, 0x1000, 0x5000, bootState 0x1000 0x5000, by decide, by decide, rfl, rfl⟩
    (by decide) (by decide) (by decide) (by decide)

/-! ## The argument layout on the user stack: claims -/

/-- Without 32-bit wrap-around the accumulated length is the sum of `strlen + 1`. -/
theorem argv_total_len_sum (lens : List Nat) :
    ∀ acc, acc + (lens.map (· + 1)).sum < WORD →
      lens.foldl (fun acc len => (acc + (len + 1) % WORD) % WORD) acc =
        acc + (lens.map (· + 1)).sum := by
  induction lens with
  | nil => intro acc _; simp
  | cons len rest ih =>
      intro acc h
      simp only [List.map_cons, List.sum_cons] at h
      simp only [List.foldl_cons, List.map_cons, List.sum_cons]
      have e : (acc + (len + 1) % WORD) % WORD = acc + (len + 1) := by
        rw [Nat.mod_eq_of_lt (a := len + 1) (by omega), Nat.mod_eq_of_lt (by omega)]
      rw [e, ih (acc + (len + 1)) (by omega)]
      omega

theorem prefixBytes_zero (lens : List Nat) : prefixBytes lens 0 = 0 := by
  simp [prefixBytes]

theorem prefixBytes_succ (len : Nat) (rest : List Nat) (j : Nat) :
    prefixBytes (len :: rest) (j + 1) = len + 1 + prefixBytes rest j := by
  simp [prefixBytes]

theorem prefixBytes_le (lens : List Nat) :
    ∀ i, prefixBytes lens i ≤ (lens.map (· + 1)).sum := by
  induction lens with
  | nil => intro i; simp [prefixBytes]
  | cons len rest ih =>
      intro i
      cases i with
      | zero => simp [prefixBytes]
      | succ j =>
          rw [prefixBytes_succ]
          simp only [List.map_cons, List.sum_cons]
          have := ih j
          omega

theorem prefixBytes_next (lens : List Nat) :
    ∀ i, i < lens.length →
      prefixBytes lens (i + 1) = prefixBytes lens i + (lens.getD i 0 + 1) := by
  induction lens with
  | nil => intro i hi; simp at hi
  | cons len rest ih =>
      intro i hi
      cases i with
      | zero => simp [prefixBytes]
      | succ j =>
          simp only [List.length_cons] at hi
          rw [prefixBytes_succ, prefixBytes_succ, ih j (by omega)]
          simp only [List.getD_cons_succ]
          omega

/-- The copy loop of `runprogram` without 32-bit wrap-around: the strings are laid out
one after the other from `currArgAddr` on, and each start address is recorded. -/
theorem copyArgsLoop_spec (ok : Nat → Nat → Bool) :
    ∀ (lens : List Nat) (cur : Nat) (offs res : List Nat) (fin : Nat),
      copyArgsLoop ok lens cur offs = some (res, fin) →
      cur + (lens.map (· + 1)).sum < WORD →
      res.length = offs.length + lens.length ∧ fin = cur + (lens.map (· + 1)).sum ∧
      (∀ i, i < offs.length → res.getD i 0 = offs.getD i 0) ∧
      (∀ i, i < lens.length → res.getD (offs.length + i) 0 = cur + prefixBytes lens i) := by
  intro lens
  induction lens with
  | nil =>
      intro cur offs res fin h _
      simp only [copyArgsLoop, Option.some.injEq, Prod.mk.injEq] at h
      obtain ⟨h1, h2⟩ := h
      subst h1; subst h2
      refine ⟨by simp, by simp, fun i _ => rfl, fun i hi => ?_⟩
      simp at hi
  | cons len rest ih =>
      intro cur offs res fin h hw
      simp only [List.map_cons, List.sum_cons] at hw
      rw [copyArgsLoop] at h
      split at h
      · have e : (cur + (len + 1) % WORD) % WORD = cur + (len + 1) := by
          rw [Nat.mod_eq_of_lt (a := len + 1) (by omega), Nat.mod_eq_of_lt (by omega)]
        rw [e] at h
        obtain ⟨h1, h2, h3, h4⟩ := ih (cur + (len + 1)) (offs ++ [cur]) res fin h (by omega)
        simp only [List.length_append, List.length_singleton] at h1 h3 h4
        refine ⟨?_, ?_, ?_, ?_⟩
        · simp only [List.length_cons]; omega
        · simp only [List.map_cons, List.sum_cons]; omega
        · intro i hi
          rw [h3 i (by omega), List.getD_append _ _ _ _ hi]
        · intro i hi
          cases i with
          | zero =>
              rw [prefixBytes_zero, Nat.add_zero, Nat.add_zero, h3 _ (by omega),
                List.getD_append_right _ _ _ _ (Nat.le_refl _)]
              simp
          | succ j =>
              simp only [List.length_cons] at hi
              have := h4 j (by omega)
              rw [prefixBytes_succ]
              have e2 : offs.length + (j + 1) = offs.length + 1 + j := by omega
              rw [e2, this]
              omega
      · cases h

/-- When every copy succeeds the copy loop runs to its end. -/
theorem copyArgsLoop_total :
    ∀ (lens : List Nat) (cur : Nat) (offs : List Nat),
      ∃ r, copyArgsLoop (fun _ _ => true) lens cur offs = some r := by
  intro lens
  induction lens with
  | nil => intro cur offs; exact ⟨_, rfl⟩
  | cons len rest ih =>
      intro cur offs
      rw [copyArgsLoop, if_pos rfl]
      exact ih _ _

/-- A run of the copy loop in which some copies may fail gives, when it succeeds, the
result of the run in which every copy succeeds. -/
theorem copyArgsLoop_mono (ok : Nat → Nat → Bool) :
    ∀ (lens : List Nat) (cur : Nat) (offs : List Nat) (r : List Nat × Nat),
      copyArgsLoop ok lens cur offs = some r →
      copyArgsLoop (fun _ _ => true) lens cur offs = some r := by
  intro lens
  induction lens with
  | nil => intro cur offs r h; exact h
  | cons len rest ih =>
      intro cur offs r h
      rw [copyArgsLoop] at h
      rw [copyArgsLoop, if_pos rfl]
      split at h
      · exact ih _ _ _ h
      · cases h

/-- The layout `runprogram` reaches does not depend on the copy routines: when it is
produced, it is the layout of the run in which every copy succeeds. -/
theorem runprogram_stack_mono (ok : Nat → Nat → Bool) (lens : List Nat) (L : ArgLayout)
    (h : runprogram_stack ok lens = some L) :
    runprogram_stack (fun _ _ => true) lens = some L := by
  unfold runprogram_stack at h ⊢
  dsimp only at h ⊢
  split at h
  · cases h
  · rename_i offsets cur hcl
    rw [copyArgsLoop_mono ok _ _ _ _ hcl]
    dsimp only
    split at h
    · rw [if_pos rfl]
      exact h
    · cases h

/-- Argument strings and a pointer array that fit in the 512 MB of directly mapped
kernel memory (where `runprogram` and `sys_execv` hold them before the copy) fit below
`USERSTACK`. -/
theorem args_in_kernel_memory_fit (lens : List Nat)
    (h : (lens.length + 1) * 4 + (lens.map (· + 1)).sum ≤ 0x20000000) :
    (lens.length + 1) * 4 + ((lens.map (· + 1)).sum + 3) / 4 * 4 ≤ USERSTACK := by
  simp only [USERSTACK, MIPS_KSEG0]
  omega

/-- C28. For an argument list whose pointer array and strings (rounded up to a multiple
of 4 bytes) fit below `USERSTACK`, as those of every argument list held in kernel memory
do (`args_in_kernel_memory_fit`), the layout `runprogram` computes is: the stack pointer is
`USERSTACK` minus that size; the array of `argc + 1` pointers starts at the stack
pointer; entry `i` is the start of string `i`, which is the end of the array plus the
lengths (with terminators) of the strings before it; entry `argc` is `NULL`; every string
starts at or after the end of the array; and the last string ends at or before
`USERSTACK`. When every copy succeeds the layout is produced. -/
theorem runprogram_stack_layout (lens : List Nat)
    (hfit : (lens.length + 1) * 4 + ((lens.map (· + 1)).sum + 3) / 4 * 4 ≤ USERSTACK) :
    (∃ L, runprogram_stack (fun _ _ => true) lens = some L) ∧
    ∀ (ok : Nat → Nat → Bool) (L : ArgLayout), runprogram_stack ok lens = some L →
      L.stackptr =
        USERSTACK - (lens.length + 1) * 4 - ((lens.map (· + 1)).sum + 3) / 4 * 4 ∧
      L.argvOffset.length = lens.length + 1 ∧
      (∀ i, i < lens.length →
        L.argvOffset.getD i 0 = L.stackptr + (lens.length + 1) * 4 + prefixBytes lens i ∧
        L.stackptr + (lens.length + 1) * 4 ≤ L.argvOffset.getD i 0 ∧
        L.argvOffset.getD i 0 + (lens.getD i 0 + 1) ≤ L.strings_end) ∧
      L.argvOffset.getD lens.length 0 = 0 ∧
      L.strings_end = L.stackptr + (lens.length + 1) * 4 + (lens.map (· + 1)).sum ∧
      L.strings_end ≤ USERSTACK := by
  have hargc : lens.length % WORD = lens.length := by
    simp only [USERSTACK, MIPS_KSEG0, WORD] at *
    omega
  have htot : argv_total_len lens = (lens.map (· + 1)).sum := by
    unfold argv_total_len
    rw [argv_total_len_sum lens 0 (by simp only [USERSTACK, MIPS_KSEG0, WORD] at *; omega)]
    omega
  have hR1 : ROUNDUP ((argv_total_len lens * 1) % WORD) 4 =
      ((lens.map (· + 1)).sum + 3) / 4 * 4 := by
    rw [htot]
    simp only [ROUNDUP, USERSTACK, MIPS_KSEG0, WORD] at *
    omega
  have hO : ((lens.length % WORD + 1) % WORD * 4) % WORD = (lens.length + 1) * 4 := by
    rw [hargc]
    simp only [USERSTACK, MIPS_KSEG0, WORD] at *
    omega
  have hR2 : ROUNDUP ((lens.length + 1) * 4) 4 = (lens.length + 1) * 4 := by
    simp only [ROUNDUP, USERSTACK, MIPS_KSEG0, WORD] at *
    omega
  have hS : (USERSTACK + WORD -
      (((lens.map (· + 1)).sum + 3) / 4 * 4 + (lens.length + 1) * 4) % WORD) % WORD =
      USERSTACK - ((lens.length + 1) * 4 + ((lens.map (· + 1)).sum + 3) / 4 * 4) := by
    simp only [USERSTACK, MIPS_KSEG0, WORD] at *
    omega
  have hC : (USERSTACK - ((lens.length + 1) * 4 + ((lens.map (· + 1)).sum + 3) / 4 * 4)
      + (lens.length + 1) * 4) % WORD =
      USERSTACK - ((lens.length + 1) * 4 + ((lens.map (· + 1)).sum + 3) / 4 * 4)
        + (lens.length + 1) * 4 := by
    simp only [USERSTACK, MIPS_KSEG0, WORD] at *
    omega
  have hunf : ∀ ok, runprogram_stack ok lens =
      match copyArgsLoop ok lens
        (USERSTACK - ((lens.length + 1) * 4 + ((lens.map (· + 1)).sum + 3) / 4 * 4)
          + (lens.length + 1) * 4) [] with
      | none => none
      | some (offsets, cur) =>
          if ok (USERSTACK - ((lens.length + 1) * 4 + ((lens.map (· + 1)).sum + 3) / 4 * 4))
              ((lens.length + 1) * 4) then
            some { stackptr :=
                     USERSTACK - ((lens.length + 1) * 4 + ((lens.map (· + 1)).sum + 3) / 4 * 4),
                   argvOffset := offsets ++ [0], strings_end := cur }
          else none := by
    intro ok
    simp only [runprogram_stack, hR1, hO, hR2, hS, hC]
  constructor
  · rw [hunf]
    obtain ⟨r, hr⟩ := copyArgsLoop_total lens
      (USERSTACK - ((lens.length + 1) * 4 + ((lens.map (· + 1)).sum + 3) / 4 * 4)
        + (lens.length + 1) * 4) []
    rw [hr]
    exact ⟨_, rfl⟩
  · intro ok L h
    rw [hunf] at h
    cases hcl : copyArgsLoop ok lens
        (USERSTACK - ((lens.length + 1) * 4 + ((lens.map (· + 1)).sum + 3) / 4 * 4)
          + (lens.length + 1) * 4) [] with
    | none => rw [hcl] at h; cases h
    | some r =>
        obtain ⟨res, fin⟩ := r
        rw [hcl] at h
        simp only [] at h
        split at h
        · simp only [Option.some.injEq] at h
          obtain ⟨h1, h2, _, h4⟩ := copyArgsLoop_spec ok lens _ [] res fin hcl
            (by simp only [USERSTACK, MIPS_KSEG0, WORD] at *; omega)
          simp only [List.length_nil, Nat.zero_add] at h1 h4
          rw [← h]
          simp only []
          refine ⟨by omega, by simp [h1], ?_, ?_, ?_, ?_⟩
          · intro i hi
            have hget : (res ++ [0]).getD i 0 = res.getD i 0 :=
              List.getD_append _ _ _ _ (by omega)
            have hnx := prefixBytes_next lens i hi
            have hle := prefixBytes_le lens (i + 1)
            rw [hget, h4 i hi, h2]
            refine ⟨rfl, by omega, by omega⟩
          · rw [List.getD_append_right _ _ _ _ (by omega), h1]
            simp
          · rw [h2]
          · rw [h2]
            simp only [USERSTACK, MIPS_KSEG0, WORD] at *
            omega
        · cases h

/-- C28, instantiated: the arguments `"ab"` and `"abc"`; the layout has the
stack pointer `0x7fffffec`, the strings at `0x7ffffff8` and `0x7ffffffb`, and ends at
`0x7fffffff`. -/
theorem runprogram_stack_layout_witness :
    (∃ L, runprogram_stack (fun _ _ => true) [2, 3] = some L) ∧
    ∀ (ok : Nat → Nat → Bool) (L : ArgLayout), runprogram_stack ok [2, 3] = some L →
      L.stackptr =
        USERSTACK - (([2, 3] : List Nat).length + 1) * 4
          - ((([2, 3] : List Nat).map (· + 1)).sum + 3) / 4 * 4 ∧
      L.argvOffset.length = ([2, 3] : List Nat).length + 1 ∧
      (∀ i, i < ([2, 3] : List Nat).length →
        L.argvOffset.getD i 0 =
          L.stackptr + (([2, 3] : List Nat).length + 1) * 4 + prefixBytes [2, 3] i ∧
        L.stackptr + (([2, 3] : List Nat).length + 1) * 4 ≤ L.argvOffset.getD i 0 ∧
        L.argvOffset.getD i 0 + (([2, 3] : List Nat).getD i 0 + 1) ≤ L.strings_end) ∧
      L.argvOffset.getD ([2, 3] : List Nat).length 0 = 0 ∧
      L.strings_end =
        L.stackptr + (([2, 3] : List Nat).length + 1) * 4
          + (([2, 3] : List Nat).map (· + 1)).sum ∧
      L.strings_end ≤ USERSTACK :=
  runprogram_stack_layout [2, 3] (by decide)

end Sys161
